import Mathlib

/-!
# Device discovery of the Visionary base library

A shallow embedding of `VisionaryAutoIP.cpp`, `NetLink.cpp` and
`VisionaryType.cpp`: the binary device-report decoder, the XML device-report
decoder, the scan loop, the discovery frame, the netmask derivation, the
reconfiguration request (`assign`), sending and receiving on the link and the
product type names, followed by the properties established about them.  The decoders
are compared with reference definitions: a reference encoding of the binary
report, and the XML report stated over the parsed document.

Conventions of the embedding:

* `std::vector<uint8_t>` and `std::string` are lists of bytes (`Fin 256`);
* a machine integer is a `Nat`, reduced modulo `2 ^ w` where the C++ type
  can wrap;
* a read through `buffer.data() + offset` that touches an index at or beyond
  `buffer.size()` is undefined behaviour in C++; the embedding makes it an
  explicit `Fault`, and so is `ports[0]` on an empty vector;
* a scalar member that C++ leaves indeterminate (never assigned) is `none`.
-/

namespace visionary

/-! ## Bytes and strings -/

/-- One `uint8_t`. -/
abbrev Byte := Fin 256

/-- The `ByteBuffer` of the source, `std::vector<uint8_t>`. -/
abbrev ByteBuffer := List Byte

/-- A `std::string`, as the sequence of its bytes. -/
abbrev CppString := List Byte

/-- The bytes of an ASCII literal of the source. -/
def ascii (s : String) : CppString :=
  s.data.map (fun c => Fin.ofNat c.toNat)

/-! ## Data model (`VisionaryAutoIP.h`) -/

/-- The enum `ColaVersion`, as the value that an object of the type holds.  The
enumerators are `COLA_1 = 1` and `COLA_2 = 2`; an object of the type can hold
other values, such as 0 after zero-initialisation. -/
structure ColaVersion where
  value : Nat
  deriving DecidableEq, Repr

/-- The enumerator `COLA_1 = 1`. -/
@[match_pattern] def ColaVersion.COLA_1 : ColaVersion := ⟨1⟩

/-- The enumerator `COLA_2 = 2`. -/
@[match_pattern] def ColaVersion.COLA_2 : ColaVersion := ⟨2⟩

inductive AuthVersion where
  | SUL1
  | SUL2
  deriving DecidableEq, Repr

/-- The `DeviceInfo` struct.  The three scalar members have no initialiser in
the source, so they are `none` until a decoder assigns them. -/
structure DeviceInfo where
  colaVersion : ColaVersion
  deviceIdent : CppString
  serialNumber : CppString
  orderNumber : CppString
  authVersion : AuthVersion
  macAddress : CppString
  colaPort : Option Nat
  ipAddress : CppString
  networkMask : CppString
  gateway : CppString
  dhcpEnabled : Option Bool
  reconfigurationTimeMs : Option Nat
  deriving DecidableEq, Repr

/-- The struct `MacAddress`: `uint8_t macAddress[6]`. -/
structure MacAddress where
  b0 : Byte
  b1 : Byte
  b2 : Byte
  b3 : Byte
  b4 : Byte
  b5 : Byte
  deriving DecidableEq, Repr

/-- The six bytes of a `MacAddress`, index 0 first. -/
def MacAddress.toList (m : MacAddress) : List Byte :=
  [m.b0, m.b1, m.b2, m.b3, m.b4, m.b5]

def AUTOIP_PORT : Nat := 30718

def AUTOIP_TIMEOUT : Nat := 10000

def kRplScanColaB : Byte := 0x90

def kRplNetscan : Byte := 0x95

def kRplIpconfig : Byte := 0x91

/-! ## Undefined behaviour made explicit -/

/-- What the C++ code does that has no defined result. -/
inductive Fault where
  /-- A read of `len` bytes at `offset` that is not inside the buffer. -/
  | readPastEnd (offset len : Nat)
  /-- The expression `ports[0]` evaluated on an empty vector. -/
  | emptyPortList
  deriving DecidableEq, Repr

/-- Why the body of `parseAutoIPBinary` stops before its last line: an early
`return deviceInfo`, or undefined behaviour. -/
inductive Stop where
  | ret (deviceInfo : DeviceInfo)
  | fault (f : Fault)
  deriving DecidableEq, Repr

/-- The bytes `[offset, offset + len)` of the buffer; a fault when one of them
lies at or beyond `buffer.size()`.  A read of no bytes touches nothing. -/
def readBytes (buffer : ByteBuffer) (offset len : Nat) : Except Stop (List Byte) :=
  if len = 0 then .ok []
  else if offset + len ≤ buffer.length then .ok ((buffer.drop offset).take len)
  else .error (.fault (.readPastEnd offset len))

/-- The value of a byte sequence read as one big-endian unsigned integer. -/
def beValue (bs : List Byte) : Nat :=
  bs.foldl (fun acc b => acc * 256 + b.val) 0

/-- Modelled from the spec: `readUnalignBigEndian<T>` of `VisionaryEndian.h`,
which is not among the sources; the spec says that all multi-byte integers are
big-endian.  It reads `width = sizeof(T)` bytes at `buffer.data() + offset`. -/
def readUnalignBigEndian (buffer : ByteBuffer) (offset width : Nat) : Except Stop Nat := do
  let bs ← readBytes buffer offset width
  pure (beValue bs)

/-- Modelled from the spec: `writeUnalignBigEndian` of `VisionaryEndian.h`,
which is not among the sources: the four bytes of a 32-bit value, most
significant first. -/
def writeUnalignBigEndian32 (value : Nat) : List Byte :=
  [Fin.ofNat (value / 2 ^ 24 % 256), Fin.ofNat (value / 2 ^ 16 % 256),
   Fin.ofNat (value / 2 ^ 8 % 256), Fin.ofNat (value % 256)]

/-- Modelled from the spec: `writeUnalignBigEndian` for a 16-bit value. -/
def writeUnalignBigEndian16 (value : Nat) : List Byte :=
  [Fin.ofNat (value / 2 ^ 8 % 256), Fin.ofNat (value % 256)]

/-! ## Text renderings -/

/-- One lowercase hexadecimal digit, as `std::hex` prints it. -/
def hexDigit (n : Nat) : Byte :=
  if n < 10 then Fin.ofNat (48 + n) else Fin.ofNat (87 + n)

/-- One loop pass of `convertMacToString`:
`std::hex << std::setw(2) << std::setfill('0')` of one byte. -/
def hexByte (b : Byte) : CppString :=
  [hexDigit (b.val / 16), hexDigit (b.val % 16)]

/-- The function `VisionaryAutoIP::convertMacToString`: for `k = 0 .. 5` the
two-digit hex of byte `k`, followed by `":"` while `k < 5`. -/
def convertMacToString (m : MacAddress) : CppString :=
  hexByte m.b0 ++ ascii ":" ++ hexByte m.b1 ++ ascii ":" ++ hexByte m.b2 ++ ascii ":"
    ++ hexByte m.b3 ++ ascii ":" ++ hexByte m.b4 ++ ascii ":" ++ hexByte m.b5

/-- The decimal digits of a number below 256, without leading zeros, as
`inet_ntop` prints one octet. -/
def decOctet (n : Nat) : CppString :=
  if n < 10 then [Fin.ofNat (48 + n)]
  else if n < 100 then [Fin.ofNat (48 + n / 10), Fin.ofNat (48 + n % 10)]
  else [Fin.ofNat (48 + n / 100), Fin.ofNat (48 + n / 10 % 10), Fin.ofNat (48 + n % 10)]

/-- The function `NetLink::addr2string`: `htonl` puts the most significant byte
of the host-order address first in memory and `inet_ntop(AF_INET, ...)` prints
the four bytes in memory order as dotted decimal.  The 16-byte buffer holds
every such text, so the error branch is never taken. -/
def addr2string (addr : Nat) : CppString :=
  decOctet (addr / 2 ^ 24 % 256) ++ ascii "." ++ decOctet (addr / 2 ^ 16 % 256) ++ ascii "."
    ++ decOctet (addr / 2 ^ 8 % 256) ++ ascii "." ++ decOctet (addr % 256)

/-! ## The binary device report decoder (`parseAutoIPBinary`) -/

/-- The local variables of `parseAutoIPBinary` that live across its loops.
`offset` is an `int` that only grows from 16 and `minSize` a `size_t`; neither can
wrap on a buffer that fits a datagram, so both are plain naturals. -/
structure ParseState where
  offset : Nat
  minSize : Nat
  deviceInfo : DeviceInfo
  macAddr : CppString
  ports : List Nat
  deriving DecidableEq, Repr

/-- Runs a loop body `n` times: `for (int i = 0; i < n; ++i) body`. -/
def loopN {σ : Type} (body : σ → Except Stop σ) : Nat → σ → Except Stop σ
  | 0, s => pure s
  | n + 1, s => do
    let s1 ← body s
    loopN body n s1

/-- Lines 239-370 of `VisionaryAutoIP.cpp`: the declarations and every field up
to and including the element count of the auxiliary array.  Returns the state
at line 371 and the count `auxArrayLen`. -/
def parseHeader (buffer : ByteBuffer) : Except Stop (ParseState × Nat) := do
  let mut deviceInfo : DeviceInfo :=
    { colaVersion := .COLA_2, deviceIdent := [], serialNumber := [], orderNumber := [],
      authVersion := .SUL1, macAddress := ascii "invalid", colaPort := none,
      ipAddress := [], networkMask := [], gateway := [], dhcpEnabled := none,
      reconfigurationTimeMs := none }
  let mut offset := 16
  let mut minSize := 18
  if buffer.length < minSize then throw (.ret deviceInfo)
  -- deviceInfoVersion
  offset := offset + 2
  minSize := minSize + 2
  if buffer.length < minSize then throw (.ret deviceInfo)
  let cidNameLen ← readUnalignBigEndian buffer offset 2
  offset := offset + 2
  minSize := minSize + cidNameLen
  if buffer.length < minSize then throw (.ret deviceInfo)
  let cidName ← readBytes buffer offset cidNameLen
  deviceInfo := { deviceInfo with deviceIdent := cidName }
  offset := offset + cidNameLen
  -- cidMajorVersion, cidMinorVersion, cidPatchVersion, cidBuildVersion, cidVersionClassifier
  offset := offset + 2
  offset := offset + 2
  offset := offset + 2
  offset := offset + 4
  offset := offset + 1
  -- deviceState, reqUserAction
  offset := offset + 1
  offset := offset + 2
  -- Device name
  minSize := minSize + 16
  if buffer.length < minSize then throw (.ret deviceInfo)
  let deviceNameLen ← readUnalignBigEndian buffer offset 2
  offset := offset + 2
  minSize := minSize + deviceNameLen
  if buffer.length < minSize then throw (.ret deviceInfo)
  offset := offset + deviceNameLen
  -- App name
  minSize := minSize + 2
  if buffer.length < minSize then throw (.ret deviceInfo)
  let appNameLen ← readUnalignBigEndian buffer offset 2
  offset := offset + 2
  minSize := minSize + appNameLen
  if buffer.length < minSize then throw (.ret deviceInfo)
  offset := offset + appNameLen
  -- Project name
  minSize := minSize + 2
  if buffer.length < minSize then throw (.ret deviceInfo)
  let projNameLen ← readUnalignBigEndian buffer offset 2
  offset := offset + 2
  minSize := minSize + projNameLen
  if buffer.length < minSize then throw (.ret deviceInfo)
  offset := offset + projNameLen
  -- Serial number
  minSize := minSize + 2
  if buffer.length < minSize then throw (.ret deviceInfo)
  let serialNumberLen ← readUnalignBigEndian buffer offset 2
  offset := offset + 2
  minSize := minSize + serialNumberLen
  if buffer.length < minSize then throw (.ret deviceInfo)
  let serialNumber ← readBytes buffer offset serialNumberLen
  deviceInfo := { deviceInfo with serialNumber := serialNumber }
  offset := offset + serialNumberLen
  -- Type code
  minSize := minSize + 2
  if buffer.length < minSize then throw (.ret deviceInfo)
  let typeCodeLen ← readUnalignBigEndian buffer offset 2
  offset := offset + 2
  minSize := minSize + typeCodeLen
  if buffer.length < minSize then throw (.ret deviceInfo)
  offset := offset + typeCodeLen
  -- Firmware version
  minSize := minSize + 2
  if buffer.length < minSize then throw (.ret deviceInfo)
  let firmwareVersionLen ← readUnalignBigEndian buffer offset 2
  offset := offset + 2
  minSize := minSize + firmwareVersionLen
  if buffer.length < minSize then throw (.ret deviceInfo)
  offset := offset + firmwareVersionLen
  -- Order number
  minSize := minSize + 2
  if buffer.length < minSize then throw (.ret deviceInfo)
  let orderNumberLen ← readUnalignBigEndian buffer offset 2
  offset := offset + 2
  minSize := minSize + orderNumberLen
  if buffer.length < minSize then throw (.ret deviceInfo)
  let orderNumber ← readBytes buffer offset orderNumberLen
  deviceInfo := { deviceInfo with orderNumber := orderNumber }
  offset := offset + orderNumberLen
  -- unused flags
  offset := offset + 1
  minSize := minSize + 3
  if buffer.length < minSize then throw (.ret deviceInfo)
  let auxArrayLen ← readUnalignBigEndian buffer offset 2
  offset := offset + 2
  return ({ offset := offset, minSize := minSize, deviceInfo := deviceInfo,
            macAddr := [], ports := [] }, auxArrayLen)

/-- Lines 374-393: one pass of the loop over the auxiliary array. -/
def auxBody (buffer : ByteBuffer) (s : ParseState) : Except Stop ParseState := do
  let mut deviceInfo := s.deviceInfo
  let mut offset := s.offset
  let mut minSize := s.minSize
  minSize := minSize + 4
  if buffer.length < minSize then throw (.ret deviceInfo)
  let key ← readBytes buffer offset 4
  offset := offset + 4
  minSize := minSize + 2
  if buffer.length < minSize then throw (.ret deviceInfo)
  let innerArrayLen ← readUnalignBigEndian buffer offset 2
  offset := offset + 2
  minSize := minSize + innerArrayLen
  if buffer.length < minSize then throw (.ret deviceInfo)
  if key = ascii "AutV" then
    let autV ← readBytes buffer offset innerArrayLen
    if autV = ascii "1.0.0.0R" then
      deviceInfo := { deviceInfo with authVersion := .SUL2 }
  offset := offset + innerArrayLen
  return { s with offset := offset, minSize := minSize, deviceInfo := deviceInfo }

/-- Lines 403-417: one pass of the loop over the scan-interface array. -/
def scanIfBody (buffer : ByteBuffer) (s : ParseState) : Except Stop ParseState := do
  let mut offset := s.offset
  let mut minSize := s.minSize
  minSize := minSize + 2
  if buffer.length < minSize then throw (.ret s.deviceInfo)
  -- ifaceNum
  offset := offset + 2
  minSize := minSize + 2
  if buffer.length < minSize then throw (.ret s.deviceInfo)
  let ifaceNameLen ← readUnalignBigEndian buffer offset 2
  offset := offset + 2
  minSize := minSize + ifaceNameLen
  if buffer.length < minSize then throw (.ret s.deviceInfo)
  offset := offset + ifaceNameLen
  return { s with offset := offset, minSize := minSize }

/-- The six bytes that `std::memcpy(&macAddress.macAddress, buffer.data() + offset, 6)`
copies. -/
def readMac (buffer : ByteBuffer) (offset : Nat) : Except Stop MacAddress := do
  let bs ← readBytes buffer offset 6
  match bs with
  | [b0, b1, b2, b3, b4, b5] => pure ⟨b0, b1, b2, b3, b4, b5⟩
  | _ => throw (.fault (.readPastEnd offset 6))

/-- Lines 427-482: one pass of the loop over the communication-settings array.
Each recognised key ends its pass with `continue`. -/
def comSettingsBody (buffer : ByteBuffer) (s : ParseState) : Except Stop ParseState := do
  let mut offset := s.offset
  let mut minSize := s.minSize
  minSize := minSize + 4
  if buffer.length < minSize then throw (.ret s.deviceInfo)
  let key ← readBytes buffer offset 4
  offset := offset + 4
  minSize := minSize + 2
  if buffer.length < minSize then throw (.ret s.deviceInfo)
  let innerArrayLen ← readUnalignBigEndian buffer offset 2
  offset := offset + 2
  minSize := minSize + innerArrayLen
  if buffer.length < minSize then throw (.ret s.deviceInfo)
  if key = ascii "EMAC" then
    let macAddress ← readMac buffer offset
    return { s with offset := offset + 6, minSize := minSize,
                    macAddr := convertMacToString macAddress }
  if key = ascii "EIPa" then
    let value ← readUnalignBigEndian buffer offset 4
    return { s with offset := offset + 4, minSize := minSize,
                    deviceInfo := { s.deviceInfo with ipAddress := addr2string value } }
  if key = ascii "ENMa" then
    let value ← readUnalignBigEndian buffer offset 4
    return { s with offset := offset + 4, minSize := minSize,
                    deviceInfo := { s.deviceInfo with networkMask := addr2string value } }
  if key = ascii "EDGa" then
    let value ← readUnalignBigEndian buffer offset 4
    return { s with offset := offset + 4, minSize := minSize,
                    deviceInfo := { s.deviceInfo with gateway := addr2string value } }
  if key = ascii "EDhc" then
    let value ← readUnalignBigEndian buffer offset 1
    return { s with offset := offset + 1, minSize := minSize,
                    deviceInfo := { s.deviceInfo with dhcpEnabled := some (value != 0) } }
  if key = ascii "ECDu" then
    let configTime ← readUnalignBigEndian buffer offset 4
    return { s with offset := offset + 4, minSize := minSize,
                    deviceInfo := { s.deviceInfo with
                      reconfigurationTimeMs := some (configTime * 1000 % 2 ^ 32) } }
  offset := offset + innerArrayLen
  return { s with offset := offset, minSize := minSize }

/-- Lines 505-529: one pass of the inner loop over the entries of one endpoint. -/
def endPointEntryBody (buffer : ByteBuffer) (s : ParseState) : Except Stop ParseState := do
  let mut offset := s.offset
  let mut minSize := s.minSize
  let mut ports := s.ports
  minSize := minSize + 4
  if buffer.length < minSize then throw (.ret s.deviceInfo)
  let key ← readBytes buffer offset 4
  offset := offset + 4
  minSize := minSize + 2
  if buffer.length < minSize then throw (.ret s.deviceInfo)
  let mostInnerArrayLen ← readUnalignBigEndian buffer offset 2
  offset := offset + 2
  minSize := minSize + mostInnerArrayLen
  if buffer.length < minSize then throw (.ret s.deviceInfo)
  if key = ascii "DPNo" then
    let port ← readUnalignBigEndian buffer offset 2
    offset := offset + 2
    ports := ports ++ [port]
  else
    offset := offset + mostInnerArrayLen
  return { s with offset := offset, minSize := minSize, ports := ports }

/-- Lines 493-530: one pass of the loop over the endpoints array. -/
def endPointBody (buffer : ByteBuffer) (s : ParseState) : Except Stop ParseState := do
  let mut offset := s.offset
  let mut minSize := s.minSize
  minSize := minSize + 1
  if buffer.length < minSize then throw (.ret s.deviceInfo)
  -- colaVersion
  offset := offset + 1
  minSize := minSize + 2
  if buffer.length < minSize then throw (.ret s.deviceInfo)
  let innerArrayLen ← readUnalignBigEndian buffer offset 2
  offset := offset + 2
  loopN (endPointEntryBody buffer) innerArrayLen { s with offset := offset, minSize := minSize }

/-- Reads the 16-bit element count that introduces an array (lines 396-400,
420-424 and 485-489): `minSize += 2`, the length check, the read, `offset += 2`. -/
def arrayCount (buffer : ByteBuffer) (s : ParseState) : Except Stop (ParseState × Nat) := do
  let minSize := s.minSize + 2
  if buffer.length < minSize then throw (.ret s.deviceInfo)
  let len ← readUnalignBigEndian buffer s.offset 2
  return ({ s with offset := s.offset + 2, minSize := minSize }, len)

/-- Lines 239-424: everything before the loop over the communication-settings
array.  Returns the state at line 425 and the count `comSettingsLen`. -/
def parseToComSettings (buffer : ByteBuffer) : Except Stop (ParseState × Nat) := do
  let (s0, auxArrayLen) ← parseHeader buffer
  let s1 ← loopN (auxBody buffer) auxArrayLen s0
  let (s2, scanIfLen) ← arrayCount buffer s1
  let s3 ← loopN (scanIfBody buffer) scanIfLen s2
  arrayCount buffer s3

/-- The state of `parseAutoIPBinary` when it reaches line 532, after every
length check has passed. -/
def parseArrays (buffer : ByteBuffer) : Except Stop ParseState := do
  let (s4, comSettingsLen) ← parseToComSettings buffer
  let s5 ← loopN (comSettingsBody buffer) comSettingsLen s4
  let (s6, endPointsLen) ← arrayCount buffer s5
  loopN (endPointBody buffer) endPointsLen s6

/-- Lines 532-534: `deviceInfo.colaPort = ports[0]; deviceInfo.macAddress = macAddr;
return deviceInfo;`. -/
def finish (s : ParseState) : Except Stop DeviceInfo :=
  match s.ports with
  | [] => throw (.fault .emptyPortList)
  | port :: _ => pure { s.deviceInfo with colaPort := some port, macAddress := s.macAddr }

/-- The body of `parseAutoIPBinary`, with its early returns still marked. -/
def parseBody (buffer : ByteBuffer) : Except Stop DeviceInfo := do
  let s ← parseArrays buffer
  finish s

/-- The function `VisionaryAutoIP::parseAutoIPBinary`: the `DeviceInfo` it
returns, early or at its last line, or the undefined behaviour it runs into. -/
def parseAutoIPBinary (buffer : ByteBuffer) : Except Fault DeviceInfo :=
  match parseBody buffer with
  | .ok deviceInfo => .ok deviceInfo
  | .error (.ret deviceInfo) => .ok deviceInfo
  | .error (.fault f) => .error f

/-- The final value of `minSize` when every length check of
`parseAutoIPBinary` has passed on the buffer. -/
def finalMinSize (buffer : ByteBuffer) : Option Nat :=
  match parseArrays buffer with
  | .ok s => some s.minSize
  | .error _ => none

/-- The entry that pass `k` (counted from 0) of the communication-settings loop
decodes when the loop starts in state `s4`: its 4-byte key and the offset of
the first byte after its length field.  `none` when the pass is not reached or
does not complete. -/
def comSettingsEntryFrom (buffer : ByteBuffer) (s4 : ParseState) (k : Nat) :
    Option (CppString × Nat) :=
  match loopN (comSettingsBody buffer) k s4 with
  | .ok s =>
    match comSettingsBody buffer s, readBytes buffer s.offset 4 with
    | .ok _, .ok key => some (key, s.offset + 6)
    | _, _ => none
  | .error _ => none

/-- What pass `k` of the loop over the communication-settings array reads as an
entry, at the place where the decoder's cursor stands: its key and the offset of
the first byte after its length field.  This is the decoder's own walk; it is
entry `k` of the array by the declared lengths only while every earlier entry
was left behind by exactly its declared length. -/
def comSettingsEntry (buffer : ByteBuffer) (k : Nat) : Option (CppString × Nat) :=
  match parseToComSettings buffer with
  | .ok (s4, comSettingsLen) =>
    if k < comSettingsLen then comSettingsEntryFrom buffer s4 k else none
  | .error _ => none

/-! ## The XML device report decoder (`parseAutoIPXml`) -/

/-- A `boost::property_tree::ptree`: the data of a node and its children in
document order, each under its key.  `read_xml` files the attributes of an
element under the child `<xmlattr>`. -/
inductive PTree where
  | node (data : CppString) (children : List (CppString × PTree))

/-- The member `data()` of a ptree. -/
def PTree.data : PTree → CppString
  | .node d _ => d

/-- The children of a ptree, in order. -/
def PTree.children : PTree → List (CppString × PTree)
  | .node _ cs => cs

/-- The first child filed under `key`. -/
def PTree.find (t : PTree) (key : CppString) : Option PTree :=
  (t.children.find? (fun kv => kv.1 = key)).map (fun kv => kv.2)

/-- The member `get_child(path)`, the dotted path given as the list of its
keys: it descends through the first child of each key and throws
`ptree_bad_path` (here `none`) when a key is missing. -/
def PTree.get_child (t : PTree) : List CppString → Option PTree
  | [] => some t
  | key :: rest =>
    match t.find key with
    | some c => c.get_child rest
    | none => none

/-- The member `get<std::string>(path)`: the data of the child at `path`. -/
def PTree.get (t : PTree) (path : List CppString) : Option CppString :=
  (t.get_child path).map PTree.data

/-- The characters `std::isspace` accepts in the "C" locale. -/
def isSpace (c : Byte) : Bool :=
  c.val = 32 || (9 ≤ c.val && c.val ≤ 13)

/-- The decimal digits. -/
def isDigit (c : Byte) : Bool :=
  48 ≤ c.val && c.val ≤ 57

/-- The function `std::stoi(str)` in base 10: leading white space, an optional
sign, then the longest run of digits; what follows is ignored.  `none` stands
for `std::invalid_argument` (no digit) and `std::out_of_range` (the value does
not fit an `int`). -/
def stoi (str : CppString) : Option Int :=
  let s1 := str.dropWhile isSpace
  let negative := s1.head? = some 45
  let s2 := if s1.head? = some 45 ∨ s1.head? = some 43 then s1.tail else s1
  let digits := s2.takeWhile isDigit
  if digits = [] then none
  else
    let magnitude : Nat := digits.foldl (fun acc d => acc * 10 + (d.val - 48)) 0
    let value : Int := if negative then -(magnitude : Int) else magnitude
    if -(2 ^ 31 : Int) ≤ value ∧ value < 2 ^ 31 then some value else none

/-- Lines 185-230: what one child of `NetScanResult` other than `<xmlattr>` does
to `deviceInfo`. -/
def xmlItem (deviceInfo : DeviceInfo) (item : PTree) : Option DeviceInfo := do
  let key ← item.get [ascii "<xmlattr>", ascii "key"]
  let value ← item.get [ascii "<xmlattr>", ascii "value"]
  let mut deviceInfo := deviceInfo
  if key = ascii "IPAddress" then
    deviceInfo := { deviceInfo with ipAddress := value }
  if key = ascii "IPMask" then
    deviceInfo := { deviceInfo with networkMask := value }
  if key = ascii "IPGateway" then
    deviceInfo := { deviceInfo with gateway := value }
  if key = ascii "HostPortNo" then
    let n ← stoi value
    deviceInfo := { deviceInfo with colaPort := some (n % 2 ^ 16).toNat }
  if key = ascii "DeviceType" then
    deviceInfo := { deviceInfo with deviceIdent := value }
  if key = ascii "SerialNumber" then
    deviceInfo := { deviceInfo with serialNumber := value }
  if key = ascii "OrderNumber" then
    deviceInfo := { deviceInfo with orderNumber := value }
  if key = ascii "DHCPClientEnabled" then
    deviceInfo := { deviceInfo with dhcpEnabled := some (value = ascii "TRUE") }
  if key = ascii "IPConfigDuration" then
    let n ← stoi value
    deviceInfo := { deviceInfo with reconfigurationTimeMs := some (n % 2 ^ 32).toNat }
  return deviceInfo

/-- Lines 181-232: the loop over the children of `NetScanResult`. -/
def xmlItems : DeviceInfo → List (CppString × PTree) → Option DeviceInfo
  | deviceInfo, [] => some deviceInfo
  | deviceInfo, (first, second) :: rest =>
    if first ≠ ascii "<xmlattr>" then
      match xmlItem deviceInfo second with
      | some d => xmlItems d rest
      | none => none
    else xmlItems deviceInfo rest

/-- The function `VisionaryAutoIP::parseAutoIPXml` on the tree that `read_xml`
built; `none` when it throws. -/
def parseAutoIPXml (tree : PTree) : Option DeviceInfo := do
  let macNode ← tree.get_child [ascii "NetScanResult", ascii "<xmlattr>", ascii "MACAddr"]
  let deviceInfo : DeviceInfo :=
    { colaVersion := .COLA_1, deviceIdent := [], serialNumber := [], orderNumber := [],
      authVersion := .SUL1, macAddress := macNode.data, colaPort := none,
      ipAddress := [], networkMask := [], gateway := [], dhcpEnabled := none,
      reconfigurationTimeMs := none }
  let result ← tree.get_child [ascii "NetScanResult"]
  xmlItems deviceInfo result.children

/-! ## The datagram link (`NetLink.cpp`) -/

/-- A 32-bit value with its four bytes in reverse order. -/
def bswap32 (x : Nat) : Nat :=
  x % 256 * 2 ^ 24 + x / 2 ^ 8 % 256 * 2 ^ 16 + x / 2 ^ 16 % 256 * 2 ^ 8 + x / 2 ^ 24 % 256

/-- The function `htonl`: the identity on a big-endian host, the byte swap on a
little-endian one.  The byte order of the host is a parameter. -/
def htonl (littleEndian : Bool) (x : Nat) : Nat :=
  if littleEndian then bswap32 x else x

/-- The function `ntohl`, the same conversion as `htonl`. -/
def ntohl (littleEndian : Bool) (x : Nat) : Nat :=
  htonl littleEndian x

/-- One pass of the digit loop of `inet_pton(AF_INET, ...)`: `octets` holds the
finished octets, `cur` the octet being read (`none` right after a dot or at
the start).  A leading zero, a value above 255, a fifth octet, an empty octet
and any character other than a digit or a dot are rejected. -/
def inetPtonLoop : List Byte → List Nat → Option Nat → Option (List Nat)
  | [], octets, some v => if octets.length = 3 then some (octets ++ [v]) else none
  | [], _, none => none
  | ch :: rest, octets, cur =>
    if isDigit ch then
      match cur with
      | some v =>
        if v = 0 then none
        else if v * 10 + (ch.val - 48) > 255 then none
        else inetPtonLoop rest octets (some (v * 10 + (ch.val - 48)))
      | none =>
        if octets.length ≥ 4 then none
        else inetPtonLoop rest octets (some (ch.val - 48))
    else if ch.val = 46 then
      match cur with
      | some v => if octets.length ≥ 3 then none else inetPtonLoop rest (octets ++ [v]) none
      | none => none
    else none

/-- The function `NetLink::string2addr`: `inet_pton` on `ip.c_str()` (the bytes
before the first NUL), the result taken to host order; 0 for a text that is
not a dotted quad. -/
def string2addr (ip : CppString) : Nat :=
  match inetPtonLoop (ip.takeWhile (fun c => c.val ≠ 0)) [] none with
  | some octets => octets.foldl (fun acc o => acc * 256 + o) 0
  | none => 0

/-- The members of a `NetLink` that the constructor computes.  `localSinAddr` and
`remoteSinAddr` are the words `m_pData->localAddr.sin_addr` and
`m_pData->remoteAddr.sin_addr` and `m_netmask` the member of that name,
all three as the host reads them (they hold network byte order); `socket` and
`rxsock` tell whether the handle is a valid socket. -/
structure NetLink where
  localSinAddr : Nat
  remoteSinAddr : Nat
  m_netmask : Nat
  m_broadcast : Bool
  socket : Bool
  rxsock : Bool
  deriving DecidableEq, Repr

def INADDR_BROADCAST : Nat := 0xFFFFFFFF

def BROADCAST_IP : CppString := ascii "255.255.255.255"

/-- The constructor `NetLink::NetLink` (the branch for POSIX hosts).
`openRx` and `openSock` say whether the two calls of `::socket` succeed; the
socket options and `bind` only log on failure. -/
def NetLink.new (littleEndian openRx openSock : Bool) (localIp : CppString) (pfx : Byte)
    (remoteIp : CppString) : NetLink :=
  let localAddr := htonl littleEndian (string2addr localIp)
  let remoteAddr := htonl littleEndian (string2addr remoteIp)
  let m_netmask := 0xFFFFFFFF
  if pfx.val > 32 then
    { localSinAddr := localAddr, remoteSinAddr := remoteAddr, m_netmask := m_netmask,
      m_broadcast := false, socket := false, rxsock := false }
  else
    let shift := 32 - pfx.val
    let m_netmask := (m_netmask <<< (shift / 2)) % 2 ^ 32
    let m_netmask := (m_netmask <<< (shift - shift / 2)) % 2 ^ 32
    let m_netmask := htonl littleEndian m_netmask
    let subnetBroadcastAddr := localAddr ||| (0xFFFFFFFF - m_netmask)
    let isBroadcast := remoteAddr = INADDR_BROADCAST ∨ remoteAddr = subnetBroadcastAddr
    let remoteAddr := if isBroadcast then subnetBroadcastAddr else remoteAddr
    let m_broadcast := decide isBroadcast
    let rxsock := m_broadcast && openRx
    if m_broadcast && !rxsock then
      { localSinAddr := localAddr, remoteSinAddr := remoteAddr, m_netmask := m_netmask,
        m_broadcast := m_broadcast, socket := false, rxsock := false }
    else
      { localSinAddr := localAddr, remoteSinAddr := remoteAddr, m_netmask := m_netmask,
        m_broadcast := m_broadcast, socket := openSock, rxsock := rxsock }

/-- The function `NetLink::localAddr`. -/
def NetLink.localAddr (littleEndian : Bool) (link : NetLink) : Nat :=
  ntohl littleEndian link.localSinAddr

/-- The function `NetLink::networkMask`. -/
def NetLink.networkMask (littleEndian : Bool) (link : NetLink) : Nat :=
  ntohl littleEndian link.m_netmask

/-- The function `NetLink::remoteAddr`, which reads `m_pData->localAddr`. -/
def NetLink.remoteAddr (littleEndian : Bool) (link : NetLink) : Nat :=
  ntohl littleEndian link.localSinAddr

/-! ## The scan (`VisionaryAutoIP::scan`) -/

/-- Lines 66-94: the AutoIP discover packet. -/
def discoverPacket (littleEndian : Bool) (link : NetLink) (curtelegramID : Nat) : ByteBuffer :=
  [0x10, 0x00, 0x00, 0x08, 0xFF, 0xFF, 0xFF, 0xFF, 0xFF, 0xFF]
    ++ writeUnalignBigEndian32 curtelegramID
    ++ [0x01, 0x00]
    ++ writeUnalignBigEndian32 (link.localAddr littleEndian)
    ++ writeUnalignBigEndian32 (link.networkMask littleEndian)

/-- The variables `deviceMACs` (an `unordered_set`, here the list of its
elements) and `deviceList` of `scan`. -/
structure ScanState where
  deviceMACs : List CppString
  deviceList : List DeviceInfo
  deriving DecidableEq, Repr

/-- Lines 124-126 and 151-153: `deviceMACs.insert(dI.macAddress)` and, when the
address was not yet a member, `deviceList.push_back(dI)`. -/
def insertDevice (st : ScanState) (dI : DeviceInfo) : ScanState :=
  if dI.macAddress ∈ st.deviceMACs then st
  else { deviceMACs := dI.macAddress :: st.deviceMACs, deviceList := st.deviceList ++ [dI] }

/-- Lines 111-165: what one pass of the receive loop does with the buffer that
`m_link.read` filled and resized to the received length.  `readXml` is
`boost::property_tree::read_xml`, `none` when it throws.  The reads at the
fixed offsets 0, 2 and 10 lie inside a buffer of more than 16 bytes. -/
def scanStep (readXml : CppString → Option PTree) (curtelegramID : Nat) (st : ScanState)
    (receiveBuffer : ByteBuffer) : Except Fault ScanState :=
  if receiveBuffer.length > 16 then
    if receiveBuffer.head? = some kRplNetscan then
      let telID := beValue ((receiveBuffer.drop 10).take 4)
      if telID ≠ curtelegramID then .ok st
      else
        match parseAutoIPBinary receiveBuffer with
        | .error f => .error f
        | .ok dI =>
          if dI.macAddress = ascii "invalid" then .ok st
          else .ok (insertDevice st dI)
    else if receiveBuffer.head? = some kRplScanColaB then
      let payLoadSize := beValue ((receiveBuffer.drop 2).take 2)
      let recvTelegramID := beValue ((receiveBuffer.drop 10).take 4)
      if recvTelegramID ≠ curtelegramID then .ok st
      else if receiveBuffer.length ≥ 16 + payLoadSize then
        match (readXml ((receiveBuffer.drop 16).take payLoadSize)).bind parseAutoIPXml with
        | some dI => .ok (insertDevice st dI)
        | none => .ok st
      else .ok st
    else .ok st
  else .ok st

/-- The receive loop of `scan` over the buffers that `m_link.read` delivers, in
order, until the timeout. -/
def scanLoop (readXml : CppString → Option PTree) (curtelegramID : Nat) :
    ScanState → List ByteBuffer → Except Fault ScanState
  | st, [] => .ok st
  | st, receiveBuffer :: rest =>
    match scanStep readXml curtelegramID st receiveBuffer with
    | .ok st1 => scanLoop readXml curtelegramID st1 rest
    | .error f => .error f

/-- One run of `scan`: the packet handed to `m_link.write`, the telegram id
the replies are compared with, and the returned list. -/
structure ScanRun where
  written : ByteBuffer
  curtelegramID : Nat
  deviceList : Except Fault (List DeviceInfo)

/-- The function `VisionaryAutoIP::scan`.  `teleIdCounter` is the value drawn
from the random engine, `received` the buffers delivered by `m_link.read`
before the timeout. -/
def scan (readXml : CppString → Option PTree) (littleEndian : Bool) (link : NetLink)
    (teleIdCounter : Nat) (received : List ByteBuffer) : ScanRun :=
  let curtelegramID := teleIdCounter % 2 ^ 32
  { written := discoverPacket littleEndian link curtelegramID
    curtelegramID := curtelegramID
    deviceList :=
      (scanLoop readXml curtelegramID { deviceMACs := [], deviceList := [] } received).map
        (fun st => st.deviceList) }

/-! ## The reference definition of a scan -/

/-- The big-endian 32-bit telegram id at bytes 10..13 of a datagram. -/
def telegramIdOf (datagram : ByteBuffer) : Nat :=
  beValue ((datagram.drop 10).take 4)

/-- The XML payload of a `0x90` reply: the bytes from index 16 on, as many as
the big-endian 16-bit length at bytes 2..3 declares. -/
def xmlPayloadOf (datagram : ByteBuffer) : CppString :=
  (datagram.drop 16).take (beValue ((datagram.drop 2).take 2))

/-- The `DeviceInfo` of an accepted datagram: at least 17 bytes, a known
leading byte, the correlation id of the session and a successful decode. -/
def accepted (readXml : CppString → Option PTree) (correlationId : Nat)
    (datagram : ByteBuffer) : Option DeviceInfo :=
  if 17 ≤ datagram.length ∧ telegramIdOf datagram = correlationId then
    if datagram.head? = some 0x95 then
      match parseAutoIPBinary datagram with
      | .ok d => if d.macAddress = ascii "invalid" then none else some d
      | .error _ => none
    else if datagram.head? = some 0x90 then
      if 16 + beValue ((datagram.drop 2).take 2) ≤ datagram.length then
        (readXml (xmlPayloadOf datagram)).bind parseAutoIPXml
      else none
    else none
  else none

/-- Keeps the first occurrence of each `macAddress`, in order. -/
def firstOccurrences : List DeviceInfo → List DeviceInfo
  | [] => []
  | d :: rest => d :: (firstOccurrences rest).filter (fun e => e.macAddress ≠ d.macAddress)

/-- The reference result of a scan: the accepted datagrams in arrival order,
mapped to their `DeviceInfo`, first occurrence of each MAC only. -/
def scanReference (readXml : CppString → Option PTree) (correlationId : Nat)
    (received : List ByteBuffer) : List DeviceInfo :=
  firstOccurrences (received.filterMap (accepted readXml correlationId))

/-- What `scan` maintains: `deviceMACs` holds exactly the addresses of the
entries of `deviceList`, and no two entries share an address. -/
def ScanInv (st : ScanState) : Prop :=
  (∀ m, m ∈ st.deviceMACs ↔ m ∈ st.deviceList.map (fun d => d.macAddress)) ∧
  (st.deviceList.map (fun d => d.macAddress)).Nodup

/-! ## Sample datagrams -/

/-- A well-formed `0x95` reply with telegram id 1: empty strings, no auxiliary and
no scan-interface entry, one `EMAC` entry of declared length 6 with the bytes
`00 06 77 01 02 ab`, and one endpoint with one `DPNo` entry of port 2122. -/
def sampleReport : ByteBuffer :=
  [149, 0, 0, 0, 0, 0, 0, 0, 0, 0, 0, 0, 0, 1, 0, 0, 0, 1, 0, 0, 0, 0, 0, 0, 0, 0, 0, 0, 0, 0,
   0, 0, 0, 0, 0, 0, 0, 0, 0, 0, 0, 0, 0, 0, 0, 0, 0, 0, 0, 0, 0, 0, 0, 0, 1, 69, 77, 65, 67,
   0, 6, 0, 6, 119, 1, 2, 171, 0, 1, 2, 0, 1, 68, 80, 78, 111, 0, 2, 8, 74]

/-- The reply `sampleReport` with the declared length of its `EMAC` entry (bytes 59
and 60) set to 0 instead of 6. -/
def emacZeroLengthReport : ByteBuffer :=
  [149, 0, 0, 0, 0, 0, 0, 0, 0, 0, 0, 0, 0, 1, 0, 0, 0, 1, 0, 0, 0, 0, 0, 0, 0, 0, 0, 0, 0, 0,
   0, 0, 0, 0, 0, 0, 0, 0, 0, 0, 0, 0, 0, 0, 0, 0, 0, 0, 0, 0, 0, 0, 0, 0, 1, 69, 77, 65, 67,
   0, 0, 0, 6, 119, 1, 2, 171, 0, 1, 2, 0, 1, 68, 80, 78, 111, 0, 2, 8, 74]

/-- A reply of 61 bytes that ends right after the length field of an `EMAC` entry
which declares the length 0. -/
def emacAtEndReport : ByteBuffer :=
  [149, 0, 0, 0, 0, 0, 0, 0, 0, 0, 0, 0, 0, 1, 0, 0, 0, 1, 0, 0, 0, 0, 0, 0, 0, 0, 0, 0, 0, 0,
   0, 0, 0, 0, 0, 0, 0, 0, 0, 0, 0, 0, 0, 0, 0, 0, 0, 0, 0, 0, 0, 0, 0, 0, 1, 69, 77, 65, 67,
   0, 0]

/-- A reply whose endpoints array has the element count 0. -/
def noPortReport : ByteBuffer :=
  [149, 0, 0, 0, 0, 0, 0, 0, 0, 0, 0, 0, 0, 1, 0, 0, 0, 1, 0, 0, 0, 0, 0, 0, 0, 0, 0, 0, 0, 0,
   0, 0, 0, 0, 0, 0, 0, 0, 0, 0, 0, 0, 0, 0, 0, 0, 0, 0, 0, 0, 0, 0, 0, 0, 1, 69, 77, 65, 67,
   0, 6, 0, 6, 119, 1, 2, 171, 0, 0]

/-- A reply whose communication-settings array has the element count 0 and whose
only endpoint has one `DPNo` entry of port 2122. -/
def noMacReport : ByteBuffer :=
  [149, 0, 0, 0, 0, 0, 0, 0, 0, 0, 0, 0, 0, 1, 0, 0, 0, 1, 0, 0, 0, 0, 0, 0, 0, 0, 0, 0, 0, 0,
   0, 0, 0, 0, 0, 0, 0, 0, 0, 0, 0, 0, 0, 0, 0, 0, 0, 0, 0, 0, 0, 0, 0, 0, 0, 0, 1, 2, 0, 1,
   68, 80, 78, 111, 0, 2, 8, 74]

/-- A `0x90` reply with telegram id 1 whose payload is the 34-byte document
`<NetScanResult MACAddr="invalid"/>`. -/
def invalidMacReply : ByteBuffer :=
  [144, 0, 0, 34, 0, 0, 0, 0, 0, 0, 0, 0, 0, 1, 0, 0, 60, 78, 101, 116, 83, 99, 97, 110, 82,
   101, 115, 117, 108, 116, 32, 77, 65, 67, 65, 100, 100, 114, 61, 34, 105, 110, 118, 97, 108,
   105, 100, 34, 47, 62]

/-- The tree that `read_xml` builds for `<NetScanResult MACAddr="invalid"/>`:
the root element with its one attribute filed under `<xmlattr>`. -/
def invalidMacTree : PTree :=
  .node [] [(ascii "NetScanResult",
    .node [] [(ascii "<xmlattr>", .node [] [(ascii "MACAddr", .node (ascii "invalid") [])])])]

/-- The parser `read_xml` restricted to the one document it is used on here:
the payload of `invalidMacReply`; every other text is rejected. -/
def readXmlSample (payload : CppString) : Option PTree :=
  if payload = xmlPayloadOf invalidMacReply then some invalidMacTree else none

/-- A link on 192.168.1.100/24 of a little-endian host, broadcasting. -/
def sampleLink : NetLink :=
  NetLink.new true true true (ascii "192.168.1.100") 24 BROADCAST_IP

/-- What `parseAutoIPBinary` returns for `sampleReport`. -/
def sampleInfo : DeviceInfo :=
  { colaVersion := .COLA_2, deviceIdent := [], serialNumber := [], orderNumber := [],
    authVersion := .SUL1, macAddress := ascii "00:06:77:01:02:ab", colaPort := some 2122,
    ipAddress := [], networkMask := [], gateway := [], dhcpEnabled := none,
    reconfigurationTimeMs := none }

/-- What `parseAutoIPXml` returns for `invalidMacTree`. -/
def invalidMacInfo : DeviceInfo :=
  { colaVersion := .COLA_1, deviceIdent := [], serialNumber := [], orderNumber := [],
    authVersion := .SUL1, macAddress := ascii "invalid", colaPort := none,
    ipAddress := [], networkMask := [], gateway := [], dhcpEnabled := none,
    reconfigurationTimeMs := none }

/-! ## Specification vocabulary -/

/-- The outcome `x` is a value that satisfies `Q`, or a stop that satisfies `R`. -/
def Sat {α : Type} (x : Except Stop α) (Q : α → Prop) (R : Stop → Prop) : Prop :=
  match x with
  | .ok a => Q a
  | .error e => R e

/-- Whatever the XML decoder `x` returns satisfies `Q`. -/
def OSat {α : Type} (x : Option α) (Q : α → Prop) : Prop :=
  ∀ a, x = some a → Q a

/-- An early return hands back a `DeviceInfo` that still carries the sentinel. -/
def RetInvalid (e : Stop) : Prop :=
  ∀ d, e = .ret d → d.macAddress = ascii "invalid"

/-- The sentinel is in place and `macAddr` has the value `m`. -/
def Keeps (m : CppString) (s : ParseState) : Prop :=
  s.deviceInfo.macAddress = ascii "invalid" ∧ s.macAddr = m

/-! ## The reconfiguration request (`VisionaryAutoIP::assign`) -/

/-- The value of one hexadecimal digit, either case. -/
def hexDigitValue (c : Byte) : Option Nat :=
  if 48 ≤ c.val ∧ c.val ≤ 57 then some (c.val - 48)
  else if 97 ≤ c.val ∧ c.val ≤ 102 then some (c.val - 87)
  else if 65 ≤ c.val ∧ c.val ≤ 70 then some (c.val - 55)
  else none

/-- The function `std::stoi(str, &pos, 16)`: leading white space, an optional
sign, an optional `0x` or `0X` in front of a hexadecimal digit, then the longest
run of hexadecimal digits.  `none` stands for `std::invalid_argument` (no digit)
and `std::out_of_range` (the value does not fit an `int`). -/
def stoi16 (str : CppString) : Option Int :=
  let s1 := str.dropWhile isSpace
  let negative := s1.head? = some 45
  let s2 := if s1.head? = some 45 ∨ s1.head? = some 43 then s1.tail else s1
  let hasBasePrefix := s2.head? = some 48 ∧ (s2.tail.head? = some 120 ∨ s2.tail.head? = some 88)
    ∧ (s2.tail.tail.head?.bind hexDigitValue).isSome
  let s3 := if hasBasePrefix then s2.tail.tail else s2
  let digits := s3.takeWhile (fun c => (hexDigitValue c).isSome)
  if digits = [] then none
  else
    let magnitude : Nat := digits.foldl (fun acc d => acc * 16 + (hexDigitValue d).getD 0) 0
    let value : Int := if negative then -(magnitude : Int) else magnitude
    if -(2 ^ 31 : Int) ≤ value ∧ value < 2 ^ 31 then some value else none

/-- The tokens that the calls `getline(ss, token, ':')` of `convertMacToStruct`
deliver: the text between the colons; at the end of the text a call that
extracts nothing fails, so a text that is empty or ends in a colon has no
further token.  `cur` is the token being read. -/
def getlineTokens : List Byte → CppString → List CppString
  | [], cur => if cur = [] then [] else [cur]
  | c :: rest, cur =>
    if c.val = 58 then cur :: getlineTokens rest []
    else getlineTokens rest (cur ++ [c])

/-- The assignment `macAddress.macAddress[i] = value` for `i` in 0..5. -/
def MacAddress.set (m : MacAddress) (i : Nat) (value : Byte) : MacAddress :=
  match i with
  | 0 => { m with b0 := value }
  | 1 => { m with b1 := value }
  | 2 => { m with b2 := value }
  | 3 => { m with b3 := value }
  | 4 => { m with b4 := value }
  | _ => { m with b5 := value }

/-- How `convertMacToStruct` ends other than by returning: an exception of
`std::stoi` that nothing catches, or the write `macAddress.macAddress[i]` with
`i` beyond the six bytes of the array. -/
inductive MacStop where
  | stoiException
  | writePastEnd (i : Nat)
  deriving DecidableEq, Repr

/-- The loop of `convertMacToStruct` over the tokens, `i` the running index. -/
def convertMacLoop : List CppString → Nat → MacAddress → Except MacStop MacAddress
  | [], _, macAddress => .ok macAddress
  | token :: rest, i, macAddress =>
    match stoi16 token with
    | none => .error .stoiException
    | some value =>
      if i < 6 then
        convertMacLoop rest (i + 1) (macAddress.set i (Fin.ofNat (value % 256).toNat))
      else .error (.writePastEnd i)

/-- The function `VisionaryAutoIP::convertMacToStruct`; the array starts as six
zero bytes. -/
def convertMacToStruct (basicString : CppString) : Except MacStop MacAddress :=
  convertMacLoop (getlineTokens basicString []) 0 ⟨0, 0, 0, 0, 0, 0⟩

/-- Lines 552-584: the payload of the request.  For `COLA_1` the XML text that
the string concatenation builds, for every other version the three addresses
as big-endian 32-bit values and the DHCP flag as one byte. -/
def assignPayload (destinationMac : CppString) (colaVer : ColaVersion)
    (ipAddr ipMask ipGateway : CppString) (dhcpEnable : Bool) : ByteBuffer :=
  if colaVer = .COLA_1 then
    let dhcpString := if dhcpEnable then ascii "TRUE" else ascii "FALSE"
    ascii "<?xml version=\"1.0\" encoding=\"UTF-8\"?><IPconfig MACAddr=\"" ++ destinationMac
      ++ ascii "\"><Item key=\"IPAddress\" value=\"" ++ ipAddr
      ++ ascii "\" /><Item key=\"IPMask\" value=\"" ++ ipMask
      ++ ascii "\" /><Item key=\"IPGateway\" value=\"" ++ ipGateway
      ++ ascii "\" /><Item key=\"DHCPClientEnabled\" value=\"" ++ dhcpString
      ++ ascii "\" /></IPconfig>"
  else
    writeUnalignBigEndian32 (string2addr ipAddr)
      ++ writeUnalignBigEndian32 (string2addr ipMask)
      ++ writeUnalignBigEndian32 (string2addr ipGateway)
      ++ [if dhcpEnable then 1 else 0]

/-- Lines 586-610: the packet of the request around a payload. -/
def assignPacket (mac : MacAddress) (curtelegramID : Nat) (payload : ByteBuffer) : ByteBuffer :=
  [0x11, 0x00]
    ++ writeUnalignBigEndian16 (payload.length % 2 ^ 16)
    ++ mac.toList
    ++ writeUnalignBigEndian32 curtelegramID
    ++ [0x01, 0x00]
    ++ payload

/-- What `assign` does to the outside, in order. -/
inductive AssignEvent where
  /-- The call `m_link.write(autoIpPacket)`. -/
  | write (autoIpPacket : ByteBuffer)
  /-- A call of `m_link.read` that delivered this buffer. -/
  | read (receiveBuffer : ByteBuffer)
  /-- The call `std::this_thread::sleep_for` with this many milliseconds. -/
  | sleep (milliseconds : Nat)
  deriving DecidableEq, Repr

/-- Lines 614-633: the loop that waits for the confirmation, over the buffers
that `m_link.read` delivers before the timeout.  Returns the value that `assign`
returns and what the loop did. -/
def assignLoop (reconfigurationTimeMs : Nat) : List ByteBuffer → Bool × List AssignEvent
  | [] => (false, [])
  | receiveBuffer :: rest =>
    if receiveBuffer.length > 16 ∧ receiveBuffer.head? = some kRplIpconfig then
      (true, [.read receiveBuffer, .sleep reconfigurationTimeMs])
    else
      ((assignLoop reconfigurationTimeMs rest).1,
        .read receiveBuffer :: (assignLoop reconfigurationTimeMs rest).2)

/-- One run of `assign` that gets past `convertMacToStruct`. -/
structure AssignRun where
  returned : Bool
  events : List AssignEvent
  deriving DecidableEq, Repr

/-- The function `VisionaryAutoIP::assign`.  `teleIdCounter` is the value drawn
from the random engine, `received` the buffers delivered by `m_link.read` before
the timeout. -/
def assign (teleIdCounter : Nat) (received : List ByteBuffer) (destinationMac : CppString)
    (colaVer : ColaVersion) (ipAddr ipMask ipGateway : CppString) (dhcpEnable : Bool)
    (reconfigurationTimeMs : Nat) : Except MacStop AssignRun :=
  let payload := assignPayload destinationMac colaVer ipAddr ipMask ipGateway dhcpEnable
  match convertMacToStruct destinationMac with
  | .error e => .error e
  | .ok mac =>
    let curtelegramID := teleIdCounter % 2 ^ 32
    let autoIpPacket := assignPacket mac curtelegramID payload
    let loop := assignLoop reconfigurationTimeMs received
    .ok { returned := loop.1, events := .write autoIpPacket :: loop.2 }

/-- A text of 65536 zero digits. -/
def longAddress : CppString :=
  List.replicate 65536 48

/-- The MAC address text of `sampleInfo`. -/
def sampleMac : CppString :=
  ascii "00:06:77:01:02:ab"

/-- The six bytes that `sampleMac` names. -/
def sampleMacBytes : MacAddress :=
  ⟨0x00, 0x06, 0x77, 0x01, 0x02, 0xab⟩

/-- A confirmation reply of 17 bytes: the marker `0x91` and sixteen zero bytes. -/
def confirmationReply : ByteBuffer :=
  [0x91, 0, 0, 0, 0, 0, 0, 0, 0, 0, 0, 0, 0, 0, 0, 0, 0]

/-- The dotted-decimal text of four octets, first octet first. -/
def dottedQuad (a b c d : Byte) : CppString :=
  decOctet a.val ++ ascii "." ++ decOctet b.val ++ ascii "." ++ decOctet c.val ++ ascii "."
    ++ decOctet d.val

/-! ## Reading a request document back -/

/-- Takes the text `lit` off the front of `s`; `none` when `s` does not start
with it. -/
def skipLiteral (lit s : CppString) : Option CppString :=
  if s.take lit.length = lit then some (s.drop lit.length) else none

/-- An XML attribute value after its opening double quote, as an XML processor
reports it, and what follows the closing double quote.  The value is the text up
to the closing quote with every TAB, LF and CR replaced by a space, a CR LF pair
by one space (line-end and attribute-value normalisation).  `none` for a text
that is no attribute value or that this reader does not read: one that holds
`<`, which XML allows in no value; `&`, which starts a reference, and this reader
expands none; a control character other than TAB, LF and CR, which is no XML
character; or a byte above 0x7E, which would have to be decoded as UTF-8. -/
def readAttValue : CppString → Option (CppString × CppString)
  | [] => none
  | c :: rest =>
    if c.val = 34 then some ([], rest)
    else if c.val = 60 ∨ c.val = 38 then none
    else if c.val < 32 ∧ c.val ≠ 9 ∧ c.val ≠ 10 ∧ c.val ≠ 13 then none
    else if c.val > 126 then none
    else
      match readAttValue rest with
      | some (value, after) =>
        if c.val = 13 ∧ rest.head? = some 10 then some (value, after)
        else if c.val = 9 ∨ c.val = 10 ∨ c.val = 13 then some (32 :: value, after)
        else some (c :: value, after)
      | none => none

/-- The elements `<Item key=".." value=".." />` at the front of `s`, as (key,
value) pairs in order, and the text after the last of them.  `fuel` bounds the
number of elements. -/
def readItems : Nat → CppString → Option (List (CppString × CppString) × CppString)
  | 0, s => some ([], s)
  | fuel + 1, s =>
    match skipLiteral (ascii "<Item key=\"") s with
    | none => some ([], s)
    | some s1 => do
      let (key, s2) ← readAttValue s1
      let s3 ← skipLiteral (ascii " value=\"") s2
      let (value, s4) ← readAttValue s3
      let s5 ← skipLiteral (ascii " />") s4
      let (items, s6) ← readItems fuel s5
      pure ((key, value) :: items, s6)

/-- Reads the XML document of a reconfiguration request in the textual form the
spec gives it: the declaration, the root element `IPconfig` with its attribute
`MACAddr`, and the root's `Item` children.  Returns the value of `MACAddr` and the
(key, value) pairs of the children in order; `none` when the text is not such a
document.  Every text it reads is a well-formed XML document in which the
attribute values hold ASCII characters only, and the result is what an XML
processor reports for that document. -/
def readIPconfig (payload : CppString) : Option (CppString × List (CppString × CppString)) := do
  let s1 ← skipLiteral (ascii "<?xml version=\"1.0\" encoding=\"UTF-8\"?>") payload
  let s2 ← skipLiteral (ascii "<IPconfig MACAddr=\"") s1
  let (macAddr, s3) ← readAttValue s2
  let s4 ← skipLiteral (ascii ">") s3
  let (items, s5) ← readItems s4.length s4
  let s6 ← skipLiteral (ascii "</IPconfig>") s5
  if s6 = [] then some (macAddr, items) else none

/-- The text can stand between double quotes as an XML attribute value that
denotes the text itself: its characters are printable ASCII (0x20..0x7E), and
none is a double quote, `<` or `&`. -/
def AttrSafe (v : CppString) : Prop :=
  ∀ c, c ∈ v → 32 ≤ c.val ∧ c.val ≤ 126 ∧ c.val ≠ 34 ∧ c.val ≠ 60 ∧ c.val ≠ 38

instance (v : CppString) : Decidable (AttrSafe v) := by
  unfold AttrSafe
  infer_instance

/-- The text of one element `<Item key=".." value=".." />` in front of `rest`. -/
def itemText (key value rest : CppString) : CppString :=
  ascii "<Item key=\"" ++ (key ++ (34 : Byte) :: (ascii " value=\"" ++
    (value ++ (34 : Byte) :: (ascii " />" ++ rest))))

/-- The text that `assign` writes for its flag `dhcpEnable`. -/
def dhcpText (dhcpEnable : Bool) : CppString :=
  if dhcpEnable then ascii "TRUE" else ascii "FALSE"

/-- An address argument that closes its attribute and opens a further `Item`
element. -/
def injectingAddress : CppString :=
  ascii "1.2.3.4\" /><Item key=\"IPMask\" value=\"0.0.0.0"

/-- An address argument that ends in a TAB character. -/
def tabAddress : CppString :=
  ascii "1.2.3.4" ++ [(9 : Byte)]

/-- An address argument that ends in the control character 0x01. -/
def controlAddress : CppString :=
  ascii "1.2.3.4" ++ [(1 : Byte)]

/-! ## The XML device report, stated over the parsed document -/

/-- The (key, value) attribute pairs of the children of the root element other
than `<xmlattr>`, in document order; `none` when a child lacks one of the two
attributes. -/
def itemsOf : List (CppString × PTree) → Option (List (CppString × CppString))
  | [] => some []
  | (first, second) :: rest =>
    if first ≠ ascii "<xmlattr>" then
      match second.get [ascii "<xmlattr>", ascii "key"],
        second.get [ascii "<xmlattr>", ascii "value"], itemsOf rest with
      | some key, some value, some items => some ((key, value) :: items)
      | _, _, _ => none
    else itemsOf rest

/-- The value of the last pair that has the key `key`. -/
def lastValue : List (CppString × CppString) → CppString → Option CppString
  | [], _ => none
  | (k, v) :: rest, key =>
    match lastValue rest key with
    | some x => some x
    | none => if k = key then some v else none

/-- The `DeviceInfo` that the spec describes for an XML report with the root
attribute `MACAddr` and the given (key, value) pairs: each field takes the value
of its key, the port and the duration as integers reduced to the width of their
field. -/
def xmlReference (macAddr : CppString) (items : List (CppString × CppString)) : DeviceInfo :=
  { colaVersion := .COLA_1
    authVersion := .SUL1
    macAddress := macAddr
    ipAddress := (lastValue items (ascii "IPAddress")).getD []
    networkMask := (lastValue items (ascii "IPMask")).getD []
    gateway := (lastValue items (ascii "IPGateway")).getD []
    deviceIdent := (lastValue items (ascii "DeviceType")).getD []
    serialNumber := (lastValue items (ascii "SerialNumber")).getD []
    orderNumber := (lastValue items (ascii "OrderNumber")).getD []
    colaPort := (lastValue items (ascii "HostPortNo")).bind
      (fun v => (stoi v).map (fun n => (n % 2 ^ 16).toNat))
    reconfigurationTimeMs := (lastValue items (ascii "IPConfigDuration")).bind
      (fun v => (stoi v).map (fun n => (n % 2 ^ 32).toNat))
    dhcpEnabled := (lastValue items (ascii "DHCPClientEnabled")).map
      (fun v => decide (v = ascii "TRUE")) }

/-- Every value of `HostPortNo` and of `IPConfigDuration` starts with an integer
that `std::stoi` can read. -/
def NumbersReadable (items : List (CppString × CppString)) : Prop :=
  ∀ kv, kv ∈ items → kv.1 = ascii "HostPortNo" ∨ kv.1 = ascii "IPConfigDuration" →
    (stoi kv.2).isSome = true

/-- The tree of one child element with the attributes `key` and `value`. -/
def itemTree (key value : CppString) : PTree :=
  .node [] [(ascii "<xmlattr>", .node [] [(ascii "key", .node key []),
    (ascii "value", .node value [])])]

/-- The root element `NetScanResult` of a report: its attribute `MACAddr` and
one `Item` child for each (key, value) pair. -/
def netScanResultRoot (macAddr : CppString) (items : List (CppString × CppString)) : PTree :=
  .node [] ((ascii "<xmlattr>", .node [] [(ascii "MACAddr", .node macAddr [])])
    :: items.map (fun (kv : CppString × CppString) => (ascii "Item", itemTree kv.1 kv.2)))

/-- The tree that `read_xml` builds for a report. -/
def netScanResultTree (macAddr : CppString) (items : List (CppString × CppString)) : PTree :=
  .node [] [(ascii "NetScanResult", netScanResultRoot macAddr items)]

/-- The pairs of a report as a Generation1 device sends it. -/
def sampleItems : List (CppString × CppString) :=
  [(ascii "IPAddress", ascii "192.168.1.10"), (ascii "IPMask", ascii "255.255.255.0"),
   (ascii "IPGateway", ascii "0.0.0.0"), (ascii "HostPortNo", ascii "2112"),
   (ascii "DeviceType", ascii "Visionary-T"), (ascii "SerialNumber", ascii "12345678"),
   (ascii "OrderNumber", ascii "1067745"), (ascii "DHCPClientEnabled", ascii "TRUE"),
   (ascii "IPConfigDuration", ascii "5000"), (ascii "Comment", ascii "x")]

/-- The fields of `d` with the values of the pairs laid over them: what the
loop of `parseAutoIPXml` leaves when it starts from `d`. -/
def overlay (d : DeviceInfo) (items : List (CppString × CppString)) : DeviceInfo :=
  { colaVersion := d.colaVersion
    authVersion := d.authVersion
    macAddress := d.macAddress
    ipAddress := (lastValue items (ascii "IPAddress")).getD d.ipAddress
    networkMask := (lastValue items (ascii "IPMask")).getD d.networkMask
    gateway := (lastValue items (ascii "IPGateway")).getD d.gateway
    deviceIdent := (lastValue items (ascii "DeviceType")).getD d.deviceIdent
    serialNumber := (lastValue items (ascii "SerialNumber")).getD d.serialNumber
    orderNumber := (lastValue items (ascii "OrderNumber")).getD d.orderNumber
    colaPort :=
      match lastValue items (ascii "HostPortNo") with
      | some v => (stoi v).map (fun n => (n % 2 ^ 16).toNat)
      | none => d.colaPort
    reconfigurationTimeMs :=
      match lastValue items (ascii "IPConfigDuration") with
      | some v => (stoi v).map (fun n => (n % 2 ^ 32).toNat)
      | none => d.reconfigurationTimeMs
    dhcpEnabled :=
      match lastValue items (ascii "DHCPClientEnabled") with
      | some v => some (decide (v = ascii "TRUE"))
      | none => d.dhcpEnabled }

instance (items : List (CppString × CppString)) : Decidable (NumbersReadable items) := by
  unfold NumbersReadable; infer_instance

/-- The pairs of a report whose port number does not fit 16 bits. -/
def widePortItems : List (CppString × CppString) :=
  [(ascii "HostPortNo", ascii "65536"), (ascii "IPConfigDuration", ascii "-1")]

/-! ## The entries of the auxiliary array and of the endpoints, as the decoder walks them -/

/-- The entry that pass `k` (counted from 0) of the loop over the auxiliary
array decodes when the loop starts in state `s0`: its 4-byte key and the
`innerArrayLen` bytes that follow its length field.  `none` when the pass is not
reached or does not complete. -/
def auxEntryFrom (buffer : ByteBuffer) (s0 : ParseState) (k : Nat) :
    Option (CppString × List Byte) :=
  match loopN (auxBody buffer) k s0 with
  | .ok s =>
    match auxBody buffer s, readBytes buffer s.offset 4,
      readUnalignBigEndian buffer (s.offset + 4) 2 with
    | .ok _, .ok key, .ok innerArrayLen =>
      some (key, (buffer.drop (s.offset + 6)).take innerArrayLen)
    | _, _, _ => none
  | .error _ => none

/-- The entries of the auxiliary array of a report, in wire order, as the
decoder walks them. -/
def auxEntries (buffer : ByteBuffer) : List (CppString × List Byte) :=
  match parseHeader buffer with
  | .ok (s0, auxArrayLen) => (List.range auxArrayLen).filterMap (auxEntryFrom buffer s0)
  | .error _ => []

/-- A report with one auxiliary entry `AutV` of value `1.0.0.0R`, no
scan-interface and no communication-settings entry, and one endpoint with one
`DPNo` entry of port 2122. -/
def secureReport : ByteBuffer :=
  sampleReport.take 49 ++ [0, 1] ++ ascii "AutV" ++ [0, 8] ++ ascii "1.0.0.0R"
    ++ [0, 0, 0, 0, 0, 1, 2, 0, 1] ++ ascii "DPNo" ++ [0, 2, 8, 74]

/-- Lines 495-503: the head of one pass of the loop over the endpoints array,
before the inner loop: the version byte is skipped and the count of entries
read.  Returns the state at line 504 and the count `innerArrayLen`. -/
def endPointHead (buffer : ByteBuffer) (s : ParseState) : Except Stop (ParseState × Nat) := do
  let mut offset := s.offset
  let mut minSize := s.minSize
  minSize := minSize + 1
  if buffer.length < minSize then throw (.ret s.deviceInfo)
  -- colaVersion
  offset := offset + 1
  minSize := minSize + 2
  if buffer.length < minSize then throw (.ret s.deviceInfo)
  let innerArrayLen ← readUnalignBigEndian buffer offset 2
  offset := offset + 2
  return ({ s with offset := offset, minSize := minSize }, innerArrayLen)

/-- Lines 239-489: everything before the loop over the endpoints array.  Returns
the state at line 490 and the count `endPointsLen`. -/
def parseToEndPoints (buffer : ByteBuffer) : Except Stop (ParseState × Nat) := do
  let (s4, comSettingsLen) ← parseToComSettings buffer
  let s5 ← loopN (comSettingsBody buffer) comSettingsLen s4
  arrayCount buffer s5

/-! ## A reference encoding of the binary device report -/

/-- An entry of an array: a 4-byte key and a value, sent as the key, the
16-bit length of the value and the value. -/
structure Entry where
  key : CppString
  value : List Byte
  deriving DecidableEq, Repr

/-- An entry of the scan-interface array: a 16-bit number and a name. -/
structure ScanInterface where
  ifaceNum : Nat
  ifaceName : CppString
  deriving DecidableEq, Repr

/-- An entry of the endpoints array: a version byte and a list of entries. -/
structure EndPoint where
  colaVersion : Byte
  entries : List Entry
  deriving DecidableEq, Repr

/-- The content of a binary device report, field by field in wire order: the
16 bytes of the reply frame, the format version, the identifier string, the 14
fixed bytes (five version fields, device state, required user action), seven
more strings, the flag byte and the four arrays. -/
structure Report where
  frameHeader : List Byte
  deviceInfoVersion : Nat
  cidName : CppString
  cidVersion : List Byte
  deviceName : CppString
  appName : CppString
  projName : CppString
  serialNumber : CppString
  typeCode : CppString
  firmwareVersion : CppString
  orderNumber : CppString
  flags : Byte
  aux : List Entry
  scanIfs : List ScanInterface
  comSettings : List Entry
  endPoints : List EndPoint
  deriving DecidableEq, Repr

/-- A string with its 16-bit big-endian length in front. -/
def encodeString (s : CppString) : List Byte :=
  writeUnalignBigEndian16 s.length ++ s

/-- An entry on the wire: the key, then the value as a string. -/
def encodeEntry (e : Entry) : List Byte :=
  e.key ++ encodeString e.value

/-- A scan-interface entry on the wire: the 16-bit number, then the name as a
string. -/
def encodeScanInterface (i : ScanInterface) : List Byte :=
  writeUnalignBigEndian16 i.ifaceNum ++ encodeString i.ifaceName

/-- An endpoint on the wire: the version byte, the 16-bit count of its entries,
then the entries. -/
def encodeEndPoint (p : EndPoint) : List Byte :=
  [p.colaVersion] ++ (writeUnalignBigEndian16 p.entries.length ++ p.entries.flatMap encodeEntry)

/-- The reference encoding of a report: its fields in wire order, every string
and every array with its 16-bit big-endian length or count in front. -/
def referenceEncode (r : Report) : ByteBuffer :=
  r.frameHeader ++ (writeUnalignBigEndian16 r.deviceInfoVersion ++ (encodeString r.cidName
    ++ (r.cidVersion ++ (encodeString r.deviceName ++ (encodeString r.appName
    ++ (encodeString r.projName ++ (encodeString r.serialNumber ++ (encodeString r.typeCode
    ++ (encodeString r.firmwareVersion ++ (encodeString r.orderNumber ++ ([r.flags]
    ++ (writeUnalignBigEndian16 r.aux.length ++ (r.aux.flatMap encodeEntry
    ++ (writeUnalignBigEndian16 r.scanIfs.length ++ (r.scanIfs.flatMap encodeScanInterface
    ++ (writeUnalignBigEndian16 r.comSettings.length ++ (r.comSettings.flatMap encodeEntry
    ++ (writeUnalignBigEndian16 r.endPoints.length
    ++ r.endPoints.flatMap encodeEndPoint))))))))))))))))))

/-- An entry whose key has four bytes and whose length fits 16 bits. -/
def Entry.Fits (e : Entry) : Prop :=
  e.key.length = 4 ∧ e.value.length < 65536

/-- A communication-settings entry whose value has the width of its key: six
bytes for `EMAC`, four for `EIPa`, `ENMa`, `EDGa` and `ECDu`, one for `EDhc`. -/
def Entry.ComSettingWidth (e : Entry) : Prop :=
  (e.key = ascii "EMAC" → e.value.length = 6) ∧
  (e.key = ascii "EIPa" → e.value.length = 4) ∧
  (e.key = ascii "ENMa" → e.value.length = 4) ∧
  (e.key = ascii "EDGa" → e.value.length = 4) ∧
  (e.key = ascii "EDhc" → e.value.length = 1) ∧
  (e.key = ascii "ECDu" → e.value.length = 4)

/-- An endpoint entry whose value has the width of its key: two bytes for `DPNo`. -/
def Entry.EndPointWidth (e : Entry) : Prop :=
  e.key = ascii "DPNo" → e.value.length = 2

/-- A well-formed report: the frame header has 16 and the fixed block 14 bytes,
every length and count fits 16 bits, every key has four bytes, the value of
every recognised key has the width of that key, and some endpoint has a `DPNo`
entry. -/
def WellFormed (r : Report) : Prop :=
  r.frameHeader.length = 16 ∧ r.cidVersion.length = 14 ∧
  r.cidName.length < 65536 ∧ r.deviceName.length < 65536 ∧ r.appName.length < 65536 ∧
  r.projName.length < 65536 ∧ r.serialNumber.length < 65536 ∧ r.typeCode.length < 65536 ∧
  r.firmwareVersion.length < 65536 ∧ r.orderNumber.length < 65536 ∧
  r.aux.length < 65536 ∧ (∀ e, e ∈ r.aux → e.Fits) ∧
  r.scanIfs.length < 65536 ∧ (∀ i, i ∈ r.scanIfs → i.ifaceName.length < 65536) ∧
  r.comSettings.length < 65536 ∧ (∀ e, e ∈ r.comSettings → e.Fits ∧ e.ComSettingWidth) ∧
  r.endPoints.length < 65536 ∧
  (∀ p, p ∈ r.endPoints → p.entries.length < 65536 ∧
    ∀ e, e ∈ p.entries → e.Fits ∧ e.EndPointWidth) ∧
  (∃ p, p ∈ r.endPoints ∧ ∃ e, e ∈ p.entries ∧ e.key = ascii "DPNo")

instance (e : Entry) : Decidable e.Fits := by
  unfold Entry.Fits; infer_instance

instance (e : Entry) : Decidable e.ComSettingWidth := by
  unfold Entry.ComSettingWidth; infer_instance

instance (e : Entry) : Decidable e.EndPointWidth := by
  unfold Entry.EndPointWidth; infer_instance

instance (r : Report) : Decidable (WellFormed r) := by
  unfold WellFormed; infer_instance

/-- The state after `n` more bytes have been checked and consumed. -/
def ParseState.advance (s : ParseState) (n : Nat) : ParseState :=
  { s with offset := s.offset + n, minSize := s.minSize + n }

/-- What one pass of the auxiliary loop does to the `DeviceInfo`. -/
def applyAux (deviceInfo : DeviceInfo) (e : Entry) : DeviceInfo :=
  if e.key = ascii "AutV" ∧ e.value = ascii "1.0.0.0R" then
    { deviceInfo with authVersion := .SUL2 }
  else deviceInfo

/-- The six bytes of a value as a `MacAddress`. -/
def macOf (value : List Byte) : MacAddress :=
  ⟨value.getD 0 0, value.getD 1 0, value.getD 2 0, value.getD 3 0, value.getD 4 0,
    value.getD 5 0⟩

/-- What one pass of the communication-settings loop does to the `DeviceInfo`
and to `macAddr`. -/
def applyComSetting (st : DeviceInfo × CppString) (e : Entry) : DeviceInfo × CppString :=
  if e.key = ascii "EMAC" then (st.1, convertMacToString (macOf e.value))
  else if e.key = ascii "EIPa" then
    ({ st.1 with ipAddress := addr2string (beValue e.value) }, st.2)
  else if e.key = ascii "ENMa" then
    ({ st.1 with networkMask := addr2string (beValue e.value) }, st.2)
  else if e.key = ascii "EDGa" then
    ({ st.1 with gateway := addr2string (beValue e.value) }, st.2)
  else if e.key = ascii "EDhc" then
    ({ st.1 with dhcpEnabled := some (beValue e.value != 0) }, st.2)
  else if e.key = ascii "ECDu" then
    ({ st.1 with reconfigurationTimeMs := some (beValue e.value * 1000 % 2 ^ 32) }, st.2)
  else st

/-- The ports of the `DPNo` entries of a list of entries, in order. -/
def entryPorts (entries : List Entry) : List Nat :=
  entries.filterMap (fun e => if e.key = ascii "DPNo" then some (beValue e.value) else none)

/-- The `DeviceInfo` at line 371, after the fixed part of a report. -/
def headerInfo (r : Report) : DeviceInfo :=
  { colaVersion := .COLA_2, deviceIdent := r.cidName, serialNumber := r.serialNumber,
    orderNumber := r.orderNumber, authVersion := .SUL1, macAddress := ascii "invalid",
    colaPort := none, ipAddress := [], networkMask := [], gateway := [], dhcpEnabled := none,
    reconfigurationTimeMs := none }

/-- The `DeviceInfo` and `macAddr` after the communication-settings loop. -/
def comSettingsInfo (r : Report) : DeviceInfo × CppString :=
  r.comSettings.foldl applyComSetting (r.aux.foldl applyAux (headerInfo r), [])

/-- What the decoder returns for the reference encoding of a well-formed
report. -/
def decodeReference (r : Report) : DeviceInfo :=
  { (comSettingsInfo r).1 with
    colaPort := (r.endPoints.flatMap (fun p => entryPorts p.entries)).head?
    macAddress := (comSettingsInfo r).2 }

/-- A report of a device `Visionary-T` with the serial number 12345678 and the
order number 1067745, the address 192.168.1.10 in 255.255.255.0 behind the
gateway 192.168.1.1, and one endpoint with the port 2122. -/
def sampleDeviceReport : Report :=
  { frameHeader := [149, 0, 0, 0, 0, 0, 0, 0, 0, 0, 0, 0, 0, 1, 0, 0]
    deviceInfoVersion := 1
    cidName := ascii "Visionary-T"
    cidVersion := [0, 1, 0, 2, 0, 3, 0, 0, 0, 4, 0, 0, 0, 0]
    deviceName := ascii "dev"
    appName := ascii "app"
    projName := []
    serialNumber := ascii "12345678"
    typeCode := ascii "V3SXX"
    firmwareVersion := ascii "1.0"
    orderNumber := ascii "1067745"
    flags := 0
    aux := [⟨ascii "AutV", ascii "1.0.0.0R"⟩]
    scanIfs := [⟨1, ascii "eth0"⟩]
    comSettings := [⟨ascii "EMAC", [0x00, 0x06, 0x77, 0x01, 0x02, 0xab]⟩,
      ⟨ascii "EIPa", [0xC0, 0xA8, 0x01, 0x0A]⟩, ⟨ascii "ENMa", [0xFF, 0xFF, 0xFF, 0x00]⟩,
      ⟨ascii "EDGa", [0xC0, 0xA8, 0x01, 0x01]⟩, ⟨ascii "EDhc", [0]⟩,
      ⟨ascii "ECDu", [0, 0, 0, 5]⟩]
    endPoints := [⟨2, [⟨ascii "DPNo", [8, 74]⟩]⟩] }

/-- The bytes of the buffer from offset `o` on are `rest`. -/
def Cur (buffer : ByteBuffer) (o : Nat) (rest : List Byte) : Prop :=
  buffer.drop o = rest ∧ o + rest.length = buffer.length

/-- What `parseAutoIPBinary` returns for the reference encoding of
`sampleDeviceReport`. -/
def sampleDeviceInfo : DeviceInfo :=
  { colaVersion := .COLA_2, deviceIdent := ascii "Visionary-T",
    serialNumber := ascii "12345678", orderNumber := ascii "1067745", authVersion := .SUL2,
    macAddress := ascii "00:06:77:01:02:ab", colaPort := some 2122,
    ipAddress := ascii "192.168.1.10", networkMask := ascii "255.255.255.0",
    gateway := ascii "192.168.1.1", dhcpEnabled := some false,
    reconfigurationTimeMs := some 5000 }

/-! ## The product type (`VisionaryType.h`, `VisionaryType.cpp`) -/

/-- The constant `VisionaryType::kVisionaryS`. -/
def kVisionaryS : CppString := ascii "Visionary-S"

/-- The constant `VisionaryType::kVisionaryTMini`. -/
def kVisionaryTMini : CppString := ascii "Visionary-T_Mini"

/-- The enumerator `eVisionaryS` of `VisionaryType::Enum`, as its value. -/
def eVisionaryS : Nat := 0

/-- The enumerator `eVisionaryTMini` of `VisionaryType::Enum`, as its value. -/
def eVisionaryTMini : Nat := 1

/-- The class `VisionaryType`: its one member `m_type`, the value of an `Enum`. -/
structure VisionaryType where
  m_type : Nat
  deriving DecidableEq, Repr

/-- The constructor `VisionaryType(Enum type)`; `none` stands for
`std::invalid_argument`, thrown in the `default` branch of its `switch`. -/
def VisionaryType.new (type : Nat) : Option VisionaryType :=
  if type = eVisionaryS ∨ type = eVisionaryTMini then some ⟨type⟩ else none

/-- The function `VisionaryType::fromString`; `none` stands for
`std::invalid_argument`.  The operator `==` of a `std::string` and a character
array compares the whole string with the characters before the terminating NUL
of the array. -/
def VisionaryType.fromString (typestring : CppString) : Option VisionaryType :=
  if typestring = kVisionaryS then VisionaryType.new eVisionaryS
  else if typestring = kVisionaryTMini then VisionaryType.new eVisionaryTMini
  else none

/-- The function `VisionaryType::toString`. -/
def VisionaryType.toString (t : VisionaryType) : CppString :=
  if t.m_type = eVisionaryS then kVisionaryS
  else if t.m_type = eVisionaryTMini then kVisionaryTMini
  else []

/-- The function `VisionaryType::getNames`. -/
def VisionaryType.getNames : List CppString :=
  [kVisionaryS, kVisionaryTMini]

/-! ## XML replies in the receive loop -/

/-- The text that one pass of the receive loop of `scan` hands to
`parseAutoIPXml` (lines 147-150): the `payLoadSize` bytes at `&receiveBuffer[pos]`
with `pos = 16`.  `none` when the pass does not reach those lines. -/
def xmlDecodeInput (curtelegramID : Nat) (receiveBuffer : ByteBuffer) : Option CppString :=
  if receiveBuffer.length > 16 then
    if receiveBuffer.head? = some kRplNetscan then none
    else if receiveBuffer.head? = some kRplScanColaB then
      let payLoadSize := beValue ((receiveBuffer.drop 2).take 2)
      let recvTelegramID := beValue ((receiveBuffer.drop 10).take 4)
      if recvTelegramID ≠ curtelegramID then none
      else if receiveBuffer.length ≥ 16 + payLoadSize then
        some ((receiveBuffer.drop 16).take payLoadSize)
      else none
    else none
  else none

/-- The ways in which the decode of an XML payload fails: `read_xml` rejects
the document; or the attribute `MACAddr` of the root element `NetScanResult` is
missing; or a child of the root lacks the attribute `key` or `value`; or a
value of `HostPortNo` or `IPConfigDuration` is not a number that `std::stoi`
reads. -/
def XmlDecodeFails (readXml : CppString → Option PTree) (payload : CppString) : Prop :=
  match readXml payload with
  | none => True
  | some tree =>
    tree.get_child [ascii "NetScanResult", ascii "<xmlattr>", ascii "MACAddr"] = none ∨
    match tree.get_child [ascii "NetScanResult"] with
    | none => True
    | some root =>
      match itemsOf root.children with
      | none => True
      | some items => ¬ NumbersReadable items

/-- A `0x90` reply with the telegram id `telegramID` around a payload. -/
def xmlReply (telegramID : Nat) (payload : CppString) : ByteBuffer :=
  [0x90, 0x00] ++ writeUnalignBigEndian16 payload.length ++ [0, 0, 0, 0, 0, 0]
    ++ writeUnalignBigEndian32 telegramID ++ [0x00, 0x00] ++ payload

/-- A report document whose `HostPortNo` is not a number. -/
def badPortDocument : CppString :=
  ascii "<NetScanResult MACAddr=\"00:06:77:01:02:ab\"><Item key=\"HostPortNo\" value=\"abc\" /></NetScanResult>"

/-- The tree that `read_xml` builds for `badPortDocument`. -/
def badPortTree : PTree :=
  netScanResultTree sampleMac [(ascii "HostPortNo", ascii "abc")]

/-- The parser `read_xml` restricted to `badPortDocument`; every other text is
rejected. -/
def readXmlBadPort (payload : CppString) : Option PTree :=
  if payload = badPortDocument then some badPortTree else none

/-! ## Sending and receiving on the link (`NetLink::write`, `NetLink::read`) -/

/-- One call of `sendto`: the destination `sin_addr` and the bytes handed over. -/
structure SendTo where
  sinAddr : Nat
  bytes : ByteBuffer
  deriving DecidableEq, Repr

/-- The function `NetLink::write`: the `int` it returns and the calls of
`sendto` it makes, in order.  `sendResult` is what the last `sendto` returns
(the result of the first one is overwritten).  The length argument is
`static_cast<unsigned short>(buffer.size())`. -/
def NetLink.write (link : NetLink) (sendResult : Int) (buffer : ByteBuffer) :
    Int × List SendTo :=
  if !link.socket then (0, [])
  else
    let bytes := buffer.take (buffer.length % 2 ^ 16)
    if link.m_broadcast then
      (sendResult, [⟨INADDR_BROADCAST, bytes⟩, ⟨link.remoteSinAddr, bytes⟩])
    else (sendResult, [⟨link.remoteSinAddr, bytes⟩])

/-- One call of `recv` on a buffer whose capacity is its size (as for the
`ByteBuffer receiveBuffer(1500)` of the callers): `pending` is the datagram the
socket has for the call, `none` when the call fails or times out.  Returns the
`int` and the buffer: a failed call returns -1 and writes nothing, a
successful one returns the number of bytes copied to the front of the buffer,
at most `static_cast<unsigned short>(buffer.capacity())`. -/
def recv (pending : Option ByteBuffer) (buffer : ByteBuffer) : Int × ByteBuffer :=
  match pending with
  | none => (-1, buffer)
  | some datagram =>
    let len := min datagram.length (buffer.length % 2 ^ 16)
    ((len : Int), datagram.take len ++ buffer.drop len)

/-- The function `NetLink::read` (the branch for POSIX hosts): the `int` it
returns and the buffer afterwards.  `onSocket` and `onRxsock` are what the two
sockets have for their `recv`. -/
def NetLink.read (link : NetLink) (onSocket onRxsock : Option ByteBuffer)
    (buffer : ByteBuffer) : Int × ByteBuffer :=
  if !link.socket then (-1, buffer)
  else
    let r := recv onSocket buffer
    if r.1 ≤ 0 then
      if !link.rxsock then (-1, r.2)
      else
        let r2 := recv onRxsock r.2
        if r2.1 > 0 then (r2.1, r2.2.take r2.1.toNat) else r2
    else (r.1, r.2.take r.1.toNat)

/-- The buffers that the receive loops of `scan` and `assign` get to look at:
each pass makes a `ByteBuffer receiveBuffer(1500)` and goes on with it when
`m_link.read(receiveBuffer) > 16`.  `pending` lists, pass by pass until the
timeout, what the two sockets have. -/
def NetLink.received (link : NetLink) (pending : List (Option ByteBuffer × Option ByteBuffer)) :
    List ByteBuffer :=
  pending.filterMap (fun p =>
    let r := link.read p.1 p.2 (List.replicate 1500 0)
    if r.1 > 16 then some r.2 else none)

/-- The function `VisionaryAutoIP::scan` on its link `m_link`: the result of
`m_link.write`, the calls of `sendto`, and the run over what `m_link.read`
delivers. -/
def scanOnLink (readXml : CppString → Option PTree) (littleEndian : Bool) (link : NetLink)
    (teleIdCounter : Nat) (sendResult : Int)
    (pending : List (Option ByteBuffer × Option ByteBuffer)) :
    (Int × List SendTo) × ScanRun :=
  let run := scan readXml littleEndian link teleIdCounter (link.received pending)
  (link.write sendResult run.written, run)

/-- The function `VisionaryAutoIP::assign` on its link `m_link`: the run over
what `m_link.read` delivers, and the calls of `sendto` that its `m_link.write`
makes. -/
def assignOnLink (link : NetLink) (teleIdCounter : Nat) (sendResult : Int)
    (pending : List (Option ByteBuffer × Option ByteBuffer)) (destinationMac : CppString)
    (colaVer : ColaVersion) (ipAddr ipMask ipGateway : CppString) (dhcpEnable : Bool)
    (reconfigurationTimeMs : Nat) : Except MacStop (AssignRun × List SendTo) :=
  match assign teleIdCounter (link.received pending) destinationMac colaVer ipAddr ipMask
      ipGateway dhcpEnable reconfigurationTimeMs with
  | .error e => .error e
  | .ok run =>
    .ok (run, run.events.flatMap (fun e =>
      match e with
      | .write autoIpPacket => (link.write sendResult autoIpPacket).2
      | _ => []))

/-- The link that `VisionaryAutoIP(interfaceIp, prefix)` constructs: the remote
address is the default `BROADCAST_IP`. -/
def autoIpLink (littleEndian openRx openSock : Bool) (interfaceIp : CppString) (pfx : Byte) :
    NetLink :=
  NetLink.new littleEndian openRx openSock interfaceIp pfx BROADCAST_IP

/-- The report `sampleDeviceReport` with a reconfiguration time of 4294968
seconds (bytes 00 41 89 38) in its `ECDu` entry. -/
def longDurationReport : Report :=
  { sampleDeviceReport with
    comSettings := [⟨ascii "EMAC", [0x00, 0x06, 0x77, 0x01, 0x02, 0xab]⟩,
      ⟨ascii "ECDu", [0x00, 0x41, 0x89, 0x38]⟩] }

/-- The communication-settings keys that the decoder recognises. -/
def recognisedKeys : List CppString :=
  [ascii "EMAC", ascii "EIPa", ascii "ENMa", ascii "EDGa", ascii "EDhc", ascii "ECDu"]

/-! ## Address texts as `inet_pton` reads them -/

/-- The text that `ip.c_str()` hands to a C function: the characters before the
first NUL. -/
def cString (s : CppString) : CppString :=
  s.takeWhile (fun c => c.val ≠ 0)

/-- A valid dotted quad: four decimal octets 0..255 without leading zeros, joined
by dots. -/
def ValidDottedQuad (s : CppString) : Prop :=
  ∃ a b c d : Byte, s = dottedQuad a b c d

/-- The text that the digit loop of `inet_pton` has accepted when it holds the
finished octets `octets` and is reading the octet `cur`. -/
def consumed (octets : List Nat) (cur : Option Nat) : CppString :=
  (octets.map (fun o => decOctet o ++ [(46 : Byte)])).flatten
    ++ (match cur with
        | some v => decOctet v
        | none => [])

/-- A dotted quad followed by a NUL character and more text. -/
def nulAddress : CppString :=
  ascii "1.2.3.4" ++ [(0 : Byte)] ++ ascii "x"

/-- A character in `0`..`9` or `a`..`f`. -/
def isLowerHex (c : Byte) : Bool :=
  (48 ≤ c.val && c.val ≤ 57) || (97 ≤ c.val && c.val ≤ 102)

/-! ## Counting the passes of the decoder loops -/

/-- The report `sampleReport` behind a different frame header: sixteen bytes 0xAA
in place of the marker, the reserved bytes and the telegram id. -/
def otherHeaderReport : ByteBuffer :=
  List.replicate 16 0xAA ++ sampleReport.drop 16

/-- The number of passes that the loop `for (int i = 0; i < n; ++i) body` begins
from state `s`: a pass that ends with `return` or in undefined behaviour is the
last one.  `inner s` is the number of passes of nested loops that the pass
beginning in state `s` begins. -/
def loopPasses {σ : Type} (body : σ → Except Stop σ) (inner : σ → Nat) : Nat → σ → Nat
  | 0, _ => 0
  | n + 1, s =>
    match body s with
    | .ok s1 => 1 + inner s + loopPasses body inner n s1
    | .error _ => 1 + inner s

/-- The number of passes of the inner loop (lines 504-529) that one pass of the
loop over the endpoints array begins, when that pass begins in state `s`. -/
def endPointInnerPasses (buffer : ByteBuffer) (s : ParseState) : Nat :=
  match endPointHead buffer s with
  | .ok (s1, innerArrayLen) =>
    loopPasses (endPointEntryBody buffer) (fun _ => 0) innerArrayLen s1
  | .error _ => 0

/-- The number of loop passes that `parseAutoIPBinary` begins on a buffer, over
its five loops: the auxiliary array, the scan interfaces, the communication
settings, the endpoints and the entries of each endpoint. -/
def parsePasses (buffer : ByteBuffer) : Nat :=
  match parseHeader buffer with
  | .error _ => 0
  | .ok (s0, auxArrayLen) =>
    loopPasses (auxBody buffer) (fun _ => 0) auxArrayLen s0 +
    match loopN (auxBody buffer) auxArrayLen s0 >>= arrayCount buffer with
    | .error _ => 0
    | .ok (s2, scanIfLen) =>
      loopPasses (scanIfBody buffer) (fun _ => 0) scanIfLen s2 +
      match loopN (scanIfBody buffer) scanIfLen s2 >>= arrayCount buffer with
      | .error _ => 0
      | .ok (s4, comSettingsLen) =>
        loopPasses (comSettingsBody buffer) (fun _ => 0) comSettingsLen s4 +
        match loopN (comSettingsBody buffer) comSettingsLen s4 >>= arrayCount buffer with
        | .error _ => 0
        | .ok (s6, endPointsLen) =>
          loopPasses (endPointBody buffer) (endPointInnerPasses buffer) endPointsLen s6

/-- A buffer of 57 bytes whose header declares 65535 auxiliary entries: 49 zero
bytes, the count `ff ff`, and one auxiliary entry with the key `abcd` and an empty
value. -/
def hugeCountReport : ByteBuffer :=
  List.replicate 49 0 ++ [0xff, 0xff] ++ ascii "abcd" ++ [0, 0]

/-! ## Further sample reports and requests -/

/-- A report whose communication-settings array holds, by its declared lengths,
two entries, `EIPa` with a value of 29 bytes and `ENMa`, and no entry with the key
`EMAC`, and whose one endpoint holds two `DPNo` entries, the first with the port
2122.  The 25 bytes of the `EIPa` value after the address spell an `EMAC` entry
with the bytes de ad be ef 00 01 and an endpoints array with the port 6666. -/
def nestedEntryReport : Report :=
  { frameHeader := [149, 0, 0, 0, 0, 0, 0, 0, 0, 0, 0, 0, 0, 1, 0, 0]
    deviceInfoVersion := 1
    cidName := []
    cidVersion := [0, 0, 0, 0, 0, 0, 0, 0, 0, 0, 0, 0, 0, 0]
    deviceName := []
    appName := []
    projName := []
    serialNumber := []
    typeCode := []
    firmwareVersion := []
    orderNumber := []
    flags := 0
    aux := []
    scanIfs := []
    comSettings := [⟨ascii "EIPa", [10, 0, 0, 1] ++ ascii "EMAC" ++ [0, 6]
        ++ [0xde, 0xad, 0xbe, 0xef, 0x00, 0x01] ++ [0, 1] ++ [2] ++ [0, 1] ++ ascii "DPNo"
        ++ [0, 2] ++ [0x1a, 0x0a]⟩,
      ⟨ascii "ENMa", [255, 255, 255, 0]⟩]
    endPoints := [⟨2, [⟨ascii "DPNo", [8, 74]⟩, ⟨ascii "DPNo", [8, 63]⟩]⟩] }

/-- A report without any communication-settings entry and with one endpoint that
holds one `DPNo` entry of port 2122. -/
def noMacDeviceReport : Report :=
  { frameHeader := [149, 0, 0, 0, 0, 0, 0, 0, 0, 0, 0, 0, 0, 1, 0, 0]
    deviceInfoVersion := 1
    cidName := []
    cidVersion := [0, 0, 0, 0, 0, 0, 0, 0, 0, 0, 0, 0, 0, 0]
    deviceName := []
    appName := []
    projName := []
    serialNumber := []
    typeCode := []
    firmwareVersion := []
    orderNumber := []
    flags := 0
    aux := []
    scanIfs := []
    comSettings := []
    endPoints := [⟨2, [⟨ascii "DPNo", [8, 74]⟩]⟩] }

/-- A target MAC text whose first group is not hexadecimal. -/
def malformedMac : CppString :=
  ascii "zz:11:22:33:44:55"

/-- The 121 bytes of the reference encoding of `nestedEntryReport`. -/
def nestedEntryBytes : ByteBuffer :=
  [149, 0, 0, 0, 0, 0, 0, 0, 0, 0, 0, 0, 0, 1, 0, 0, 0, 1, 0, 0, 0, 0, 0, 0, 0, 0, 0, 0, 0, 0,
   0, 0, 0, 0, 0, 0, 0, 0, 0, 0, 0, 0, 0, 0, 0, 0, 0, 0, 0, 0, 0, 0, 0, 0, 2, 69, 73, 80, 97,
   0, 29, 10, 0, 0, 1, 69, 77, 65, 67, 0, 6, 222, 173, 190, 239, 0, 1, 0, 1, 2, 0, 1, 68, 80,
   78, 111, 0, 2, 26, 10, 69, 78, 77, 97, 0, 4, 255, 255, 255, 0, 0, 1, 2, 0, 2, 68, 80, 78,
   111, 0, 2, 8, 74, 68, 80, 78, 111, 0, 2, 8, 63]

/-- The run of `assign` with a settle time of 200 ms that receives a 1-byte
datagram and then the confirmation. -/
def settleRun : AssignRun :=
  { returned := true,
    events := [.write (assignPacket sampleMacBytes 1
        [192, 168, 1, 10, 255, 255, 255, 0, 0, 0, 0, 0, 0]),
      .read [1], .read confirmationReply, .sleep 200] }

/-! ## Reasoning about the decoder monad -/

theorem sat_pure {α : Type} (a : α) (Q : α → Prop) (R : Stop → Prop) :
    Sat (pure a) Q R ↔ Q a := Iff.rfl

theorem sat_throw {α : Type} (e : Stop) (Q : α → Prop) (R : Stop → Prop) :
    Sat (throw e : Except Stop α) Q R ↔ R e := Iff.rfl

theorem sat_bind {α β : Type} (x : Except Stop α) (f : α → Except Stop β)
    (Q : β → Prop) (R : Stop → Prop) :
    Sat (x >>= f) Q R ↔ Sat x (fun a => Sat (f a) Q R) R := by
  cases x <;> rfl

theorem sat_ite {α : Type} (c : Prop) [Decidable c] (x y : Except Stop α)
    (Q : α → Prop) (R : Stop → Prop) :
    Sat (if c then x else y) Q R ↔ (c → Sat x Q R) ∧ (¬ c → Sat y Q R) := by
  split <;> simp_all

theorem Sat.mono {α : Type} {x : Except Stop α} {Q Q2 : α → Prop} {R R2 : Stop → Prop}
    (h : Sat x Q R) (hQ : ∀ a, Q a → Q2 a) (hR : ∀ e, R e → R2 e) : Sat x Q2 R2 := by
  cases x with
  | ok a => exact hQ a h
  | error e => exact hR e h

theorem Sat.bind {α β : Type} {x : Except Stop α} {f : α → Except Stop β}
    {P : α → Prop} {Q : β → Prop} {R : Stop → Prop}
    (hx : Sat x P R) (hf : ∀ a, P a → Sat (f a) Q R) : Sat (x >>= f) Q R :=
  (sat_bind x f Q R).mpr (hx.mono hf (fun _ h => h))

theorem sat_iff {α : Type} (x : Except Stop α) (Q : α → Prop) (R : Stop → Prop) :
    Sat x Q R ↔ (∀ a, x = .ok a → Q a) ∧ (∀ e, x = .error e → R e) := by
  cases x <;> simp [Sat]

theorem sat_readBytes (b : ByteBuffer) (o n : Nat) (Q : List Byte → Prop) (R : Stop → Prop) :
    Sat (readBytes b o n) Q R ↔
      ((n = 0 ∨ o + n ≤ b.length) → Q ((b.drop o).take n)) ∧
      (n ≠ 0 → b.length < o + n → R (.fault (.readPastEnd o n))) := by
  unfold readBytes
  by_cases h0 : n = 0
  · subst h0; simp [Sat]
  · by_cases h1 : o + n ≤ b.length
    · simp [Sat, h0, h1]
    · simp [Sat, h0, h1]; omega

theorem sat_readUnalignBigEndian (b : ByteBuffer) (o n : Nat) (Q : Nat → Prop)
    (R : Stop → Prop) :
    Sat (readUnalignBigEndian b o n) Q R ↔
      ((n = 0 ∨ o + n ≤ b.length) → Q (beValue ((b.drop o).take n))) ∧
      (n ≠ 0 → b.length < o + n → R (.fault (.readPastEnd o n))) := by
  unfold readUnalignBigEndian
  rw [sat_bind, sat_readBytes]
  simp only [sat_pure]

theorem readMac_error (b : ByteBuffer) (o : Nat) (e : Stop) (h : readMac b o = .error e) :
    e = .fault (.readPastEnd o 6) := by
  unfold readMac readBytes at h
  by_cases hl : o + 6 ≤ b.length
  · simp only [OfNat.ofNat_ne_zero, ↓reduceIte, hl, bind, Except.bind] at h
    split at h
    · simp [pure, Except.pure] at h
    · simpa [throw, throwThe, MonadExceptOf.throw, eq_comm] using h
  · simpa [hl, bind, Except.bind, eq_comm] using h

theorem sat_readMac (b : ByteBuffer) (o : Nat) (Q : MacAddress → Prop) (R : Stop → Prop) :
    Sat (readMac b o) Q R ↔
      (∀ m, readMac b o = .ok m → Q m) ∧
      (∀ e, readMac b o = .error e → R (.fault (.readPastEnd o 6))) := by
  rw [sat_iff]
  constructor
  · rintro ⟨h1, h2⟩
    refine ⟨h1, fun e he => ?_⟩
    have := readMac_error b o e he
    subst this
    exact h2 _ he
  · rintro ⟨h1, h2⟩
    refine ⟨h1, fun e he => ?_⟩
    have := readMac_error b o e he
    subst this
    exact h2 _ he

/-- The loop rule: an invariant of the body is an invariant of the loop. -/
theorem sat_loopN {σ : Type} (body : σ → Except Stop σ) (I : σ → Prop) (R : Stop → Prop)
    (hbody : ∀ s, I s → Sat (body s) I R) :
    ∀ (n : Nat) (s : σ), I s → Sat (loopN body n s) I R
  | 0, _, hs => hs
  | n + 1, s, hs => by
    rw [loopN]
    exact (hbody s hs).bind (fun a ha => sat_loopN body I R hbody n a ha)

theorem loopN_succ_last {σ : Type} (body : σ → Except Stop σ) :
    ∀ (n : Nat) (s : σ), loopN body (n + 1) s = loopN body n s >>= body
  | 0, s => by
    simp only [loopN, bind, Except.bind, pure, Except.pure]
    cases body s <;> rfl
  | n + 1, s => by
    rw [loopN]
    conv_rhs => rw [loopN]
    cases body s with
    | error e => rfl
    | ok a => exact loopN_succ_last body n a

theorem retInvalid_ret (d : DeviceInfo) :
    RetInvalid (.ret d) ↔ d.macAddress = ascii "invalid" := by
  simp [RetInvalid]

theorem retInvalid_fault (f : Fault) : RetInvalid (.fault f) ↔ True := by
  simp [RetInvalid]

/-! ## What the decoder leaves untouched -/

theorem parseHeader_keeps (b : ByteBuffer) :
    Sat (parseHeader b) (fun r => Keeps [] r.1) RetInvalid := by
  unfold parseHeader
  simp only [sat_bind, sat_ite, sat_pure, sat_throw, sat_readBytes, sat_readUnalignBigEndian,
    retInvalid_ret, retInvalid_fault, Keeps]
  simp

theorem auxBody_keeps (b : ByteBuffer) (m : CppString) (s : ParseState) (h : Keeps m s) :
    Sat (auxBody b s) (Keeps m) RetInvalid := by
  obtain ⟨h1, h2⟩ := h
  unfold auxBody
  simp only [sat_bind, sat_ite, sat_pure, sat_throw, sat_readBytes, sat_readUnalignBigEndian,
    retInvalid_ret, retInvalid_fault, Keeps]
  simp [h1, h2]

theorem scanIfBody_keeps (b : ByteBuffer) (m : CppString) (s : ParseState) (h : Keeps m s) :
    Sat (scanIfBody b s) (Keeps m) RetInvalid := by
  obtain ⟨h1, h2⟩ := h
  unfold scanIfBody
  simp only [sat_bind, sat_ite, sat_pure, sat_throw, sat_readBytes, sat_readUnalignBigEndian,
    retInvalid_ret, retInvalid_fault, Keeps]
  simp [h1, h2]

theorem arrayCount_keeps (b : ByteBuffer) (m : CppString) (s : ParseState) (h : Keeps m s) :
    Sat (arrayCount b s) (fun r => Keeps m r.1) RetInvalid := by
  obtain ⟨h1, h2⟩ := h
  unfold arrayCount
  simp only [sat_bind, sat_ite, sat_pure, sat_throw, sat_readBytes, sat_readUnalignBigEndian,
    retInvalid_ret, retInvalid_fault, Keeps]
  simp [h1, h2]

theorem endPointEntryBody_keeps (b : ByteBuffer) (m : CppString) (s : ParseState)
    (h : Keeps m s) : Sat (endPointEntryBody b s) (Keeps m) RetInvalid := by
  obtain ⟨h1, h2⟩ := h
  unfold endPointEntryBody
  simp only [sat_bind, sat_ite, sat_pure, sat_throw, sat_readBytes, sat_readUnalignBigEndian,
    retInvalid_ret, retInvalid_fault, Keeps]
  simp [h1, h2]

theorem endPointBody_keeps (b : ByteBuffer) (m : CppString) (s : ParseState)
    (h : Keeps m s) : Sat (endPointBody b s) (Keeps m) RetInvalid := by
  obtain ⟨h1, h2⟩ := h
  unfold endPointBody
  simp only [sat_bind, sat_ite, sat_pure, sat_throw, sat_readBytes, sat_readUnalignBigEndian,
    retInvalid_ret, retInvalid_fault]
  refine ⟨fun _ => h1, fun _ => ⟨fun _ => h1, fun _ => ⟨fun _ => ?_, fun _ _ => trivial⟩⟩⟩
  exact sat_loopN _ (Keeps m) RetInvalid (endPointEntryBody_keeps b m) _ _ ⟨h1, h2⟩

/-- What one completed pass over a communication-settings entry does to
`macAddr`, and that it keeps the sentinel. -/
theorem comSettingsBody_spec (b : ByteBuffer) (s : ParseState)
    (h : s.deviceInfo.macAddress = ascii "invalid") :
    Sat (comSettingsBody b s)
      (fun s1 => s1.deviceInfo.macAddress = ascii "invalid" ∧
        readBytes b s.offset 4 = .ok ((b.drop s.offset).take 4) ∧
        (((b.drop s.offset).take 4 = ascii "EMAC" ∧
            ∃ m, readMac b (s.offset + 6) = .ok m ∧ s1.macAddr = convertMacToString m) ∨
          ((b.drop s.offset).take 4 ≠ ascii "EMAC" ∧ s1.macAddr = s.macAddr)))
      RetInvalid := by
  unfold comSettingsBody
  simp only [sat_bind, sat_ite, sat_pure, sat_throw, sat_readBytes, sat_readUnalignBigEndian,
    sat_readMac, retInvalid_ret, retInvalid_fault]
  have hrb : s.offset + 4 ≤ b.length →
      readBytes b s.offset 4 = .ok ((b.drop s.offset).take 4) := by
    intro hle
    simp [readBytes, hle]
  have h6 : s.offset + 4 + 2 = s.offset + 6 := by omega
  simp only [h6, h, OfNat.ofNat_ne_zero, false_or, true_and, and_true, implies_true, ne_eq,
    not_false_eq_true, one_ne_zero]
  intro _ hle
  simp only [hrb hle, true_and]
  intro _ _ _
  refine ⟨fun hk => ?_, fun hk => ?_⟩
  · intro m hm
    exact Or.inl ⟨hk, m, hm, rfl⟩
  · simp [hk]

theorem Sat.of_ok {α : Type} {x : Except Stop α} {Q : α → Prop} {R : Stop → Prop}
    (h : Sat x Q R) {a : α} (hx : x = .ok a) : Q a := by
  subst hx; exact h

theorem Sat.of_error {α : Type} {x : Except Stop α} {Q : α → Prop} {R : Stop → Prop}
    (h : Sat x Q R) {e : Stop} (hx : x = .error e) : R e := by
  subst hx; exact h

theorem parseToComSettings_keeps (b : ByteBuffer) :
    Sat (parseToComSettings b) (fun r => Keeps [] r.1) RetInvalid := by
  unfold parseToComSettings
  refine (parseHeader_keeps b).bind (fun r0 h0 => ?_)
  refine (sat_loopN _ (Keeps []) RetInvalid (auxBody_keeps b []) _ _ h0).bind (fun s1 h1 => ?_)
  refine (arrayCount_keeps b [] s1 h1).bind (fun r2 h2 => ?_)
  refine (sat_loopN _ (Keeps []) RetInvalid (scanIfBody_keeps b []) _ _ h2).bind
    (fun s3 h3 => ?_)
  exact arrayCount_keeps b [] s3 h3

/-! ## The scan loop -/

/-- One pass of the receive loop either appends the accepted `DeviceInfo`
(when its address is new) or, for a `0x95` reply of this session, runs into
the undefined behaviour of the binary decoder. -/
theorem scanStep_eq (readXml : CppString → Option PTree) (c : Nat) (st : ScanState)
    (buf : ByteBuffer) :
    (scanStep readXml c st buf
        = .ok (match accepted readXml c buf with
               | some dI => insertDevice st dI
               | none => st)) ∨
    (∃ f, scanStep readXml c st buf = .error f ∧ 17 ≤ buf.length ∧
        buf.head? = some kRplNetscan ∧ telegramIdOf buf = c ∧
        parseAutoIPBinary buf = .error f) := by
  by_cases hlen : buf.length > 16
  · have h17 : 17 ≤ buf.length := hlen
    by_cases h95 : buf.head? = some 0x95
    · by_cases hid : beValue ((buf.drop 10).take 4) = c
      · cases hp : parseAutoIPBinary buf with
        | error f =>
          right
          refine ⟨f, ?_, h17, h95, hid, rfl⟩
          simp [scanStep, hlen, kRplNetscan, h95, hid, hp]
        | ok dI =>
          left
          by_cases hm : dI.macAddress = ascii "invalid" <;>
            simp [scanStep, accepted, telegramIdOf, hlen, h17, kRplNetscan, h95, hid, hp, hm]
      · left
        simp [scanStep, accepted, telegramIdOf, hlen, h17, kRplNetscan, h95, hid]
    · left
      have h95b : ¬ (buf.head? = some kRplNetscan) := h95
      by_cases h90 : buf.head? = some 0x90
      · have h90b : buf.head? = some kRplScanColaB := h90
        by_cases hid : beValue ((buf.drop 10).take 4) = c
        · by_cases hl : 16 + beValue ((buf.drop 2).take 2) ≤ buf.length
          · simp only [scanStep, accepted, telegramIdOf, xmlPayloadOf, hlen, h17, h95, h95b, h90,
              h90b, hid, hl, if_true, if_false, ne_eq, not_true_eq_false, ge_iff_le, and_self]
            cases (readXml ((buf.drop 16).take (beValue ((buf.drop 2).take 2)))).bind
              parseAutoIPXml <;> rfl
          · simp [scanStep, accepted, telegramIdOf, hlen, h17, h95, h90, hid, hl, kRplNetscan, kRplScanColaB]
        · simp [scanStep, accepted, telegramIdOf, hlen, h17, h95, h90, hid, kRplNetscan, kRplScanColaB]
      · have h90b : ¬ (buf.head? = some kRplScanColaB) := h90
        simp [scanStep, accepted, telegramIdOf, hlen, h17, h95, h90, kRplNetscan, kRplScanColaB]
  · left
    have h17 : ¬ 17 ≤ buf.length := by omega
    simp [scanStep, accepted, hlen, h17]

theorem insertDevice_inv (st : ScanState) (dI : DeviceInfo) (h : ScanInv st) :
    ScanInv (insertDevice st dI) := by
  unfold insertDevice
  by_cases hm : dI.macAddress ∈ st.deviceMACs
  · simpa [hm] using h
  · obtain ⟨h1, h2⟩ := h
    simp only [hm, if_false]
    constructor
    · intro m
      simp only [List.mem_cons, List.map_append, List.map_cons, List.map_nil, List.mem_append,
        List.mem_singleton, h1 m]
      tauto
    · simp only [List.map_append, List.map_cons, List.map_nil]
      rw [List.nodup_append]
      refine ⟨h2, List.nodup_singleton _, ?_⟩
      intro a ha hb
      rw [List.mem_singleton] at hb
      subst hb
      exact hm ((h1 _).mpr ha)

theorem scanStep_inv (readXml : CppString → Option PTree) (c : Nat) (st st1 : ScanState)
    (buf : ByteBuffer) (h : ScanInv st) (hs : scanStep readXml c st buf = .ok st1) :
    ScanInv st1 := by
  rcases scanStep_eq readXml c st buf with heq | ⟨f, hf, _⟩
  · rw [heq] at hs
    injection hs with hs
    subst hs
    cases accepted readXml c buf with
    | none => exact h
    | some dI => exact insertDevice_inv st dI h
  · rw [hf] at hs
    cases hs

theorem scanLoop_inv (readXml : CppString → Option PTree) (c : Nat) :
    ∀ (received : List ByteBuffer) (st st1 : ScanState), ScanInv st →
      scanLoop readXml c st received = .ok st1 → ScanInv st1
  | [], st, st1, h, hs => by
    simp only [scanLoop] at hs
    injection hs with hs
    exact hs ▸ h
  | buf :: rest, st, st1, h, hs => by
    simp only [scanLoop] at hs
    cases hb : scanStep readXml c st buf with
    | error f => rw [hb] at hs; cases hs
    | ok s1 =>
      rw [hb] at hs
      exact scanLoop_inv readXml c rest s1 st1 (scanStep_inv readXml c st s1 buf h hb) hs

/-- The receive loop, started in any state, appends the first occurrences of
the accepted addresses that the state has not seen, or stops at a `0x95`
reply of this session on which the binary decoder has no defined result. -/
theorem scanLoop_eq (readXml : CppString → Option PTree) (c : Nat) :
    ∀ (received : List ByteBuffer) (st : ScanState),
      (∃ st1, scanLoop readXml c st received = .ok st1 ∧
        st1.deviceList = st.deviceList ++
          (firstOccurrences (received.filterMap (accepted readXml c))).filter
            (fun d => decide (d.macAddress ∉ st.deviceMACs))) ∨
      (∃ f buf, buf ∈ received ∧ 17 ≤ buf.length ∧ buf.head? = some kRplNetscan ∧
        telegramIdOf buf = c ∧ parseAutoIPBinary buf = .error f ∧
        scanLoop readXml c st received = .error f)
  | [], st => by
    left
    exact ⟨st, rfl, by simp [firstOccurrences]⟩
  | buf :: rest, st => by
    rcases scanStep_eq readXml c st buf with heq | ⟨f, hf, h17, h95, hid, hp⟩
    · rcases scanLoop_eq readXml c rest
          (match accepted readXml c buf with
           | some dI => insertDevice st dI
           | none => st) with ⟨st1, hl, hd⟩ | ⟨f, b2, hb2, h17, h95, hid, hp, hl⟩
      · left
        refine ⟨st1, by simp only [scanLoop, heq, hl], ?_⟩
        rw [hd]
        cases ha : accepted readXml c buf with
        | none => simp [List.filterMap_cons, ha]
        | some dI =>
          simp only [List.filterMap_cons, ha, firstOccurrences, insertDevice]
          by_cases hm : dI.macAddress ∈ st.deviceMACs
          · simp only [hm, if_true, List.filter_cons, not_true_eq_false, decide_False,
              Bool.false_eq_true, if_false, List.filter_filter]
            congr 1
            apply List.filter_congr
            intro e _
            by_cases he : e.macAddress = dI.macAddress
            · simp [he, hm]
            · simp [he]
          · simp only [hm, if_false, List.filter_cons, not_false_eq_true, decide_True, if_true,
              List.filter_filter, List.append_assoc, List.singleton_append]
            congr 2
            apply List.filter_congr
            intro e _
            by_cases he : e.macAddress = dI.macAddress
            · simp [he]
            · simp [he]
      · right
        exact ⟨f, b2, List.mem_cons_of_mem _ hb2, h17, h95, hid, hp,
          by simp only [scanLoop, heq, hl]⟩
    · right
      exact ⟨f, buf, List.mem_cons_self _ _, h17, h95, hid, hp, by simp only [scanLoop, hf]⟩

theorem mem_firstOccurrences : ∀ (l : List DeviceInfo) (d : DeviceInfo),
    d ∈ firstOccurrences l → d ∈ l
  | [], _, h => by simp [firstOccurrences] at h
  | x :: rest, d, h => by
    simp only [firstOccurrences, List.mem_cons, List.mem_filter] at h
    rcases h with h | ⟨h, _⟩
    · exact h ▸ List.mem_cons_self _ _
    · exact List.mem_cons_of_mem _ (mem_firstOccurrences rest d h)

/-- Every entry of the reference result is the decode of an accepted datagram. -/
theorem mem_scanReference (readXml : CppString → Option PTree) (c : Nat)
    (received : List ByteBuffer) (d : DeviceInfo) (h : d ∈ scanReference readXml c received) :
    ∃ buf, buf ∈ received ∧ accepted readXml c buf = some d := by
  have := mem_firstOccurrences _ d h
  simpa [List.mem_filterMap] using this

/-! ## The XML decoder keeps the address of the root element -/

theorem osat_bind {α β : Type} (x : Option α) (f : α → Option β) (Q : β → Prop) :
    OSat (x >>= f) Q ↔ OSat x (fun a => OSat (f a) Q) := by
  cases x <;> simp [OSat, bind]

theorem osat_pure {α : Type} (a : α) (Q : α → Prop) : OSat (pure a) Q ↔ Q a := by
  simp [OSat, pure]

theorem osat_ite {α : Type} (c : Prop) [Decidable c] (x y : Option α) (Q : α → Prop) :
    OSat (if c then x else y) Q ↔ (c → OSat x Q) ∧ (¬ c → OSat y Q) := by
  split <;> simp_all

theorem xmlItem_macAddress (d : DeviceInfo) (item : PTree) :
    OSat (xmlItem d item) (fun d1 => d1.macAddress = d.macAddress) := by
  unfold xmlItem
  simp only [osat_bind, osat_ite, osat_pure]
  intro key _ value _
  simp [OSat]

theorem xmlItems_macAddress : ∀ (items : List (CppString × PTree)) (d d1 : DeviceInfo),
    xmlItems d items = some d1 → d1.macAddress = d.macAddress
  | [], d, d1, h => by
    simp only [xmlItems, Option.some.injEq] at h
    rw [h]
  | (first, second) :: rest, d, d1, h => by
    simp only [xmlItems] at h
    by_cases hf : first = ascii "<xmlattr>"
    · simp only [hf, ne_eq, not_true_eq_false, if_false] at h
      exact xmlItems_macAddress rest d d1 h
    · simp only [ne_eq, hf, not_false_eq_true, if_true] at h
      cases hi : xmlItem d second with
      | none => rw [hi] at h; cases h
      | some d2 =>
        rw [hi] at h
        rw [xmlItems_macAddress rest d2 d1 h]
        exact xmlItem_macAddress d second d2 hi

/-- The `macAddress` that `parseAutoIPXml` returns is the `MACAddr` attribute
of the root element. -/
theorem parseAutoIPXml_macAddress (tree : PTree) (d : DeviceInfo)
    (h : parseAutoIPXml tree = some d) :
    tree.get [ascii "NetScanResult", ascii "<xmlattr>", ascii "MACAddr"]
      = some d.macAddress := by
  unfold parseAutoIPXml at h
  unfold PTree.get
  cases hm : tree.get_child [ascii "NetScanResult", ascii "<xmlattr>", ascii "MACAddr"] with
  | none => rw [hm] at h; cases h
  | some macNode =>
    rw [hm] at h
    cases hr : tree.get_child [ascii "NetScanResult"] with
    | none => rw [hr] at h; cases h
    | some result =>
      rw [hr] at h
      have := xmlItems_macAddress _ _ _ h
      simp only [Option.map_some', this]

/-! ## Byte order -/

theorem beValue_writeUnalignBigEndian32 (v : Nat) :
    beValue (writeUnalignBigEndian32 v) = v % 2 ^ 32 := by
  simp only [beValue, writeUnalignBigEndian32, List.foldl_cons, List.foldl_nil, Fin.ofNat,
    Fin.val_mk]
  omega

theorem bswap32_bswap32 (x : Nat) (h : x < 2 ^ 32) : bswap32 (bswap32 x) = x := by
  have key : ∀ a b c d : Nat, a < 256 → b < 256 → c < 256 → d < 256 →
      bswap32 (a * 2 ^ 24 + b * 2 ^ 16 + c * 2 ^ 8 + d) = d * 2 ^ 24 + c * 2 ^ 16 + b * 2 ^ 8 + a := by
    intro a b c d ha hb hc hd
    unfold bswap32
    omega
  have hx : x = x / 2 ^ 24 % 256 * 2 ^ 24 + x / 2 ^ 16 % 256 * 2 ^ 16 + x / 2 ^ 8 % 256 * 2 ^ 8
      + x % 256 := by omega
  have h1 : bswap32 x = x % 256 * 2 ^ 24 + x / 2 ^ 8 % 256 * 2 ^ 16 + x / 2 ^ 16 % 256 * 2 ^ 8
      + x / 2 ^ 24 % 256 := rfl
  rw [h1, key _ _ _ _ (Nat.mod_lt _ (by decide)) (Nat.mod_lt _ (by decide))
    (Nat.mod_lt _ (by decide)) (Nat.mod_lt _ (by decide))]
  exact hx.symm

theorem ntohl_htonl (le : Bool) (x : Nat) (h : x < 2 ^ 32) : ntohl le (htonl le x) = x := by
  cases le
  · rfl
  · simp only [ntohl, htonl, if_true]
    exact bswap32_bswap32 x h

/-- The two split shifts of the constructor, for each prefix length. -/
theorem netmask_shift (p : Nat) (hp : p ≤ 32) :
    (((0xFFFFFFFF <<< ((32 - p) / 2)) % 2 ^ 32) <<< (32 - p - (32 - p) / 2)) % 2 ^ 32
      = 2 ^ 32 - 2 ^ (32 - p) := by
  interval_cases p <;> simp [Nat.shiftLeft_eq]

/-! ## The binary decoder on hostile input -/

/-- C1: the claim is that `parseAutoIPBinary` never reads a byte at an index at or
beyond the length of the buffer.  On the 61-byte reply `emacAtEndReport` every
length check passes (the `EMAC` entry declares the length 0, so `minSize` is 61),
and the decoder then copies six bytes from offset 61: a read past the end.  The
reply reaches the decoder through `scan` in a session with the telegram id 1. -/
theorem parseAutoIPBinary_reads_past_end :
    emacAtEndReport.length = 61 ∧
      parseAutoIPBinary emacAtEndReport = .error (.readPastEnd 61 6) ∧
      (scan readXmlSample true sampleLink 1 [emacAtEndReport]).deviceList
        = .error (.readPastEnd 61 6) :=
  ⟨rfl, rfl, rfl⟩

/-- C2: the claim is that every truncation of a buffer below its final minimum
size decodes to the sentinel.  `emacZeroLengthReport` passes every length check
with the final minimum size 74 and decodes without a fault, yet on its first 73
bytes the decoder reads the four key bytes at offset 72, past the end, before
any length check fails. -/
theorem truncated_report_reads_past_end :
    finalMinSize emacZeroLengthReport = some 74 ∧
      parseAutoIPBinary emacZeroLengthReport = .ok sampleInfo ∧
      parseAutoIPBinary (emacZeroLengthReport.take 73) = .error (.readPastEnd 72 4) :=
  ⟨rfl, rfl, rfl⟩

/-- C3: the claim is that a report without a `DPNo` entry is reported as a decode
failure.  `noPortReport` passes every length check (final minimum size 69, its
own length) with the endpoints count 0, and the decoder then evaluates
`ports[0]` on the empty vector.  The reply reaches the decoder through `scan`
in a session with the telegram id 1. -/
theorem parseAutoIPBinary_indexes_empty_ports :
    noPortReport.length = 69 ∧ finalMinSize noPortReport = some 69 ∧
      parseAutoIPBinary noPortReport = .error .emptyPortList ∧
      (scan readXmlSample true sampleLink 1 [noPortReport]).deviceList
        = .error .emptyPortList :=
  ⟨rfl, rfl, rfl, rfl⟩

set_option maxRecDepth 65536 in
/-- C4: the claim is that a `macAddress` other than the sentinel is the rendering
of the six value bytes of an `EMAC` entry of the report, and that a report
without such an entry is never returned as valid.  `noMacReport`, the encoding of
a report whose communication-settings array is empty, is returned with the empty
string as `macAddress`, which is not the sentinel and not the rendering of six
bytes, and `scan` lists it.  `nestedEntryBytes`, the encoding of a report whose
two communication-settings entries have the keys `EIPa` and `ENMa`, is returned
with the `macAddress` de:ad:be:ef:00:01, six bytes inside the value of the `EIPa`
entry. -/
theorem report_without_EMAC_returned_valid :
    noMacReport = referenceEncode noMacDeviceReport ∧
      noMacDeviceReport.comSettings = [] ∧
      parseAutoIPBinary noMacReport = .ok { sampleInfo with macAddress := [] } ∧
      ([] : CppString) ≠ ascii "invalid" ∧
      (∀ m, ([] : CppString) ≠ convertMacToString m) ∧
      (scan readXmlSample true sampleLink 1 [noMacReport]).deviceList
        = .ok [{ sampleInfo with macAddress := [] }] ∧
      nestedEntryBytes = referenceEncode nestedEntryReport ∧
      nestedEntryReport.comSettings.map (fun e => e.key) = [ascii "EIPa", ascii "ENMa"] ∧
      ∃ d, parseAutoIPBinary nestedEntryBytes = .ok d ∧
        d.macAddress = ascii "de:ad:be:ef:00:01" := by
  refine ⟨by decide, rfl, rfl, by decide, ?_, rfl, by decide, rfl, _, rfl, rfl⟩
  intro m hm
  have := congrArg List.length hm
  simp [convertMacToString, hexByte, ascii] at this

/-! ## The scan -/

theorem scan_deviceList_eq (readXml : CppString → Option PTree) (le : Bool) (link : NetLink)
    (t : Nat) (received : List ByteBuffer) :
    (scan readXml le link t received).deviceList
        = .ok (scanReference readXml (t % 2 ^ 32) received) ∨
    (∃ f buf, buf ∈ received ∧ 17 ≤ buf.length ∧ buf.head? = some kRplNetscan ∧
        telegramIdOf buf = t % 2 ^ 32 ∧ parseAutoIPBinary buf = .error f ∧
        (scan readXml le link t received).deviceList = .error f) := by
  rcases scanLoop_eq readXml (t % 2 ^ 32) received { deviceMACs := [], deviceList := [] } with
    ⟨st1, hl, hd⟩ | ⟨f, buf, hb, h17, h95, hid, hp, hl⟩
  · left
    simp only [scan, hl, Except.map]
    rw [hd]
    simp [scanReference]
  · right
    exact ⟨f, buf, hb, h17, h95, hid, hp, by simp only [scan, hl, Except.map]⟩

theorem scan_deviceList_ok (readXml : CppString → Option PTree) (le : Bool) (link : NetLink)
    (t : Nat) (received : List ByteBuffer) (l : List DeviceInfo)
    (h : (scan readXml le link t received).deviceList = .ok l) :
    l = scanReference readXml (t % 2 ^ 32) received := by
  rcases scan_deviceList_eq readXml le link t received with h1 | ⟨f, _, _, _, _, _, _, h2⟩
  · rw [h1] at h
    injection h with h
    exact h.symm
  · rw [h2] at h
    cases h

theorem accepted_some (readXml : CppString → Option PTree) (c : Nat) (buf : ByteBuffer)
    (d : DeviceInfo) (h : accepted readXml c buf = some d) :
    17 ≤ buf.length ∧ telegramIdOf buf = c ∧
      ((buf.head? = some kRplNetscan ∧ parseAutoIPBinary buf = .ok d ∧
          d.macAddress ≠ ascii "invalid") ∨
        (buf.head? = some kRplScanColaB ∧
          16 + beValue ((buf.drop 2).take 2) ≤ buf.length ∧
          (readXml (xmlPayloadOf buf)).bind parseAutoIPXml = some d)) := by
  unfold accepted at h
  by_cases hc : 17 ≤ buf.length ∧ telegramIdOf buf = c
  · simp only [hc, and_self, if_true] at h
    refine ⟨hc.1, hc.2, ?_⟩
    by_cases h95 : buf.head? = some 0x95
    · left
      simp only [h95, if_true] at h
      cases hp : parseAutoIPBinary buf with
      | error f => rw [hp] at h; cases h
      | ok d1 =>
        rw [hp] at h
        by_cases hm : d1.macAddress = ascii "invalid"
        · simp [hm] at h
        · simp only [hm, if_false, Option.some.injEq] at h
          subst h
          exact ⟨h95, rfl, hm⟩
    · right
      simp only [h95, if_false] at h
      by_cases h90 : buf.head? = some 0x90
      · simp only [h90, if_true] at h
        by_cases hl : 16 + beValue ((buf.drop 2).take 2) ≤ buf.length
        · simp only [hl, if_true] at h
          exact ⟨h90, hl, h⟩
        · simp [hl] at h
      · simp [h90] at h
  · simp [hc] at h

/-- C5, as stated, fails for XML replies: the `0x90` reply `invalidMacReply` carries
the document `<NetScanResult MACAddr="invalid"/>` and the telegram id of the
session, and `scan` returns a list whose one entry has the `macAddress`
`"invalid"`. -/
theorem scan_lists_xml_reply_with_invalid_mac :
    readXmlSample (xmlPayloadOf invalidMacReply) = some invalidMacTree ∧
      (scan readXmlSample true sampleLink 1 [invalidMacReply]).deviceList
        = .ok [invalidMacInfo] ∧
      invalidMacInfo.macAddress = ascii "invalid" :=
  ⟨rfl, rfl, rfl⟩

/-- C5 (amended): an entry of the list returned by `scan` whose `macAddress` is the
sentinel `"invalid"` is not the decode of any binary `0x95` reply; it stems from
an XML `0x90` reply whose root element carries the attribute `MACAddr` with the
text `"invalid"`. -/
theorem scan_invalid_mac_only_from_xml (readXml : CppString → Option PTree) (le : Bool)
    (link : NetLink) (t : Nat) (received : List ByteBuffer) (l : List DeviceInfo)
    (d : DeviceInfo) (h : (scan readXml le link t received).deviceList = .ok l)
    (hd : d ∈ l) (hm : d.macAddress = ascii "invalid") :
    (∀ buf, buf ∈ received → buf.head? = some kRplNetscan →
        accepted readXml (t % 2 ^ 32) buf ≠ some d) ∧
    (∃ buf tree, buf ∈ received ∧ buf.head? = some kRplScanColaB ∧
        readXml (xmlPayloadOf buf) = some tree ∧ parseAutoIPXml tree = some d ∧
        tree.get [ascii "NetScanResult", ascii "<xmlattr>", ascii "MACAddr"]
          = some (ascii "invalid")) := by
  have hl := scan_deviceList_ok readXml le link t received l h
  subst hl
  obtain ⟨buf, hbuf, hacc⟩ := mem_scanReference readXml _ received d hd
  constructor
  · intro b2 _ h95 hacc2
    obtain ⟨_, _, hcase⟩ := accepted_some readXml _ b2 d hacc2
    rcases hcase with ⟨_, _, hne⟩ | ⟨h90, _, _⟩
    · exact hne hm
    · rw [h95] at h90
      exact absurd h90 (by decide)
  · obtain ⟨_, _, hcase⟩ := accepted_some readXml _ buf d hacc
    rcases hcase with ⟨_, _, hne⟩ | ⟨h90, _, hx⟩
    · exact absurd hm hne
    · cases hr : readXml (xmlPayloadOf buf) with
      | none => rw [hr] at hx; cases hx
      | some tree =>
        rw [hr] at hx
        have hx2 : parseAutoIPXml tree = some d := hx
        exact ⟨buf, tree, hbuf, h90, hr, hx2, hm ▸ parseAutoIPXml_macAddress tree d hx2⟩

/-- The amended C5 applies to the scan that receives `invalidMacReply`. -/
theorem scan_invalid_mac_only_from_xml_witness :
    (scan readXmlSample true sampleLink 1 [invalidMacReply]).deviceList
        = .ok [invalidMacInfo] ∧
      invalidMacInfo ∈ [invalidMacInfo] ∧ invalidMacInfo.macAddress = ascii "invalid" ∧
      ((∀ buf, buf ∈ [invalidMacReply] → buf.head? = some kRplNetscan →
          accepted readXmlSample (1 % 2 ^ 32) buf ≠ some invalidMacInfo) ∧
        (∃ buf tree, buf ∈ [invalidMacReply] ∧ buf.head? = some kRplScanColaB ∧
          readXmlSample (xmlPayloadOf buf) = some tree ∧
          parseAutoIPXml tree = some invalidMacInfo ∧
          tree.get [ascii "NetScanResult", ascii "<xmlattr>", ascii "MACAddr"]
            = some (ascii "invalid"))) :=
  ⟨rfl, List.mem_singleton.mpr rfl, rfl,
    scan_invalid_mac_only_from_xml readXmlSample true sampleLink 1 [invalidMacReply]
      [invalidMacInfo] invalidMacInfo rfl (List.mem_singleton.mpr rfl) rfl⟩

/-- C6: after each processed datagram the set of seen MACs is the set of the
`macAddress` values of the list and the list holds no address twice; so the
list returned by `scan` has no two entries with the same `macAddress`. -/
theorem scan_no_duplicate_mac (readXml : CppString → Option PTree) (le : Bool)
    (link : NetLink) (t : Nat) (received : List ByteBuffer) (k : Nat) (st : ScanState)
    (h : scanLoop readXml (scan readXml le link t received).curtelegramID
          { deviceMACs := [], deviceList := [] } (received.take k) = .ok st) :
    (∀ m, m ∈ st.deviceMACs ↔ m ∈ st.deviceList.map (fun d => d.macAddress)) ∧
      (st.deviceList.map (fun d => d.macAddress)).Nodup ∧
      (received.length ≤ k →
        (scan readXml le link t received).deviceList = .ok st.deviceList) := by
  have hinit : ScanInv { deviceMACs := [], deviceList := [] } := by
    refine ⟨fun m => ?_, ?_⟩ <;> simp
  have hinv := scanLoop_inv readXml _ (received.take k) _ st hinit h
  refine ⟨hinv.1, hinv.2, fun hk => ?_⟩
  rw [List.take_of_length_le hk] at h
  simp only [scan] at h ⊢
  rw [h]
  rfl

/-- C6 applies to a scan that receives the same binary reply twice: after both
datagrams the list holds the device once. -/
theorem scan_no_duplicate_mac_witness :
    scanLoop readXmlSample (scan readXmlSample true sampleLink 1 [sampleReport, sampleReport]).curtelegramID
        { deviceMACs := [], deviceList := [] } ([sampleReport, sampleReport].take 2)
        = .ok { deviceMACs := [sampleInfo.macAddress], deviceList := [sampleInfo] } ∧
      ((∀ m, m ∈ [sampleInfo.macAddress] ↔ m ∈ [sampleInfo].map (fun d => d.macAddress)) ∧
        ([sampleInfo].map (fun d => d.macAddress)).Nodup ∧
        ([sampleReport, sampleReport].length ≤ 2 →
          (scan readXmlSample true sampleLink 1 [sampleReport, sampleReport]).deviceList
            = .ok [sampleInfo])) :=
  ⟨rfl, scan_no_duplicate_mac readXmlSample true sampleLink 1 [sampleReport, sampleReport] 2
    { deviceMACs := [sampleInfo.macAddress], deviceList := [sampleInfo] } rfl⟩

/-- C7: a datagram of at least 17 bytes with leading byte 0x95 or 0x90 whose
big-endian 32-bit value at bytes 10..13 differs from the correlation id leaves
the result list and the seen-MAC set unchanged; hence every entry of a returned
list is the decode of a received reply that carries the id of the session. -/
theorem scan_discards_foreign_id (readXml : CppString → Option PTree) (c : Nat)
    (st : ScanState) (buf : ByteBuffer) (h17 : 17 ≤ buf.length)
    (hlead : buf.head? = some 0x95 ∨ buf.head? = some 0x90)
    (hid : beValue ((buf.drop 10).take 4) ≠ c) :
    scanStep readXml c st buf = .ok st ∧
      ∀ (le : Bool) (link : NetLink) (t : Nat) (received : List ByteBuffer)
        (l : List DeviceInfo) (d : DeviceInfo),
        (scan readXml le link t received).deviceList = .ok l → d ∈ l →
        ∃ reply, reply ∈ received ∧ 17 ≤ reply.length ∧
          beValue ((reply.drop 10).take 4) = (scan readXml le link t received).curtelegramID ∧
          accepted readXml (scan readXml le link t received).curtelegramID reply = some d := by
  constructor
  · have hlen : buf.length > 16 := h17
    rcases hlead with h95 | h90
    · simp [scanStep, hlen, kRplNetscan, h95, hid]
    · simp [scanStep, hlen, kRplNetscan, kRplScanColaB, h90, hid]
  · intro le link t received l d hl hd
    have hl2 := scan_deviceList_ok readXml le link t received l hl
    subst hl2
    obtain ⟨reply, hr, hacc⟩ := mem_scanReference readXml _ received d hd
    obtain ⟨h1, h2, _⟩ := accepted_some readXml _ reply d hacc
    exact ⟨reply, hr, h1, h2, hacc⟩

/-- C7 applies to `sampleReport`, whose telegram id is 1, in a session with the
correlation id 7. -/
theorem scan_discards_foreign_id_witness :
    17 ≤ sampleReport.length ∧
      (sampleReport.head? = some 0x95 ∨ sampleReport.head? = some 0x90) ∧
      beValue ((sampleReport.drop 10).take 4) ≠ 7 ∧
      (scanStep readXmlSample 7 { deviceMACs := [], deviceList := [] } sampleReport
          = .ok { deviceMACs := [], deviceList := [] } ∧
        ∀ (le : Bool) (link : NetLink) (t : Nat) (received : List ByteBuffer)
          (l : List DeviceInfo) (d : DeviceInfo),
          (scan readXmlSample le link t received).deviceList = .ok l → d ∈ l →
          ∃ reply, reply ∈ received ∧ 17 ≤ reply.length ∧
            beValue ((reply.drop 10).take 4)
              = (scan readXmlSample le link t received).curtelegramID ∧
            accepted readXmlSample (scan readXmlSample le link t received).curtelegramID reply
              = some d) :=
  ⟨by decide, Or.inl rfl, by decide,
    scan_discards_foreign_id readXmlSample 7 { deviceMACs := [], deviceList := [] } sampleReport
      (by decide) (Or.inl rfl) (by decide)⟩

/-- C8: the list returned by `scan` is the reference list: the accepted datagrams
in arrival order (at least 17 bytes, known leading byte, matching correlation
id, successful decode), mapped to their `DeviceInfo`, first occurrence of each
`macAddress` only.  The one other outcome is that `scan` returns nothing defined,
because a `0x95` reply of the session sent the binary decoder into undefined
behaviour. -/
theorem scan_eq_scanReference (readXml : CppString → Option PTree) (le : Bool)
    (link : NetLink) (t : Nat) (received : List ByteBuffer) :
    (scan readXml le link t received).deviceList
        = .ok (scanReference readXml (scan readXml le link t received).curtelegramID received) ∨
    (∃ f buf, buf ∈ received ∧ 17 ≤ buf.length ∧ buf.head? = some kRplNetscan ∧
        telegramIdOf buf = (scan readXml le link t received).curtelegramID ∧
        parseAutoIPBinary buf = .error f ∧
        (scan readXml le link t received).deviceList = .error f) :=
  scan_deviceList_eq readXml le link t received

/-! ## Netmask and discovery frame -/

/-- C9: for every prefix length `p` in 0..32, whatever the local address,
`NetLink::networkMask()` returns the 32-bit value whose `p` most significant bits
are one and whose other bits are zero, `2 ^ 32 - 2 ^ (32 - p)`. -/
theorem networkMask_leading_ones (le openRx openSock : Bool) (localIp remoteIp : CppString)
    (p : Byte) (hp : p.val ≤ 32) :
    (NetLink.new le openRx openSock localIp p remoteIp).networkMask le
      = 2 ^ 32 - 2 ^ (32 - p.val) := by
  have hm : (NetLink.new le openRx openSock localIp p remoteIp).m_netmask
      = htonl le (2 ^ 32 - 2 ^ (32 - p.val)) := by
    have hnot : ¬ p.val > 32 := by omega
    unfold NetLink.new
    simp only [hnot, if_false]
    rw [netmask_shift p.val hp]
    split <;> rfl
  unfold NetLink.networkMask
  rw [hm]
  apply ntohl_htonl
  have : 0 < 2 ^ (32 - p.val) := Nat.pos_pow_of_pos _ (by decide)
  omega

/-- C9 applies to the prefix lengths 0, 24 and 32. -/
theorem networkMask_leading_ones_witness :
    ((24 : Byte).val ≤ 32 ∧
      (NetLink.new true true true (ascii "192.168.1.100") 24 BROADCAST_IP).networkMask true
        = 2 ^ 32 - 2 ^ (32 - (24 : Byte).val)) ∧
    (NetLink.new true true true (ascii "192.168.1.100") 24 BROADCAST_IP).networkMask true
        = 0xFFFFFF00 ∧
    (NetLink.new true true true (ascii "192.168.1.100") 0 BROADCAST_IP).networkMask true = 0 ∧
    (NetLink.new true true true (ascii "192.168.1.100") 32 BROADCAST_IP).networkMask true
        = 0xFFFFFFFF :=
  ⟨⟨by decide, networkMask_leading_ones true true true (ascii "192.168.1.100") BROADCAST_IP 24
      (by decide)⟩, by decide, by decide, by decide⟩

/-- C10: the discovery frame that `scan` hands to the link is exactly 24 bytes:
0x10, 0x00, 0x00 0x08, six 0xFF, the correlation id big-endian at [10:14], 0x01,
0x00, the local address big-endian at [16:20] and the netmask big-endian at
[20:24]; and the id the replies are compared with is the id in the frame. -/
theorem scan_discover_frame (readXml : CppString → Option PTree) (le : Bool) (link : NetLink)
    (t : Nat) (received : List ByteBuffer) :
    (scan readXml le link t received).written.length = 24 ∧
      (scan readXml le link t received).written.take 10
        = [0x10, 0x00, 0x00, 0x08, 0xFF, 0xFF, 0xFF, 0xFF, 0xFF, 0xFF] ∧
      beValue (((scan readXml le link t received).written.drop 10).take 4) = t % 2 ^ 32 ∧
      ((scan readXml le link t received).written.drop 14).take 2 = [0x01, 0x00] ∧
      beValue (((scan readXml le link t received).written.drop 16).take 4)
        = link.localAddr le % 2 ^ 32 ∧
      beValue (((scan readXml le link t received).written.drop 20).take 4)
        = link.networkMask le % 2 ^ 32 ∧
      (scan readXml le link t received).curtelegramID
        = beValue (((scan readXml le link t received).written.drop 10).take 4) ∧
      (scan readXml le link t received).deviceList
        = (scanLoop readXml (beValue (((scan readXml le link t received).written.drop 10).take 4))
            { deviceMACs := [], deviceList := [] } received).map (fun st => st.deviceList) := by
  have hid : beValue (((scan readXml le link t received).written.drop 10).take 4)
      = t % 2 ^ 32 := by
    have := beValue_writeUnalignBigEndian32 (t % 2 ^ 32)
    rw [Nat.mod_mod] at this
    simpa [scan, discoverPacket, writeUnalignBigEndian32] using this
  refine ⟨by simp [scan, discoverPacket, writeUnalignBigEndian32],
    by simp [scan, discoverPacket], hid, by simp [scan, discoverPacket, writeUnalignBigEndian32],
    ?_, ?_, ?_, ?_⟩
  · have := beValue_writeUnalignBigEndian32 (link.localAddr le)
    simpa [scan, discoverPacket, writeUnalignBigEndian32] using this
  · have := beValue_writeUnalignBigEndian32 (link.networkMask le)
    simpa [scan, discoverPacket, writeUnalignBigEndian32] using this
  · rw [hid]; rfl
  · rw [hid]; rfl

/-! ## The reconfiguration request -/

theorem beValue_pair_lt (x y : Byte) : beValue [x, y] < 65536 := by
  simp only [beValue, List.foldl_cons, List.foldl_nil]
  omega

theorem beValue_writeUnalignBigEndian16 (v : Nat) :
    beValue (writeUnalignBigEndian16 v) = v % 2 ^ 16 := by
  simp only [beValue, writeUnalignBigEndian16, List.foldl_cons, List.foldl_nil, Fin.ofNat,
    Fin.val_mk]
  omega

theorem assignLoop_returned (ms : Nat) : ∀ received : List ByteBuffer,
    ((assignLoop ms received).1 = true ↔
      ∃ d, d ∈ received ∧ 17 ≤ d.length ∧ d.head? = some 0x91)
  | [] => by simp [assignLoop]
  | buf :: rest => by
    have ih := assignLoop_returned ms rest
    by_cases hc : buf.length > 16 ∧ buf.head? = some kRplIpconfig
    · simp only [assignLoop, hc, and_self, if_true, true_iff]
      exact ⟨buf, List.mem_cons_self _ _, hc.1, hc.2⟩
    · simp only [assignLoop, hc, if_false, ih]
      constructor
      · rintro ⟨d, hd, h17, h91⟩
        exact ⟨d, List.mem_cons_of_mem _ hd, h17, h91⟩
      · rintro ⟨d, hd, h17, h91⟩
        rcases List.mem_cons.mp hd with heq | hmem
        · subst heq
          exact absurd ⟨h17, h91⟩ hc
        · exact ⟨d, hmem, h17, h91⟩

theorem assignLoop_events (ms : Nat) : ∀ received : List ByteBuffer,
    ((assignLoop ms received).1 = true →
      ∃ before confirmation,
        (assignLoop ms received).2
          = before.map AssignEvent.read ++ [.read confirmation, .sleep ms] ∧
        received.take (before.length + 1) = before ++ [confirmation] ∧
        17 ≤ confirmation.length ∧ confirmation.head? = some 0x91) ∧
    ((assignLoop ms received).1 = false →
      (assignLoop ms received).2 = received.map AssignEvent.read)
  | [] => by simp [assignLoop]
  | buf :: rest => by
    obtain ⟨ih1, ih2⟩ := assignLoop_events ms rest
    by_cases hc : buf.length > 16 ∧ buf.head? = some kRplIpconfig
    · simp only [assignLoop, hc, and_self, if_true, forall_true_left, Bool.true_eq_false,
        false_implies, and_true]
      exact ⟨[], buf, rfl, rfl, hc.1, hc.2⟩
    · simp only [assignLoop, hc, if_false]
      constructor
      · intro h
        obtain ⟨before, conf, hev, htake, h17, h91⟩ := ih1 h
        refine ⟨buf :: before, conf, ?_, ?_, h17, h91⟩
        · simp [hev]
        · simp [htake]
      · intro h
        simp [ih2 h]

theorem assign_ok (t : Nat) (received : List ByteBuffer) (destinationMac : CppString)
    (colaVer : ColaVersion) (ipAddr ipMask ipGateway : CppString) (dhcpEnable : Bool)
    (ms : Nat) (mac : MacAddress) (hmac : convertMacToStruct destinationMac = .ok mac) :
    assign t received destinationMac colaVer ipAddr ipMask ipGateway dhcpEnable ms
      = .ok { returned := (assignLoop ms received).1,
              events := .write (assignPacket mac (t % 2 ^ 32)
                  (assignPayload destinationMac colaVer ipAddr ipMask ipGateway dhcpEnable))
                :: (assignLoop ms received).2 } := by
  simp only [assign, hmac]

theorem sampleMac_converts : convertMacToStruct sampleMac = .ok sampleMacBytes := rfl

theorem longAddress_length : longAddress.length = 65536 := by
  unfold longAddress
  exact List.length_replicate _ _

theorem assignPacket_length_field_lt (mac : MacAddress) (c : Nat) (payload : ByteBuffer) :
    beValue (((assignPacket mac c payload).drop 2).take 2) < 65536 := by
  simp only [assignPacket, writeUnalignBigEndian16, List.cons_append, List.nil_append,
    List.drop_succ_cons, List.drop_zero, List.take_succ_cons, List.take_zero]
  exact beValue_pair_lt _ _

theorem assignPacket_drop_16 (mac : MacAddress) (c : Nat) (payload : ByteBuffer) :
    (assignPacket mac c payload).drop 16 = payload := by
  simp [assignPacket, writeUnalignBigEndian16, writeUnalignBigEndian32, MacAddress.toList]

theorem assignPayload_length_ge (destinationMac ipAddr ipMask ipGateway : CppString)
    (dhcpEnable : Bool) :
    ipAddr.length
      ≤ (assignPayload destinationMac .COLA_1 ipAddr ipMask ipGateway dhcpEnable).length := by
  simp only [assignPayload, if_true, List.length_append]
  omega

/-- C11, as stated, fails for a payload of 65536 bytes or more: with the address
text `longAddress` the XML payload is longer than 65535 bytes, and the two bytes
at [2:4] of the frame, which can only hold a value below 65536, do not state its
length. -/
theorem assign_length_field_wraps :
    ∃ packet events,
      assign 1 [] sampleMac .COLA_1 longAddress (ascii "255.255.255.0") (ascii "0.0.0.0") false
          5000 = .ok { returned := false, events := .write packet :: events } ∧
      packet.drop 16
        = assignPayload sampleMac .COLA_1 longAddress (ascii "255.255.255.0") (ascii "0.0.0.0")
            false ∧
      beValue ((packet.drop 2).take 2) ≠ (packet.drop 16).length := by
  refine ⟨assignPacket sampleMacBytes (1 % 2 ^ 32) (assignPayload sampleMac .COLA_1 longAddress
      (ascii "255.255.255.0") (ascii "0.0.0.0") false), [], ?_, assignPacket_drop_16 _ _ _, ?_⟩
  · exact assign_ok 1 [] sampleMac .COLA_1 longAddress _ _ false 5000 sampleMacBytes
      sampleMac_converts
  · have h1 := assignPacket_length_field_lt sampleMacBytes (1 % 2 ^ 32) (assignPayload sampleMac
      .COLA_1 longAddress (ascii "255.255.255.0") (ascii "0.0.0.0") false)
    have h2 := assignPayload_length_ge sampleMac longAddress (ascii "255.255.255.0")
      (ascii "0.0.0.0") false
    rw [longAddress_length] at h2
    rw [assignPacket_drop_16]
    omega

/-- C11 (amended): when the target MAC text converts to the six bytes `mac`, the
frame that `assign` sends is 0x11, 0x00, the payload length modulo 65536 as
big-endian 16-bit at [2:4] (the payload length itself when it is below 65536),
the six bytes of `mac` at [4:10], the correlation id big-endian at [10:14], 0x01,
0x00 and then exactly the payload, so its length is 16 plus the payload length. -/
theorem assign_frame_layout (t : Nat) (received : List ByteBuffer)
    (destinationMac : CppString) (colaVer : ColaVersion) (ipAddr ipMask ipGateway : CppString)
    (dhcpEnable : Bool) (ms : Nat) (mac : MacAddress)
    (hmac : convertMacToStruct destinationMac = .ok mac) :
    ∃ run packet events,
      assign t received destinationMac colaVer ipAddr ipMask ipGateway dhcpEnable ms = .ok run ∧
      run.events = .write packet :: events ∧
      packet.take 2 = [0x11, 0x00] ∧
      beValue ((packet.drop 2).take 2)
        = (assignPayload destinationMac colaVer ipAddr ipMask ipGateway dhcpEnable).length
            % 2 ^ 16 ∧
      ((assignPayload destinationMac colaVer ipAddr ipMask ipGateway dhcpEnable).length < 2 ^ 16 →
        beValue ((packet.drop 2).take 2)
          = (assignPayload destinationMac colaVer ipAddr ipMask ipGateway dhcpEnable).length) ∧
      (packet.drop 4).take 6 = [mac.b0, mac.b1, mac.b2, mac.b3, mac.b4, mac.b5] ∧
      beValue ((packet.drop 10).take 4) = t % 2 ^ 32 ∧
      (packet.drop 14).take 2 = [0x01, 0x00] ∧
      packet.drop 16 = assignPayload destinationMac colaVer ipAddr ipMask ipGateway dhcpEnable ∧
      packet.length
        = 16 + (assignPayload destinationMac colaVer ipAddr ipMask ipGateway dhcpEnable).length := by
  have hlen : beValue (((assignPacket mac (t % 2 ^ 32) (assignPayload destinationMac colaVer
      ipAddr ipMask ipGateway dhcpEnable)).drop 2).take 2)
      = (assignPayload destinationMac colaVer ipAddr ipMask ipGateway dhcpEnable).length
          % 2 ^ 16 := by
    have h := beValue_writeUnalignBigEndian16
      ((assignPayload destinationMac colaVer ipAddr ipMask ipGateway dhcpEnable).length % 2 ^ 16)
    rw [Nat.mod_mod] at h
    simpa [assignPacket, writeUnalignBigEndian16] using h
  have hid : beValue (((assignPacket mac (t % 2 ^ 32) (assignPayload destinationMac colaVer
      ipAddr ipMask ipGateway dhcpEnable)).drop 10).take 4) = t % 2 ^ 32 := by
    have h := beValue_writeUnalignBigEndian32 (t % 2 ^ 32)
    rw [Nat.mod_mod] at h
    simpa [assignPacket, writeUnalignBigEndian16, writeUnalignBigEndian32, MacAddress.toList]
      using h
  refine ⟨_, _, _, assign_ok t received destinationMac colaVer ipAddr ipMask ipGateway dhcpEnable
    ms mac hmac, rfl, by simp [assignPacket], hlen, fun hlt => ?_, ?_, hid, ?_, ?_, ?_⟩
  · rw [hlen, Nat.mod_eq_of_lt hlt]
  · simp [assignPacket, writeUnalignBigEndian16, MacAddress.toList]
  · simp [assignPacket, writeUnalignBigEndian16, writeUnalignBigEndian32, MacAddress.toList]
  · simp [assignPacket, writeUnalignBigEndian16, writeUnalignBigEndian32, MacAddress.toList]
  · simp [assignPacket, writeUnalignBigEndian16, writeUnalignBigEndian32, MacAddress.toList]
    omega

/-- The amended C11 applies to the request for `sampleMac` with the default
arguments of `assign`. -/
theorem assign_frame_layout_witness :
    convertMacToStruct sampleMac = .ok sampleMacBytes ∧
    ∃ run packet events,
      assign 1 [confirmationReply] sampleMac .COLA_2 (ascii "192.168.1.10")
          (ascii "255.255.255.0") (ascii "0.0.0.0") false 5000 = .ok run ∧
      run.events = .write packet :: events ∧
      packet.take 2 = [0x11, 0x00] ∧
      beValue ((packet.drop 2).take 2)
        = (assignPayload sampleMac .COLA_2 (ascii "192.168.1.10") (ascii "255.255.255.0")
            (ascii "0.0.0.0") false).length % 2 ^ 16 ∧
      ((assignPayload sampleMac .COLA_2 (ascii "192.168.1.10") (ascii "255.255.255.0")
            (ascii "0.0.0.0") false).length < 2 ^ 16 →
        beValue ((packet.drop 2).take 2)
          = (assignPayload sampleMac .COLA_2 (ascii "192.168.1.10") (ascii "255.255.255.0")
              (ascii "0.0.0.0") false).length) ∧
      (packet.drop 4).take 6
        = [sampleMacBytes.b0, sampleMacBytes.b1, sampleMacBytes.b2, sampleMacBytes.b3,
            sampleMacBytes.b4, sampleMacBytes.b5] ∧
      beValue ((packet.drop 10).take 4) = 1 % 2 ^ 32 ∧
      (packet.drop 14).take 2 = [0x01, 0x00] ∧
      packet.drop 16
        = assignPayload sampleMac .COLA_2 (ascii "192.168.1.10") (ascii "255.255.255.0")
            (ascii "0.0.0.0") false ∧
      packet.length
        = 16 + (assignPayload sampleMac .COLA_2 (ascii "192.168.1.10") (ascii "255.255.255.0")
            (ascii "0.0.0.0") false).length :=
  ⟨rfl, assign_frame_layout 1 [confirmationReply] sampleMac .COLA_2 (ascii "192.168.1.10")
    (ascii "255.255.255.0") (ascii "0.0.0.0") false 5000 sampleMacBytes rfl⟩

/-- When the target MAC text converts: once the request is sent, `assign` returns
true if and only if some received datagram has at least 17 bytes and the leading
byte 0x91, whatever its other bytes are; otherwise it returns false at the
timeout. -/
theorem assign_returns_true_iff (t : Nat) (received : List ByteBuffer)
    (destinationMac : CppString) (colaVer : ColaVersion) (ipAddr ipMask ipGateway : CppString)
    (dhcpEnable : Bool) (ms : Nat) (mac : MacAddress)
    (hmac : convertMacToStruct destinationMac = .ok mac) :
    ∃ run,
      assign t received destinationMac colaVer ipAddr ipMask ipGateway dhcpEnable ms = .ok run ∧
      (run.returned = true ↔ ∃ d, d ∈ received ∧ 17 ≤ d.length ∧ d.head? = some 0x91) ∧
      ((¬ ∃ d, d ∈ received ∧ 17 ≤ d.length ∧ d.head? = some 0x91) → run.returned = false) := by
  refine ⟨_, assign_ok t received destinationMac colaVer ipAddr ipMask ipGateway dhcpEnable ms
    mac hmac, assignLoop_returned ms received, fun hno => ?_⟩
  cases hr : (assignLoop ms received).1 with
  | false => rfl
  | true => exact absurd ((assignLoop_returned ms received).mp hr) hno

/-- A run that receives a 1-byte `0x91` datagram, then the confirmation, then
another datagram. -/
theorem assign_returns_true_iff_witness :
    convertMacToStruct sampleMac = .ok sampleMacBytes ∧
    ∃ run,
      assign 1 [[0x91], confirmationReply, [1]] sampleMac .COLA_2 (ascii "192.168.1.10")
          (ascii "255.255.255.0") (ascii "0.0.0.0") false 5000 = .ok run ∧
      (run.returned = true ↔
        ∃ d, d ∈ [[0x91], confirmationReply, [1]] ∧ 17 ≤ d.length ∧ d.head? = some 0x91) ∧
      ((¬ ∃ d, d ∈ [[0x91], confirmationReply, [1]] ∧ 17 ≤ d.length ∧ d.head? = some 0x91) →
        run.returned = false) :=
  ⟨rfl, assign_returns_true_iff 1 [[0x91], confirmationReply, [1]] sampleMac .COLA_2
    (ascii "192.168.1.10") (ascii "255.255.255.0") (ascii "0.0.0.0") false 5000 sampleMacBytes
    rfl⟩

set_option maxRecDepth 65536 in
/-- C14: the claim is that `assign` returns true when a confirmation arrives and
false otherwise.  For the target MAC text `zz:11:22:33:44:55` the call of
`convertMacToStruct` at line 596 ends in the exception of `std::stoi`, which
nothing catches: `assign` returns neither true, although a confirmation of 17
bytes is waiting, nor false, when none is. -/
theorem assign_throws_on_malformed_mac :
    convertMacToStruct malformedMac = .error .stoiException ∧
      (∃ d, d ∈ [confirmationReply] ∧ 17 ≤ d.length ∧ d.head? = some 0x91) ∧
      assign 1 [confirmationReply] malformedMac .COLA_2 (ascii "192.168.1.10")
        (ascii "255.255.255.0") (ascii "0.0.0.0") false 5000 = .error .stoiException ∧
      assign 1 [] malformedMac .COLA_2 (ascii "192.168.1.10") (ascii "255.255.255.0")
        (ascii "0.0.0.0") false 5000 = .error .stoiException ∧
      assign 1 [] malformedMac .COLA_1 (ascii "192.168.1.10") (ascii "255.255.255.0")
        (ascii "0.0.0.0") false 5000 = .error .stoiException :=
  ⟨rfl, ⟨confirmationReply, by decide, by decide, by decide⟩, rfl, rfl, rfl⟩

/-- What a run of `assign` that returns has done. -/
theorem assign_run (t : Nat) (received : List ByteBuffer) (destinationMac : CppString)
    (colaVer : ColaVersion) (ipAddr ipMask ipGateway : CppString) (dhcpEnable : Bool)
    (ms : Nat) (run : AssignRun)
    (hrun : assign t received destinationMac colaVer ipAddr ipMask ipGateway dhcpEnable ms
      = .ok run) :
    ∃ mac, convertMacToStruct destinationMac = .ok mac ∧
      run.returned = (assignLoop ms received).1 ∧
      run.events = .write (assignPacket mac (t % 2 ^ 32)
          (assignPayload destinationMac colaVer ipAddr ipMask ipGateway dhcpEnable))
        :: (assignLoop ms received).2 := by
  cases hmac : convertMacToStruct destinationMac with
  | error e => simp [assign, hmac] at hrun
  | ok mac =>
    rw [assign_ok t received destinationMac colaVer ipAddr ipMask ipGateway dhcpEnable ms mac
      hmac] at hrun
    cases hrun
    exact ⟨mac, rfl, rfl, rfl⟩

theorem assignLoop_no_earlier (ms : Nat) : ∀ received : List ByteBuffer,
    (assignLoop ms received).1 = true →
      ∃ before confirmation,
        (assignLoop ms received).2
          = before.map AssignEvent.read ++ [.read confirmation, .sleep ms] ∧
        received.take (before.length + 1) = before ++ [confirmation] ∧
        17 ≤ confirmation.length ∧ confirmation.head? = some 0x91 ∧
        ∀ d, d ∈ before → ¬ (17 ≤ d.length ∧ d.head? = some 0x91)
  | [] => by simp [assignLoop]
  | buf :: rest => by
    have ih := assignLoop_no_earlier ms rest
    by_cases hc : buf.length > 16 ∧ buf.head? = some kRplIpconfig
    · intro _
      refine ⟨[], buf, ?_, rfl, hc.1, hc.2, fun d hd => by cases hd⟩
      simp [assignLoop, hc]
    · intro h
      have h2 : (assignLoop ms rest).1 = true := by simpa [assignLoop, hc] using h
      obtain ⟨before, conf, hev, htake, h17, h91, hno⟩ := ih h2
      refine ⟨buf :: before, conf, ?_, ?_, h17, h91, ?_⟩
      · simp [assignLoop, hc, hev]
      · simp [htake]
      · intro d hd
        rcases List.mem_cons.mp hd with heq | hmem
        · subst heq; exact hc
        · exact hno d hmem

/-- C15: with the delay as an explicit effect, for every run of `assign` that
returns: if one of the received datagrams has at least 17 bytes and the leading
byte 0x91, the run returns true; a run that returns true has sent its request,
read the datagrams before the first such datagram and that datagram, the
confirmation, and then, as its last act, slept once for exactly
`reconfigurationTimeMs` milliseconds; a run that returns false has sent its
request and read every datagram, and has not slept. -/
theorem assign_settle_delay (t : Nat) (received : List ByteBuffer)
    (destinationMac : CppString) (colaVer : ColaVersion) (ipAddr ipMask ipGateway : CppString)
    (dhcpEnable : Bool) (ms : Nat) (run : AssignRun)
    (hrun : assign t received destinationMac colaVer ipAddr ipMask ipGateway dhcpEnable ms
      = .ok run) :
    ((∃ d, d ∈ received ∧ 17 ≤ d.length ∧ d.head? = some 0x91) → run.returned = true) ∧
      (run.returned = true →
        ∃ packet before confirmation,
          run.events
            = .write packet :: (before.map AssignEvent.read ++ [.read confirmation, .sleep ms]) ∧
          received.take (before.length + 1) = before ++ [confirmation] ∧
          17 ≤ confirmation.length ∧ confirmation.head? = some 0x91 ∧
          (∀ d, d ∈ before → ¬ (17 ≤ d.length ∧ d.head? = some 0x91))) ∧
      (run.returned = false →
        ∃ packet, run.events = .write packet :: received.map AssignEvent.read) := by
  obtain ⟨mac, _, hret, hev⟩ := assign_run t received destinationMac colaVer ipAddr ipMask
    ipGateway dhcpEnable ms run hrun
  refine ⟨fun h => ?_, fun h => ?_, fun h => ?_⟩
  · rw [hret]
    exact (assignLoop_returned ms received).mpr h
  · rw [hret] at h
    obtain ⟨before, conf, hl, htake, h17, h91, hno⟩ := assignLoop_no_earlier ms received h
    exact ⟨_, before, conf, by rw [hev, hl], htake, h17, h91, hno⟩
  · rw [hret] at h
    exact ⟨_, by rw [hev, (assignLoop_events ms received).2 h]⟩

set_option maxRecDepth 65536 in
/-- C15 applies to a run with a settle time of 200 ms that receives the
confirmation as its second datagram: it returns true, and its last two acts are
the read of the confirmation and the sleep of 200 ms. -/
theorem assign_settle_delay_witness :
    assign 1 [[1], confirmationReply, [2]] sampleMac .COLA_2 (ascii "192.168.1.10")
        (ascii "255.255.255.0") (ascii "0.0.0.0") false 200 = .ok settleRun ∧
    settleRun.returned = true ∧
    settleRun.events
      = [.write (assignPacket sampleMacBytes 1
            [192, 168, 1, 10, 255, 255, 255, 0, 0, 0, 0, 0, 0]),
          .read [1], .read confirmationReply, .sleep 200] ∧
    ((∃ d, d ∈ [[1], confirmationReply, [2]] ∧ 17 ≤ d.length ∧ d.head? = some 0x91) →
        settleRun.returned = true) ∧
      (settleRun.returned = true →
        ∃ packet before confirmation,
          settleRun.events
            = .write packet :: (before.map AssignEvent.read ++ [.read confirmation, .sleep 200]) ∧
          [[1], confirmationReply, [2]].take (before.length + 1) = before ++ [confirmation] ∧
          17 ≤ confirmation.length ∧ confirmation.head? = some 0x91 ∧
          (∀ d, d ∈ before → ¬ (17 ≤ d.length ∧ d.head? = some 0x91))) ∧
      (settleRun.returned = false →
        ∃ packet,
          settleRun.events
            = .write packet
              :: ([[1], confirmationReply, [2]] : List ByteBuffer).map AssignEvent.read) :=
  ⟨rfl, rfl, rfl, assign_settle_delay 1 [[1], confirmationReply, [2]] sampleMac .COLA_2
    (ascii "192.168.1.10") (ascii "255.255.255.0") (ascii "0.0.0.0") false 200 settleRun rfl⟩

/-! ## Dotted quads -/

theorem ascii_dot : ascii "." = [(46 : Byte)] := rfl

theorem digit_val (k : Nat) (hk : k < 10) : (Fin.ofNat (48 + k) : Byte).val = 48 + k := by
  simp only [Fin.ofNat, Fin.val_mk]
  omega

theorem isDigit_digit (k : Nat) (hk : k < 10) : isDigit (Fin.ofNat (48 + k) : Byte) = true := by
  simp only [isDigit, digit_val k hk, Bool.and_eq_true, decide_eq_true_eq]
  omega

theorem inetPtonLoop_digit_first (k : Nat) (hk : k < 10) (rest : List Byte) (octets : List Nat)
    (ho : octets.length < 4) :
    inetPtonLoop ((Fin.ofNat (48 + k) : Byte) :: rest) octets none
      = inetPtonLoop rest octets (some k) := by
  rw [inetPtonLoop]
  simp only [isDigit_digit k hk, if_true, digit_val k hk, Nat.add_sub_cancel_left]
  rw [if_neg (by omega)]

theorem inetPtonLoop_digit_next (k v : Nat) (hk : k < 10) (hv : v ≠ 0) (hle : v * 10 + k ≤ 255)
    (rest : List Byte) (octets : List Nat) :
    inetPtonLoop ((Fin.ofNat (48 + k) : Byte) :: rest) octets (some v)
      = inetPtonLoop rest octets (some (v * 10 + k)) := by
  rw [inetPtonLoop]
  simp only [isDigit_digit k hk, if_true, digit_val k hk, Nat.add_sub_cancel_left]
  rw [if_neg hv, if_neg (by omega)]

theorem inetPtonLoop_decOctet (n : Nat) (hn : n < 256) (rest : List Byte) (octets : List Nat)
    (ho : octets.length < 4) :
    inetPtonLoop (decOctet n ++ rest) octets none = inetPtonLoop rest octets (some n) := by
  unfold decOctet
  by_cases h10 : n < 10
  · simp only [h10, if_true, List.cons_append, List.nil_append]
    exact inetPtonLoop_digit_first n h10 rest octets ho
  · by_cases h100 : n < 100
    · simp only [h10, h100, if_true, if_false, List.cons_append, List.nil_append]
      rw [inetPtonLoop_digit_first (n / 10) (by omega) _ octets ho,
        inetPtonLoop_digit_next (n % 10) (n / 10) (by omega) (by omega) (by omega)]
      congr 2
      omega
    · simp only [h10, h100, if_false, List.cons_append, List.nil_append]
      rw [inetPtonLoop_digit_first (n / 100) (by omega) _ octets ho,
        inetPtonLoop_digit_next (n / 10 % 10) (n / 100) (by omega) (by omega) (by omega),
        inetPtonLoop_digit_next (n % 10) (n / 100 * 10 + n / 10 % 10) (by omega) (by omega)
          (by omega)]
      congr 2
      omega

theorem inetPtonLoop_dot (v : Nat) (rest : List Byte) (octets : List Nat)
    (ho : octets.length < 3) :
    inetPtonLoop ((46 : Byte) :: rest) octets (some v) = inetPtonLoop rest (octets ++ [v]) none := by
  rw [inetPtonLoop]
  have h1 : isDigit (46 : Byte) = false := rfl
  have h2 : ((46 : Byte).val = 46) := rfl
  simp only [h1, h2, Bool.false_eq_true, if_false, if_true]
  rw [if_neg (by omega)]

theorem decOctet_nonzero (n : Nat) (hn : n < 256) : ∀ c, c ∈ decOctet n → c.val ≠ 0 := by
  intro c hc
  unfold decOctet at hc
  by_cases h10 : n < 10
  · simp only [h10, if_true, List.mem_singleton] at hc
    rw [hc, digit_val n h10]; omega
  · by_cases h100 : n < 100
    · simp only [h10, h100, if_true, if_false, List.mem_cons, List.mem_singleton,
        List.not_mem_nil, or_false] at hc
      rcases hc with hc | hc <;> rw [hc, digit_val _ (by omega)] <;> omega
    · simp only [h10, h100, if_false, List.mem_cons, List.mem_singleton, List.not_mem_nil,
        or_false] at hc
      rcases hc with hc | hc | hc <;> rw [hc, digit_val _ (by omega)] <;> omega

theorem takeWhile_all {α : Type} (p : α → Bool) : ∀ l : List α, (∀ x, x ∈ l → p x = true) →
    l.takeWhile p = l
  | [], _ => rfl
  | x :: rest, h => by
    rw [List.takeWhile_cons, h x (List.mem_cons_self _ _)]
    simp only [if_true]
    rw [takeWhile_all p rest (fun y hy => h y (List.mem_cons_of_mem _ hy))]

/-- `string2addr` reads a dotted quad as the 32-bit value of its four octets,
first octet most significant. -/
theorem string2addr_dottedQuad (a b c d : Byte) :
    string2addr (dottedQuad a b c d)
      = a.val * 2 ^ 24 + b.val * 2 ^ 16 + c.val * 2 ^ 8 + d.val := by
  have hnz : ∀ x, x ∈ dottedQuad a b c d → (fun c : Byte => decide (c.val ≠ 0)) x = true := by
    intro x hx
    simp only [dottedQuad, ascii_dot, List.mem_append, List.mem_singleton] at hx
    simp only [ne_eq, decide_not, Bool.not_eq_true', decide_eq_false_iff_not]
    rcases hx with ((((((hx | hx) | hx) | hx) | hx) | hx) | hx)
    · exact decOctet_nonzero _ a.isLt x hx
    · rw [hx]; decide
    · exact decOctet_nonzero _ b.isLt x hx
    · rw [hx]; decide
    · exact decOctet_nonzero _ c.isLt x hx
    · rw [hx]; decide
    · exact decOctet_nonzero _ d.isLt x hx
  unfold string2addr
  rw [takeWhile_all _ _ hnz]
  simp only [dottedQuad, ascii_dot, List.append_assoc, List.singleton_append, List.cons_append,
    List.nil_append]
  rw [inetPtonLoop_decOctet _ a.isLt _ _ (by simp), inetPtonLoop_dot _ _ _ (by simp)]
  simp only [List.nil_append]
  rw [inetPtonLoop_decOctet _ b.isLt _ _ (by simp), inetPtonLoop_dot _ _ _ (by simp)]
  simp only [List.cons_append, List.nil_append]
  rw [inetPtonLoop_decOctet _ c.isLt _ _ (by simp), inetPtonLoop_dot _ _ _ (by simp)]
  simp only [List.cons_append, List.nil_append]
  have hd := inetPtonLoop_decOctet d.val d.isLt [] [a.val, b.val, c.val] (by simp)
  rw [List.append_nil] at hd
  rw [hd]
  simp [inetPtonLoop]
  omega

theorem writeUnalignBigEndian32_octets (a b c d : Byte) :
    writeUnalignBigEndian32 (a.val * 2 ^ 24 + b.val * 2 ^ 16 + c.val * 2 ^ 8 + d.val)
      = [a, b, c, d] := by
  have ha := a.isLt
  have hb := b.isLt
  have hc := c.isLt
  have hd := d.isLt
  simp only [writeUnalignBigEndian32, List.cons.injEq, and_true]
  refine ⟨?_, ?_, ?_, ?_⟩ <;> apply Fin.ext <;> simp only [Fin.ofNat, Fin.val_mk] <;> omega

/-- C12: for `COLA_2` and dotted-quad texts of ip, mask and gateway, the payload
that `assign` builds is exactly 13 bytes: the four octets of ip, of mask and of
gateway, each first octet first, then one byte that is 1 when DHCP is enabled
and 0 otherwise. -/
theorem assign_payload_cola2 (destinationMac : CppString) (i0 i1 i2 i3 m0 m1 m2 m3 g0 g1 g2 g3 : Byte)
    (dhcpEnable : Bool) :
    assignPayload destinationMac .COLA_2 (dottedQuad i0 i1 i2 i3) (dottedQuad m0 m1 m2 m3)
        (dottedQuad g0 g1 g2 g3) dhcpEnable
      = [i0, i1, i2, i3, m0, m1, m2, m3, g0, g1, g2, g3, if dhcpEnable then 1 else 0] ∧
    (assignPayload destinationMac .COLA_2 (dottedQuad i0 i1 i2 i3) (dottedQuad m0 m1 m2 m3)
        (dottedQuad g0 g1 g2 g3) dhcpEnable).length = 13 ∧
    dottedQuad 192 168 1 10 = ascii "192.168.1.10" := by
  have h : assignPayload destinationMac .COLA_2 (dottedQuad i0 i1 i2 i3) (dottedQuad m0 m1 m2 m3)
        (dottedQuad g0 g1 g2 g3) dhcpEnable
      = [i0, i1, i2, i3, m0, m1, m2, m3, g0, g1, g2, g3, if dhcpEnable then 1 else 0] := by
    rw [assignPayload, if_neg (by decide)]
    simp only [string2addr_dottedQuad, writeUnalignBigEndian32_octets,
      List.cons_append, List.nil_append]
  exact ⟨h, by rw [h]; rfl, rfl⟩

/-! ## The XML payload -/

theorem skipLiteral_append (lit rest : CppString) : skipLiteral lit (lit ++ rest) = some rest := by
  simp [skipLiteral]

theorem readAttValue_safe : ∀ (v rest : CppString), AttrSafe v →
    readAttValue (v ++ (34 : Byte) :: rest) = some (v, rest)
  | [], rest, _ => by
    have h34 : (34 : Byte).val = 34 := rfl
    simp only [List.nil_append, readAttValue, h34, if_true]
  | c :: v, rest, h => by
    obtain ⟨h32, h126, h34, h60, h38⟩ := h c (List.mem_cons_self _ _)
    have ih := readAttValue_safe v rest (fun x hx => h x (List.mem_cons_of_mem _ hx))
    have k1 : ¬ (c.val = 60 ∨ c.val = 38) := by omega
    have k2 : ¬ (c.val < 32 ∧ c.val ≠ 9 ∧ c.val ≠ 10 ∧ c.val ≠ 13) := by omega
    have k3 : ¬ c.val > 126 := by omega
    have k4 : ¬ (c.val = 13 ∧ (v ++ (34 : Byte) :: rest).head? = some 10) := by omega
    have k5 : ¬ (c.val = 9 ∨ c.val = 10 ∨ c.val = 13) := by omega
    rw [List.cons_append, readAttValue, if_neg h34, if_neg k1, if_neg k2, if_neg k3, ih]
    simp only [k4, k5, if_false]

theorem readItems_item (fuel : Nat) (key value rest : CppString) (hk : AttrSafe key)
    (hv : AttrSafe value) :
    readItems (fuel + 1) (itemText key value rest)
      = (readItems fuel rest).map (fun r => ((key, value) :: r.1, r.2)) := by
  unfold itemText
  rw [readItems, skipLiteral_append]
  simp only [readAttValue_safe key _ hk, skipLiteral_append, readAttValue_safe value _ hv,
    bind, Option.bind, pure]
  cases readItems fuel rest <;> rfl

theorem readItems_stop (fuel : Nat) (s : CppString)
    (h : skipLiteral (ascii "<Item key=\"") s = none) : readItems fuel s = some ([], s) := by
  cases fuel with
  | zero => rfl
  | succ n => rw [readItems, h]

theorem skipLiteral_self (lit : CppString) : skipLiteral lit lit = some [] := by
  simp [skipLiteral]

set_option maxRecDepth 8192 in
theorem attrSafe_dhcpText (dhcpEnable : Bool) : AttrSafe (dhcpText dhcpEnable) := by
  cases dhcpEnable <;> decide

/-- The payload for `COLA_1`, cut at the places where the reader stops. -/
theorem assignPayload_cola1 (mac ip mask gw : CppString) (dhcpEnable : Bool) :
    assignPayload mac .COLA_1 ip mask gw dhcpEnable
      = ascii "<?xml version=\"1.0\" encoding=\"UTF-8\"?>" ++ (ascii "<IPconfig MACAddr=\"" ++
        (mac ++ (34 : Byte) :: (ascii ">" ++
          itemText (ascii "IPAddress") ip (itemText (ascii "IPMask") mask
            (itemText (ascii "IPGateway") gw
              (itemText (ascii "DHCPClientEnabled") (dhcpText dhcpEnable)
                (ascii "</IPconfig>"))))))) := by
  have e1 : ascii "<?xml version=\"1.0\" encoding=\"UTF-8\"?><IPconfig MACAddr=\""
      = ascii "<?xml version=\"1.0\" encoding=\"UTF-8\"?>" ++ ascii "<IPconfig MACAddr=\"" := rfl
  have e2 : ascii "\"><Item key=\"IPAddress\" value=\""
      = (34 : Byte) :: (ascii ">" ++ (ascii "<Item key=\"" ++ (ascii "IPAddress" ++
          (34 : Byte) :: ascii " value=\""))) := rfl
  have e3 : ascii "\" /><Item key=\"IPMask\" value=\""
      = (34 : Byte) :: (ascii " />" ++ (ascii "<Item key=\"" ++ (ascii "IPMask" ++
          (34 : Byte) :: ascii " value=\""))) := rfl
  have e4 : ascii "\" /><Item key=\"IPGateway\" value=\""
      = (34 : Byte) :: (ascii " />" ++ (ascii "<Item key=\"" ++ (ascii "IPGateway" ++
          (34 : Byte) :: ascii " value=\""))) := rfl
  have e5 : ascii "\" /><Item key=\"DHCPClientEnabled\" value=\""
      = (34 : Byte) :: (ascii " />" ++ (ascii "<Item key=\"" ++ (ascii "DHCPClientEnabled" ++
          (34 : Byte) :: ascii " value=\""))) := rfl
  have e6 : ascii "\" /></IPconfig>" = (34 : Byte) :: (ascii " />" ++ ascii "</IPconfig>") := rfl
  simp only [assignPayload, if_true, dhcpText, itemText, e1, e2, e3, e4, e5, e6,
    List.append_assoc, List.cons_append]

set_option maxRecDepth 65536 in
/-- C13, as stated, fails: `assign` copies its arguments into the document
unchanged.  With the address text `injectingAddress`, which holds a double quote,
the payload is a document with five `Item` children, two of them with the key
`IPMask`, and the value of `IPAddress` is not the address argument; with
`tabAddress` the value of `IPAddress` ends in a space, not in the TAB of the
argument; with `controlAddress` the payload is no XML document. -/
theorem assign_xml_payload_injection :
    readIPconfig (assignPayload sampleMac .COLA_1 injectingAddress (ascii "255.255.255.0")
        (ascii "0.0.0.0") false)
      = some (sampleMac,
          [(ascii "IPAddress", ascii "1.2.3.4"), (ascii "IPMask", ascii "0.0.0.0"),
           (ascii "IPMask", ascii "255.255.255.0"), (ascii "IPGateway", ascii "0.0.0.0"),
           (ascii "DHCPClientEnabled", ascii "FALSE")]) ∧
    ascii "1.2.3.4" ≠ injectingAddress ∧
    readIPconfig (assignPayload sampleMac .COLA_1 tabAddress (ascii "255.255.255.0")
        (ascii "0.0.0.0") false)
      = some (sampleMac,
          [(ascii "IPAddress", ascii "1.2.3.4 "), (ascii "IPMask", ascii "255.255.255.0"),
           (ascii "IPGateway", ascii "0.0.0.0"), (ascii "DHCPClientEnabled", ascii "FALSE")]) ∧
    ascii "1.2.3.4 " ≠ tabAddress ∧
    readIPconfig (assignPayload sampleMac .COLA_1 controlAddress (ascii "255.255.255.0")
        (ascii "0.0.0.0") false) = none := by
  refine ⟨rfl, by decide, rfl, by decide, rfl⟩

set_option maxRecDepth 8192 in
/-- C13 (amended): for `COLA_1` and a target MAC, ip, mask and gateway made of
printable ASCII characters (0x20..0x7E) other than the double quote, `<` and `&`,
the payload that `assign` builds is the XML document whose root element
`IPconfig` carries `MACAddr` equal to the target MAC text and has exactly four
`Item` children, in the order IPAddress, IPMask, IPGateway, DHCPClientEnabled,
with the values ip, mask, gateway and `TRUE` when DHCP is enabled, `FALSE`
otherwise. -/
theorem assign_xml_payload (mac ip mask gw : CppString) (dhcpEnable : Bool)
    (hmac : AttrSafe mac) (hip : AttrSafe ip) (hmask : AttrSafe mask) (hgw : AttrSafe gw) :
    readIPconfig (assignPayload mac .COLA_1 ip mask gw dhcpEnable)
      = some (mac,
          [(ascii "IPAddress", ip), (ascii "IPMask", mask), (ascii "IPGateway", gw),
           (ascii "DHCPClientEnabled", if dhcpEnable then ascii "TRUE" else ascii "FALSE")]) := by
  rw [assignPayload_cola1]
  unfold readIPconfig
  simp only [skipLiteral_append, readAttValue_safe mac _ hmac, bind, Option.bind]
  generalize hfuel : List.length _ = fuel
  have hf : 5 ≤ fuel := by
    rw [← hfuel]
    simp only [itemText, List.length_append, List.length_cons]
    have : (ascii "<Item key=\"").length = 11 := rfl
    omega
  obtain ⟨k, rfl⟩ : ∃ k, fuel = k + 1 + 1 + 1 + 1 + 1 := ⟨fuel - 5, by omega⟩
  rw [readItems_item _ _ _ _ (by decide) hip, readItems_item _ _ _ _ (by decide) hmask,
    readItems_item _ _ _ _ (by decide) hgw,
    readItems_item _ _ _ _ (by decide) (attrSafe_dhcpText dhcpEnable),
    readItems_stop _ _ (by rfl)]
  simp only [Option.map_some', skipLiteral_self, dhcpText, if_true]

set_option maxRecDepth 8192 in
/-- The amended C13 applies to the request with the default arguments of `assign`. -/
theorem assign_xml_payload_witness :
    AttrSafe sampleMac ∧ AttrSafe (ascii "192.168.1.10") ∧ AttrSafe (ascii "255.255.255.0") ∧
    AttrSafe (ascii "0.0.0.0") ∧
    readIPconfig (assignPayload sampleMac .COLA_1 (ascii "192.168.1.10") (ascii "255.255.255.0")
        (ascii "0.0.0.0") false)
      = some (sampleMac,
          [(ascii "IPAddress", ascii "192.168.1.10"), (ascii "IPMask", ascii "255.255.255.0"),
           (ascii "IPGateway", ascii "0.0.0.0"),
           (ascii "DHCPClientEnabled", if false then ascii "TRUE" else ascii "FALSE")]) :=
  ⟨by decide, by decide, by decide, by decide,
    assign_xml_payload sampleMac (ascii "192.168.1.10") (ascii "255.255.255.0") (ascii "0.0.0.0")
      false (by decide) (by decide) (by decide) (by decide)⟩

/-! ## The XML decoder against its reference -/

theorem ascii_IPAddress : ascii "IPAddress" = [73, 80, 65, 100, 100, 114, 101, 115, 115] := rfl

theorem ascii_IPMask : ascii "IPMask" = [73, 80, 77, 97, 115, 107] := rfl

theorem ascii_IPGateway : ascii "IPGateway" = [73, 80, 71, 97, 116, 101, 119, 97, 121] := rfl

theorem ascii_HostPortNo : ascii "HostPortNo" = [72, 111, 115, 116, 80, 111, 114, 116, 78, 111] := rfl

theorem ascii_DeviceType : ascii "DeviceType" = [68, 101, 118, 105, 99, 101, 84, 121, 112, 101] := rfl

theorem ascii_SerialNumber : ascii "SerialNumber" = [83, 101, 114, 105, 97, 108, 78, 117, 109, 98, 101, 114] := rfl

theorem ascii_OrderNumber : ascii "OrderNumber" = [79, 114, 100, 101, 114, 78, 117, 109, 98, 101, 114] := rfl

theorem ascii_DHCPClientEnabled : ascii "DHCPClientEnabled" = [68, 72, 67, 80, 67, 108, 105, 101, 110, 116, 69, 110, 97, 98, 108, 101, 100] := rfl

theorem ascii_IPConfigDuration : ascii "IPConfigDuration" = [73, 80, 67, 111, 110, 102, 105, 103, 68, 117, 114, 97, 116, 105, 111, 110] := rfl

/-- One child with the attributes `key` and `value` lays that pair over the
fields, or makes the decoder throw when the pair names a number that `std::stoi`
cannot read. -/
theorem xmlItem_overlay (d : DeviceInfo) (second : PTree) (k v : CppString)
    (hk : second.get [ascii "<xmlattr>", ascii "key"] = some k)
    (hv : second.get [ascii "<xmlattr>", ascii "value"] = some v) :
    xmlItem d second
      = if (k = ascii "HostPortNo" ∨ k = ascii "IPConfigDuration") ∧ stoi v = none then none
        else some (overlay d [(k, v)]) := by
  unfold xmlItem
  simp only [hk, hv, bind, Option.bind, pure, overlay, lastValue, ascii_IPAddress, ascii_IPMask, ascii_IPGateway, ascii_HostPortNo, ascii_DeviceType, ascii_SerialNumber, ascii_OrderNumber, ascii_DHCPClientEnabled, ascii_IPConfigDuration]
  by_cases h1 : k = [73, 80, 65, 100, 100, 114, 101, 115, 115]
  · subst h1; simp
  by_cases h2 : k = [73, 80, 77, 97, 115, 107]
  · subst h2; simp
  by_cases h3 : k = [73, 80, 71, 97, 116, 101, 119, 97, 121]
  · subst h3; simp
  by_cases h4 : k = [72, 111, 115, 116, 80, 111, 114, 116, 78, 111]
  · subst h4
    cases hs : stoi v <;> simp [hs]
  by_cases h5 : k = [68, 101, 118, 105, 99, 101, 84, 121, 112, 101]
  · subst h5; simp
  by_cases h6 : k = [83, 101, 114, 105, 97, 108, 78, 117, 109, 98, 101, 114]
  · subst h6; simp
  by_cases h7 : k = [79, 114, 100, 101, 114, 78, 117, 109, 98, 101, 114]
  · subst h7; simp
  by_cases h8 : k = [68, 72, 67, 80, 67, 108, 105, 101, 110, 116, 69, 110, 97, 98, 108, 101, 100]
  · subst h8; simp
  by_cases h9 : k = [73, 80, 67, 111, 110, 102, 105, 103, 68, 117, 114, 97, 116, 105, 111, 110]
  · subst h9
    cases hs : stoi v <;> simp [hs]
  simp [h1, h2, h3, h4, h5, h6, h7, h8, h9]

theorem overlay_cons (d : DeviceInfo) (k v : CppString) (rest : List (CppString × CppString)) :
    overlay (overlay d [(k, v)]) rest = overlay d ((k, v) :: rest) := by
  simp only [overlay, lastValue]
  congr 1
  · cases lastValue rest (ascii "DeviceType") <;> simp
  · cases lastValue rest (ascii "SerialNumber") <;> simp
  · cases lastValue rest (ascii "OrderNumber") <;> simp
  · cases lastValue rest (ascii "HostPortNo") <;> simp
  · cases lastValue rest (ascii "IPAddress") <;> simp
  · cases lastValue rest (ascii "IPMask") <;> simp
  · cases lastValue rest (ascii "IPGateway") <;> simp
  · cases lastValue rest (ascii "DHCPClientEnabled") <;> simp
  · cases lastValue rest (ascii "IPConfigDuration") <;> simp

theorem overlay_nil (d : DeviceInfo) : overlay d [] = d := by
  simp [overlay, lastValue]

/-- The loop of `parseAutoIPXml` over children that all carry `key` and `value`
and readable numbers lays their pairs over the fields. -/
theorem xmlItems_overlay : ∀ (children : List (CppString × PTree)) (d : DeviceInfo)
    (items : List (CppString × CppString)), itemsOf children = some items →
    NumbersReadable items → xmlItems d children = some (overlay d items)
  | [], d, items, h, _ => by
    simp only [itemsOf, Option.some.injEq] at h
    subst h
    simp [xmlItems, overlay_nil]
  | (first, second) :: rest, d, items, h, hnum => by
    simp only [itemsOf] at h
    simp only [xmlItems]
    by_cases hf : first = ascii "<xmlattr>"
    · simp only [hf, ne_eq, not_true_eq_false, if_false] at h ⊢
      exact xmlItems_overlay rest d items h hnum
    · simp only [ne_eq, hf, not_false_eq_true, if_true] at h ⊢
      cases hk : second.get [ascii "<xmlattr>", ascii "key"] with
      | none => simp [hk] at h
      | some k =>
        cases hv : second.get [ascii "<xmlattr>", ascii "value"] with
        | none => simp [hk, hv] at h
        | some v =>
          cases hr : itemsOf rest with
          | none => simp [hk, hv, hr] at h
          | some items1 =>
            simp only [hk, hv, hr, Option.some.injEq] at h
            subst h
            have hread : ¬ ((k = ascii "HostPortNo" ∨ k = ascii "IPConfigDuration")
                ∧ stoi v = none) := by
              rintro ⟨hkey, hs⟩
              have := hnum (k, v) (List.mem_cons_self _ _) hkey
              simp [hs] at this
            rw [xmlItem_overlay d second k v hk hv, if_neg hread]
            simp only
            rw [xmlItems_overlay rest _ items1 hr
              (fun kv hkv => hnum kv (List.mem_cons_of_mem _ hkv)), overlay_cons]

/-- The decoder on a parsed document returns the reference `DeviceInfo`. -/
theorem parseAutoIPXml_eq_reference (tree root : PTree) (macAddr : CppString)
    (items : List (CppString × CppString))
    (hmac : tree.get [ascii "NetScanResult", ascii "<xmlattr>", ascii "MACAddr"] = some macAddr)
    (hroot : tree.get_child [ascii "NetScanResult"] = some root)
    (hitems : itemsOf root.children = some items) (hnum : NumbersReadable items) :
    parseAutoIPXml tree = some (xmlReference macAddr items) := by
  unfold PTree.get at hmac
  unfold parseAutoIPXml
  cases hm : tree.get_child [ascii "NetScanResult", ascii "<xmlattr>", ascii "MACAddr"] with
  | none => simp [hm] at hmac
  | some macNode =>
    rw [hm] at hmac
    simp only [Option.map_some', Option.some.injEq] at hmac
    simp only [hroot, bind, Option.bind]
    rw [xmlItems_overlay root.children _ items hitems hnum]
    simp [overlay, xmlReference, hmac]
    refine ⟨?_, ?_, ?_⟩
    · cases lastValue items (ascii "HostPortNo") <;> rfl
    · cases lastValue items (ascii "DHCPClientEnabled") <;> rfl
    · cases lastValue items (ascii "IPConfigDuration") <;> rfl

/-- C20, as stated, fails: a report with `HostPortNo` "65536" and
`IPConfigDuration` "-1", whose integer values are 65536 and -1, decodes to
colaPort 0 and reconfigurationTimeMs 4294967295: the fields hold the integers
reduced to 16 and 32 bits, not the integer values. -/
theorem parseAutoIPXml_port_wraps :
    stoi (ascii "65536") = some 65536 ∧ stoi (ascii "-1") = some (-1) ∧
    (parseAutoIPXml (netScanResultTree sampleMac widePortItems)).map
      (fun d => (d.colaPort, d.reconfigurationTimeMs)) = some (some 0, some 4294967295) := by
  refine ⟨by rfl, by rfl, by rfl⟩

/-- C20 (amended): over the parsed document (root attribute `MACAddr` and
the ordered (key, value) pairs of the root's children, every `HostPortNo` and
`IPConfigDuration` value readable as an integer), `parseAutoIPXml` returns
COLA_1, SUL1, the MAC string, the strings of the six string keys, the integer
of `HostPortNo` modulo 2^16, the integer of `IPConfigDuration` modulo 2^32 and
whether `DHCPClientEnabled` is exactly "TRUE", the last pair of a key deciding;
other keys change nothing. -/
theorem parseAutoIPXml_fields (tree root : PTree) (macAddr : CppString)
    (items : List (CppString × CppString))
    (hmac : tree.get [ascii "NetScanResult", ascii "<xmlattr>", ascii "MACAddr"] = some macAddr)
    (hroot : tree.get_child [ascii "NetScanResult"] = some root)
    (hitems : itemsOf root.children = some items) (hnum : NumbersReadable items) :
    parseAutoIPXml tree = some (xmlReference macAddr items) :=
  parseAutoIPXml_eq_reference tree root macAddr items hmac hroot hitems hnum

set_option maxRecDepth 65536 in
/-- The amended C20 applies to the document of a Generation1 device with ten
children, one of them with a key that no field takes. -/
theorem parseAutoIPXml_fields_witness :
    parseAutoIPXml (netScanResultTree sampleMac sampleItems)
      = some (xmlReference sampleMac sampleItems) ∧
    (xmlReference sampleMac sampleItems).colaPort = some 2112 ∧
    (xmlReference sampleMac sampleItems).ipAddress = ascii "192.168.1.10" ∧
    (xmlReference sampleMac sampleItems).dhcpEnabled = some true :=
  ⟨parseAutoIPXml_fields (netScanResultTree sampleMac sampleItems)
    (netScanResultRoot sampleMac sampleItems)
    sampleMac sampleItems rfl rfl rfl (by decide), by rfl, by rfl, by rfl⟩

/-! ## The authentication generation -/

/-- A weaker postcondition, named first. -/
theorem Sat.weaken {α : Type} {x : Except Stop α} {Q : α → Prop} {R : Stop → Prop}
    (Q2 : α → Prop) (h : Sat x Q R) (hQ : ∀ a, Q a → Q2 a) : Sat x Q2 R :=
  h.mono hQ (fun _ hr => hr)

theorem parseHeader_authVersion (b : ByteBuffer) :
    Sat (parseHeader b) (fun r => r.1.deviceInfo.authVersion = .SUL1) (fun _ => True) := by
  unfold parseHeader
  simp only [sat_bind, sat_ite, sat_pure, sat_throw, sat_readBytes, sat_readUnalignBigEndian]
  simp

theorem scanIfBody_authVersion (b : ByteBuffer) (s : ParseState) :
    Sat (scanIfBody b s) (fun s1 => s1.deviceInfo.authVersion = s.deviceInfo.authVersion)
      (fun _ => True) := by
  unfold scanIfBody
  simp only [sat_bind, sat_ite, sat_pure, sat_throw, sat_readBytes, sat_readUnalignBigEndian]
  simp

theorem arrayCount_authVersion (b : ByteBuffer) (s : ParseState) :
    Sat (arrayCount b s) (fun r => r.1.deviceInfo.authVersion = s.deviceInfo.authVersion)
      (fun _ => True) := by
  unfold arrayCount
  simp only [sat_bind, sat_ite, sat_pure, sat_throw, sat_readBytes, sat_readUnalignBigEndian]
  simp

theorem comSettingsBody_authVersion (b : ByteBuffer) (s : ParseState) :
    Sat (comSettingsBody b s) (fun s1 => s1.deviceInfo.authVersion = s.deviceInfo.authVersion)
      (fun _ => True) := by
  unfold comSettingsBody
  simp only [sat_bind, sat_ite, sat_pure, sat_throw, sat_readBytes, sat_readUnalignBigEndian,
    sat_readMac]
  simp

theorem endPointEntryBody_authVersion (b : ByteBuffer) (s : ParseState) :
    Sat (endPointEntryBody b s)
      (fun s1 => s1.deviceInfo.authVersion = s.deviceInfo.authVersion) (fun _ => True) := by
  unfold endPointEntryBody
  simp only [sat_bind, sat_ite, sat_pure, sat_throw, sat_readBytes, sat_readUnalignBigEndian]
  simp

/-- A loop whose body keeps the authentication generation keeps it. -/
theorem loopN_authVersion (body : ParseState → Except Stop ParseState)
    (hbody : ∀ s, Sat (body s)
      (fun s1 => s1.deviceInfo.authVersion = s.deviceInfo.authVersion) (fun _ => True))
    (n : Nat) (s : ParseState) :
    Sat (loopN body n s) (fun s1 => s1.deviceInfo.authVersion = s.deviceInfo.authVersion)
      (fun _ => True) :=
  sat_loopN body (fun s1 => s1.deviceInfo.authVersion = s.deviceInfo.authVersion)
    (fun _ => True) (fun s1 h1 => (hbody s1).mono (fun _ h => h.trans h1) (fun _ h => h)) n s rfl

theorem endPointBody_authVersion (b : ByteBuffer) (s : ParseState) :
    Sat (endPointBody b s) (fun s1 => s1.deviceInfo.authVersion = s.deviceInfo.authVersion)
      (fun _ => True) := by
  unfold endPointBody
  simp only [sat_bind, sat_ite, sat_pure, sat_throw, sat_readBytes, sat_readUnalignBigEndian]
  refine ⟨fun _ => trivial, fun _ => ⟨fun _ => trivial, fun _ => ⟨fun _ => ?_, fun _ _ => trivial⟩⟩⟩
  exact loopN_authVersion _ (endPointEntryBody_authVersion b) _ _

/-- One completed pass over an auxiliary entry reads its key and its length and
upgrades the authentication generation exactly when the key is `AutV` and the
value is `1.0.0.0R`. -/
theorem auxBody_spec (b : ByteBuffer) (s : ParseState) :
    Sat (auxBody b s)
      (fun s1 => ∃ key len, readBytes b s.offset 4 = .ok key ∧
        readUnalignBigEndian b (s.offset + 4) 2 = .ok len ∧
        (s1.deviceInfo.authVersion = .SUL2 ↔
          s.deviceInfo.authVersion = .SUL2 ∨
            (key = ascii "AutV" ∧ (b.drop (s.offset + 6)).take len = ascii "1.0.0.0R")))
      (fun _ => True) := by
  unfold auxBody
  simp only [sat_bind, sat_ite, sat_pure, sat_throw, sat_readBytes, sat_readUnalignBigEndian]
  have h6 : s.offset + 4 + 2 = s.offset + 6 := by omega
  simp only [h6, OfNat.ofNat_ne_zero, false_or, implies_true, true_and, and_true, ne_eq,
    not_false_eq_true]
  intro _ h4 _ h2 _
  have hkey : readBytes b s.offset 4 = .ok ((b.drop s.offset).take 4) := by
    simp [readBytes, h4]
  have hlen : readUnalignBigEndian b (s.offset + 4) 2
      = .ok (beValue ((b.drop (s.offset + 4)).take 2)) := by
    simp [readUnalignBigEndian, readBytes, h2, bind, Except.bind, pure, Except.pure]
  refine ⟨fun hk => ?_, fun hk => ?_⟩
  · refine fun _ => ⟨fun hv => ?_, fun hv => ?_⟩
    · exact ⟨_, _, hkey, hlen, by simp [hk, hv]⟩
    · exact ⟨_, _, hkey, hlen, by simp [hk, hv]⟩
  · exact ⟨_, _, hkey, hlen, by simp [hk]⟩

/-- After `k` passes of the auxiliary loop the authentication generation is
Secure exactly when it was before or one of the passes met `AutV` with the value
`1.0.0.0R`. -/
theorem aux_loop (b : ByteBuffer) (s0 : ParseState) :
    ∀ k, Sat (loopN (auxBody b) k s0)
      (fun s => s.deviceInfo.authVersion = .SUL2 ↔
        s0.deviceInfo.authVersion = .SUL2 ∨
          ∃ j, j < k ∧ auxEntryFrom b s0 j = some (ascii "AutV", ascii "1.0.0.0R"))
      (fun _ => True)
  | 0 => by simp [loopN, Sat, pure, Except.pure]
  | k + 1 => by
    rw [loopN_succ_last]
    have ih := aux_loop b s0 k
    cases hk : loopN (auxBody b) k s0 with
    | error e => exact trivial
    | ok sk =>
      have hsk := ih.of_ok hk
      have hspec := auxBody_spec b sk
      show Sat (auxBody b sk) _ _
      cases hb : auxBody b sk with
      | error e => exact trivial
      | ok s1 =>
        obtain ⟨key, len, hkey, hlen, hiff⟩ := hspec.of_ok hb
        have hentry : auxEntryFrom b s0 k = some (key, (b.drop (sk.offset + 6)).take len) := by
          simp [auxEntryFrom, hk, hb, hkey, hlen]
        show s1.deviceInfo.authVersion = .SUL2 ↔ _
        rw [hiff, hsk]
        constructor
        · rintro ((h | ⟨j, hj, he⟩) | ⟨h1, h2⟩)
          · exact Or.inl h
          · exact Or.inr ⟨j, Nat.lt_succ_of_lt hj, he⟩
          · exact Or.inr ⟨k, Nat.lt_succ_self k, by rw [hentry, h1, h2]⟩
        · rintro (h | ⟨j, hj, he⟩)
          · exact Or.inl (Or.inl h)
          · rcases Nat.lt_succ_iff_lt_or_eq.mp hj with hlt | heq
            · exact Or.inl (Or.inr ⟨j, hlt, he⟩)
            · subst heq
              rw [hentry] at he
              simp only [Option.some.injEq, Prod.mk.injEq] at he
              exact Or.inr he

/-- The state at line 532 of a run that passed every length check has the
authentication generation Secure exactly when the auxiliary array has an entry
`AutV` with the value `1.0.0.0R`. -/
theorem parseArrays_authVersion (b : ByteBuffer) :
    Sat (parseArrays b)
      (fun s => s.deviceInfo.authVersion = .SUL2 ↔
        (ascii "AutV", ascii "1.0.0.0R") ∈ auxEntries b)
      (fun _ => True) := by
  unfold parseArrays parseToComSettings
  simp only [bind_assoc]
  have h0 := parseHeader_authVersion b
  cases hp : parseHeader b with
  | error e => exact trivial
  | ok r =>
    obtain ⟨s0, n⟩ := r
    have hs0 : s0.deviceInfo.authVersion = .SUL1 := h0.of_ok hp
    have hmem : (ascii "AutV", ascii "1.0.0.0R") ∈ auxEntries b ↔
        ∃ j, j < n ∧ auxEntryFrom b s0 j = some (ascii "AutV", ascii "1.0.0.0R") := by
      simp [auxEntries, hp, List.mem_filterMap]
    show Sat (loopN (auxBody b) n s0 >>= _) _ _
    refine (aux_loop b s0 n).bind (fun s1 h1 => ?_)
    have h1b : s1.deviceInfo.authVersion = .SUL2 ↔
        (ascii "AutV", ascii "1.0.0.0R") ∈ auxEntries b := by
      rw [h1, hmem, hs0]
      simp
    refine (Sat.weaken (fun r => r.1.deviceInfo.authVersion = .SUL2 ↔
        (ascii "AutV", ascii "1.0.0.0R") ∈ auxEntries b) (arrayCount_authVersion b s1)
      (fun r hr => by simpa only [hr] using h1b)).bind (fun r2 h2 => ?_)
    refine (Sat.weaken (fun s3 => s3.deviceInfo.authVersion = .SUL2 ↔
        (ascii "AutV", ascii "1.0.0.0R") ∈ auxEntries b)
      (loopN_authVersion _ (scanIfBody_authVersion b) _ r2.1)
      (fun s3 hs3 => by simpa only [hs3] using h2)).bind (fun s3 h3 => ?_)
    refine (Sat.weaken (fun r => r.1.deviceInfo.authVersion = .SUL2 ↔
        (ascii "AutV", ascii "1.0.0.0R") ∈ auxEntries b) (arrayCount_authVersion b s3)
      (fun r hr => by simpa only [hr] using h3)).bind (fun r4 h4 => ?_)
    refine (Sat.weaken (fun s5 => s5.deviceInfo.authVersion = .SUL2 ↔
        (ascii "AutV", ascii "1.0.0.0R") ∈ auxEntries b)
      (loopN_authVersion _ (comSettingsBody_authVersion b) _ r4.1)
      (fun s5 hs5 => by simpa only [hs5] using h4)).bind (fun s5 h5 => ?_)
    refine (Sat.weaken (fun r => r.1.deviceInfo.authVersion = .SUL2 ↔
        (ascii "AutV", ascii "1.0.0.0R") ∈ auxEntries b) (arrayCount_authVersion b s5)
      (fun r hr => by simpa only [hr] using h5)).bind (fun r6 h6 => ?_)
    exact (loopN_authVersion _ (endPointBody_authVersion b) _ r6.1).mono
      (fun s7 hs7 => by simpa only [hs7] using h6) (fun _ h => h)

/-- C18: for every report on which `parseAutoIPBinary` passes all length
checks and returns, the returned authVersion is SUL2 exactly when some entry of
the auxiliary array has the key `AutV` and a value equal to the 8-byte string
`1.0.0.0R`; otherwise it is SUL1. -/
theorem authVersion_secure_iff (b : ByteBuffer) (m : Nat) (d : DeviceInfo)
    (hchecks : finalMinSize b = some m) (h : parseAutoIPBinary b = .ok d) :
    (d.authVersion = .SUL2 ↔ (ascii "AutV", ascii "1.0.0.0R") ∈ auxEntries b) ∧
    ((ascii "AutV", ascii "1.0.0.0R") ∉ auxEntries b → d.authVersion = .SUL1) := by
  have hspec := parseArrays_authVersion b
  unfold finalMinSize at hchecks
  unfold parseAutoIPBinary parseBody at h
  cases hp : parseArrays b with
  | error e => simp [hp] at hchecks
  | ok s =>
    rw [hp] at h
    have hs := hspec.of_ok hp
    have hd : d.authVersion = s.deviceInfo.authVersion := by
      simp only [bind, Except.bind, finish] at h
      cases hports : s.ports with
      | nil => simp [hports, throw, throwThe, MonadExceptOf.throw] at h
      | cons p ps =>
        simp only [hports, pure, Except.pure, Except.ok.injEq] at h
        rw [← h]
    rw [hd]
    refine ⟨hs, fun hno => ?_⟩
    cases hv : s.deviceInfo.authVersion with
    | SUL1 => rfl
    | SUL2 => exact absurd (hs.mp hv) hno

/-- C18 applies to `secureReport`, which decodes with the authentication
generation SUL2. -/
theorem authVersion_secure_iff_witness :
    finalMinSize secureReport = some 82 ∧
    parseAutoIPBinary secureReport = .ok { sampleInfo with authVersion := .SUL2, macAddress := [] } ∧
    auxEntries secureReport = [(ascii "AutV", ascii "1.0.0.0R")] ∧
    (AuthVersion.SUL2 = .SUL2 ↔ (ascii "AutV", ascii "1.0.0.0R") ∈ auxEntries secureReport) ∧
    ((ascii "AutV", ascii "1.0.0.0R") ∉ auxEntries secureReport → AuthVersion.SUL2 = .SUL1) :=
  ⟨rfl, rfl, by decide,
    authVersion_secure_iff secureReport 82 { sampleInfo with authVersion := .SUL2, macAddress := [] }
      rfl rfl⟩

/-! ## The control-channel port -/

theorem endPointBody_eq (b : ByteBuffer) (s : ParseState) :
    endPointBody b s = endPointHead b s >>= fun r => loopN (endPointEntryBody b) r.2 r.1 := by
  unfold endPointBody endPointHead
  by_cases h1 : b.length < s.minSize + 1
  · simp only [h1, if_true]
    rfl
  · by_cases h2 : b.length < s.minSize + 1 + 2
    · simp only [h1, h2, if_true, if_false]
      rfl
    · simp only [h1, h2, if_false]
      cases readUnalignBigEndian b (s.offset + 1) 2 <;> rfl

theorem parseArrays_eq (b : ByteBuffer) :
    parseArrays b = parseToEndPoints b >>= fun r => loopN (endPointBody b) r.2 r.1 := by
  unfold parseArrays parseToEndPoints
  simp only [bind_assoc]

theorem parseHeader_ports (b : ByteBuffer) :
    Sat (parseHeader b) (fun r => r.1.ports = []) (fun _ => True) := by
  unfold parseHeader
  simp only [sat_bind, sat_ite, sat_pure, sat_throw, sat_readBytes, sat_readUnalignBigEndian]
  simp

theorem auxBody_ports (b : ByteBuffer) (s : ParseState) :
    Sat (auxBody b s) (fun s1 => s1.ports = s.ports) (fun _ => True) := by
  unfold auxBody
  simp only [sat_bind, sat_ite, sat_pure, sat_throw, sat_readBytes, sat_readUnalignBigEndian]
  simp

theorem scanIfBody_ports (b : ByteBuffer) (s : ParseState) :
    Sat (scanIfBody b s) (fun s1 => s1.ports = s.ports) (fun _ => True) := by
  unfold scanIfBody
  simp only [sat_bind, sat_ite, sat_pure, sat_throw, sat_readBytes, sat_readUnalignBigEndian]
  simp

theorem arrayCount_ports (b : ByteBuffer) (s : ParseState) :
    Sat (arrayCount b s) (fun r => r.1.ports = s.ports) (fun _ => True) := by
  unfold arrayCount
  simp only [sat_bind, sat_ite, sat_pure, sat_throw, sat_readBytes, sat_readUnalignBigEndian]
  simp

theorem comSettingsBody_ports (b : ByteBuffer) (s : ParseState) :
    Sat (comSettingsBody b s) (fun s1 => s1.ports = s.ports) (fun _ => True) := by
  unfold comSettingsBody
  simp only [sat_bind, sat_ite, sat_pure, sat_throw, sat_readBytes, sat_readUnalignBigEndian,
    sat_readMac]
  simp

theorem endPointHead_ports (b : ByteBuffer) (s : ParseState) :
    Sat (endPointHead b s) (fun r => r.1.ports = s.ports) (fun _ => True) := by
  unfold endPointHead
  simp only [sat_bind, sat_ite, sat_pure, sat_throw, sat_readBytes, sat_readUnalignBigEndian]
  simp

/-- A loop whose body keeps the list of ports keeps it. -/
theorem loopN_ports (body : ParseState → Except Stop ParseState)
    (hbody : ∀ s, Sat (body s) (fun s1 => s1.ports = s.ports) (fun _ => True))
    (n : Nat) (s : ParseState) :
    Sat (loopN body n s) (fun s1 => s1.ports = s.ports) (fun _ => True) :=
  sat_loopN body (fun s1 => s1.ports = s.ports)
    (fun _ => True) (fun s1 h1 => (hbody s1).mono (fun _ h => h.trans h1) (fun _ h => h)) n s rfl

/-- The list of ports is empty when the loop over the endpoints array starts. -/
theorem parseToEndPoints_ports (b : ByteBuffer) :
    Sat (parseToEndPoints b) (fun r => r.1.ports = []) (fun _ => True) := by
  unfold parseToEndPoints parseToComSettings
  simp only [bind_assoc]
  refine (parseHeader_ports b).bind (fun r0 h0 => ?_)
  refine (Sat.weaken (fun s => s.ports = []) (loopN_ports _ (auxBody_ports b) _ r0.1)
    (fun s hs => by simpa only [hs] using h0)).bind (fun s1 h1 => ?_)
  refine (Sat.weaken (fun r => r.1.ports = []) (arrayCount_ports b s1)
    (fun s hs => by simpa only [hs] using h1)).bind (fun r2 h2 => ?_)
  refine (Sat.weaken (fun s => s.ports = []) (loopN_ports _ (scanIfBody_ports b) _ r2.1)
    (fun s hs => by simpa only [hs] using h2)).bind (fun s3 h3 => ?_)
  refine (Sat.weaken (fun r => r.1.ports = []) (arrayCount_ports b s3)
    (fun s hs => by simpa only [hs] using h3)).bind (fun r4 h4 => ?_)
  refine (Sat.weaken (fun s => s.ports = []) (loopN_ports _ (comSettingsBody_ports b) _ r4.1)
    (fun s hs => by simpa only [hs] using h4)).bind (fun s5 h5 => ?_)
  exact (arrayCount_ports b s5).mono (fun s hs => by simpa only [hs] using h5) (fun _ h => h)

set_option maxRecDepth 65536 in
/-- C19: the claim is that the returned colaPort is the value of the first `DPNo`
entry of the report in wire order.  `nestedEntryBytes` is the encoding of a report
whose endpoints hold the `DPNo` entries 2122 and 2111, in this order, and it is
returned with the colaPort 6666, two bytes inside the value of its `EIPa`
communication-settings entry: after that entry the decoder has advanced by 4
bytes and not by the declared 29, and it reads the rest of the report from inside
the value. -/
theorem colaPort_from_inside_value :
    nestedEntryBytes = referenceEncode nestedEntryReport ∧
      nestedEntryReport.endPoints.flatMap (fun p => entryPorts p.entries) = [2122, 2111] ∧
      (nestedEntryReport.comSettings.map (fun e => (e.key, e.value.length)))
        = [(ascii "EIPa", 29), (ascii "ENMa", 4)] ∧
      ∃ d, parseAutoIPBinary nestedEntryBytes = .ok d ∧ d.colaPort = some 6666 := by
  refine ⟨by decide, by decide, by decide, _, rfl, rfl⟩

/-! ## Reading at a cursor -/

theorem cur_zero (B : ByteBuffer) : Cur B 0 B := ⟨rfl, by simp⟩

theorem cur_skip {B : ByteBuffer} {o : Nat} {xs rest : List Byte} (h : Cur B o (xs ++ rest))
    {o2 : Nat} (ho : o2 = o + xs.length) : Cur B o2 rest := by
  obtain ⟨h1, h2⟩ := h
  subst ho
  constructor
  · rw [← List.drop_drop, h1, List.drop_left]
  · rw [List.length_append] at h2
    omega

theorem cur_readBytes {B : ByteBuffer} {o : Nat} {xs rest : List Byte}
    (h : Cur B o (xs ++ rest)) {n : Nat} (hn : xs.length = n) : readBytes B o n = .ok xs := by
  obtain ⟨h1, h2⟩ := h
  subst hn
  unfold readBytes
  by_cases h0 : xs.length = 0
  · simp [h0, List.length_eq_zero.mp h0]
  · rw [List.length_append] at h2
    have hle : o + xs.length ≤ B.length := by omega
    simp only [h0, if_false, hle, if_true, h1, List.take_left]

theorem cur_readUnalignBigEndian {B : ByteBuffer} {o : Nat} {xs rest : List Byte}
    (h : Cur B o (xs ++ rest)) {n : Nat} (hn : xs.length = n) :
    readUnalignBigEndian B o n = .ok (beValue xs) := by
  unfold readUnalignBigEndian
  rw [cur_readBytes h hn]
  rfl

theorem length_writeUnalignBigEndian16 (v : Nat) : (writeUnalignBigEndian16 v).length = 2 := rfl

theorem cur_u16 {B : ByteBuffer} {o : Nat} {v : Nat} {rest : List Byte}
    (h : Cur B o (writeUnalignBigEndian16 v ++ rest)) (hv : v < 65536) :
    readUnalignBigEndian B o 2 = .ok v := by
  rw [cur_readUnalignBigEndian h (length_writeUnalignBigEndian16 v),
    beValue_writeUnalignBigEndian16]
  congr 1
  omega

theorem cur_readMac {B : ByteBuffer} {o : Nat} {v rest : List Byte}
    (h : Cur B o (v ++ rest)) (hv : v.length = 6) : readMac B o = .ok (macOf v) := by
  unfold readMac
  rw [cur_readBytes h hv]
  match v, hv with
  | [b0, b1, b2, b3, b4, b5], _ => rfl

theorem length_encodeString (s : CppString) : (encodeString s).length = 2 + s.length := by
  simp [encodeString, length_writeUnalignBigEndian16]

theorem cur_string {B : ByteBuffer} {o : Nat} {s rest : List Byte}
    (h : Cur B o (encodeString s ++ rest)) (hs : s.length < 65536) :
    readUnalignBigEndian B o 2 = .ok s.length ∧ readBytes B (o + 2) s.length = .ok s ∧
      Cur B (o + 2 + s.length) rest := by
  unfold encodeString at h
  rw [List.append_assoc] at h
  have h2 : Cur B (o + 2) (s ++ rest) := cur_skip h rfl
  exact ⟨cur_u16 h hs, cur_readBytes h2 rfl, cur_skip h2 rfl⟩

/-- The fixed part of a report that is laid out as the reference encoding lays
it out decodes to the three identity strings, and leaves the decoder at the
first byte after the count of the auxiliary array. -/
theorem parseHeader_ok (B : ByteBuffer) (V cid F dn app proj sn tc fw ord rest : List Byte)
    (flags : Byte) (nAux : Nat)
    (h : Cur B 16 (V ++ (encodeString cid ++ (F ++ (encodeString dn ++ (encodeString app
      ++ (encodeString proj ++ (encodeString sn ++ (encodeString tc ++ (encodeString fw
      ++ (encodeString ord ++ ([flags] ++ (writeUnalignBigEndian16 nAux ++ rest)))))))))))))
    (hV : V.length = 2) (hF : F.length = 14) (hcid : cid.length < 65536)
    (hdn : dn.length < 65536) (happ : app.length < 65536) (hproj : proj.length < 65536)
    (hsn : sn.length < 65536) (htc : tc.length < 65536) (hfw : fw.length < 65536)
    (hord : ord.length < 65536) (hAux : nAux < 65536) :
    ∃ o, parseHeader B = .ok (⟨o, o,
        { colaVersion := .COLA_2, deviceIdent := cid, serialNumber := sn,
          orderNumber := ord, authVersion := .SUL1, macAddress := ascii "invalid",
          colaPort := none, ipAddress := [], networkMask := [], gateway := [],
          dhcpEnabled := none, reconfigurationTimeMs := none }, [], []⟩, nAux) ∧
      Cur B o rest := by
  have hlen := h.2
  simp only [List.length_append, length_encodeString, length_writeUnalignBigEndian16,
    List.length_singleton, hV, hF] at hlen
  have c1 : Cur B (16 + 2) _ := cur_skip h (by rw [hV])
  obtain ⟨f1, g1, c2⟩ := cur_string c1 hcid
  have c3 : Cur B (16 + 2 + 2 + cid.length + 2 + 2 + 2 + 4 + 1 + 1 + 2) _ :=
    cur_skip c2 (by omega)
  obtain ⟨f3, -, c4⟩ := cur_string c3 hdn
  obtain ⟨f4, -, c5⟩ := cur_string c4 happ
  obtain ⟨f5, -, c6⟩ := cur_string c5 hproj
  obtain ⟨f6, g6, c7⟩ := cur_string c6 hsn
  obtain ⟨f7, -, c8⟩ := cur_string c7 htc
  obtain ⟨f8, -, c9⟩ := cur_string c8 hfw
  obtain ⟨f9, g9, c10⟩ := cur_string c9 hord
  have c11 : Cur B (16 + 2 + 2 + cid.length + 2 + 2 + 2 + 4 + 1 + 1 + 2 + 2
      + dn.length + 2 + app.length + 2 + proj.length + 2 + sn.length + 2 + tc.length + 2
      + fw.length + 2 + ord.length + 1) _ := cur_skip c10 rfl
  have f11 := cur_u16 c11 hAux
  have c12 : Cur B (16 + 2 + 2 + cid.length + 2 + 2 + 2 + 4 + 1 + 1 + 2 + 2
      + dn.length + 2 + app.length + 2 + proj.length + 2 + sn.length + 2 + tc.length + 2
      + fw.length + 2 + ord.length + 1 + 2) _ := cur_skip c11 rfl
  refine ⟨16 + 2 + 2 + cid.length + 2 + 2 + 2 + 4 + 1 + 1 + 2 + 2
    + dn.length + 2 + app.length + 2 + proj.length + 2 + sn.length + 2 + tc.length + 2
    + fw.length + 2 + ord.length + 1 + 2, ?_, c12⟩
  · unfold parseHeader
    have k0 : ¬ B.length < 18 := by omega
    have k1 : ¬ B.length < 18 + 2 := by omega
    have k2 : ¬ B.length < 18 + 2 + cid.length := by omega
    have k3 : ¬ B.length < 18 + 2 + cid.length + 16 := by omega
    have k4 : ¬ B.length < 18 + 2 + cid.length + 16 + dn.length := by omega
    have k5 : ¬ B.length < 18 + 2 + cid.length + 16 + dn.length + 2 := by omega
    have k6 : ¬ B.length < 18 + 2 + cid.length + 16 + dn.length + 2 + app.length := by omega
    have k7 : ¬ B.length < 18 + 2 + cid.length + 16 + dn.length + 2 + app.length + 2 := by omega
    have k8 : ¬ B.length < 18 + 2 + cid.length + 16 + dn.length + 2 + app.length + 2
      + proj.length := by omega
    have k9 : ¬ B.length < 18 + 2 + cid.length + 16 + dn.length + 2 + app.length + 2
      + proj.length + 2 := by omega
    have k10 : ¬ B.length < 18 + 2 + cid.length + 16 + dn.length + 2 + app.length + 2
      + proj.length + 2 + sn.length := by omega
    have k11 : ¬ B.length < 18 + 2 + cid.length + 16 + dn.length + 2 + app.length + 2
      + proj.length + 2 + sn.length + 2 := by omega
    have k12 : ¬ B.length < 18 + 2 + cid.length + 16 + dn.length + 2 + app.length + 2
      + proj.length + 2 + sn.length + 2 + tc.length := by omega
    have k13 : ¬ B.length < 18 + 2 + cid.length + 16 + dn.length + 2 + app.length + 2
      + proj.length + 2 + sn.length + 2 + tc.length + 2 := by omega
    have k14 : ¬ B.length < 18 + 2 + cid.length + 16 + dn.length + 2 + app.length + 2
      + proj.length + 2 + sn.length + 2 + tc.length + 2 + fw.length := by omega
    have k15 : ¬ B.length < 18 + 2 + cid.length + 16 + dn.length + 2 + app.length + 2
      + proj.length + 2 + sn.length + 2 + tc.length + 2 + fw.length + 2 := by omega
    have k16 : ¬ B.length < 18 + 2 + cid.length + 16 + dn.length + 2 + app.length + 2
      + proj.length + 2 + sn.length + 2 + tc.length + 2 + fw.length + 2 + ord.length := by omega
    have k17 : ¬ B.length < 18 + 2 + cid.length + 16 + dn.length + 2 + app.length + 2
      + proj.length + 2 + sn.length + 2 + tc.length + 2 + fw.length + 2 + ord.length
      + 3 := by omega
    simp only [bind, Except.bind, pure, Except.pure]
    simp only [f1, g1, f3, f4, f5, f6, g6, f7, f8, f9, g9, f11, k0, k1, k2, k3, k4, k5, k6, k7, k8,
      k9, k10, k11, k12, k13, k14, k15, k16, k17, if_false]

theorem length_encodeEntry (e : Entry) :
    (encodeEntry e).length = e.key.length + (2 + e.value.length) := by
  simp [encodeEntry, length_encodeString]

/-- The three reads of an entry at the cursor: the key, the length and the
value, and the cursor after it. -/
theorem cur_entry {B : ByteBuffer} {o : Nat} {e : Entry} {rest : List Byte}
    (h : Cur B o (encodeEntry e ++ rest)) (hfit : e.Fits) :
    readBytes B o 4 = .ok e.key ∧ readUnalignBigEndian B (o + 4) 2 = .ok e.value.length ∧
      Cur B (o + 4 + 2) (e.value ++ rest) ∧ Cur B (o + 4 + 2 + e.value.length) rest ∧
      o + 4 + 2 + e.value.length ≤ B.length := by
  obtain ⟨hk, hv⟩ := hfit
  unfold encodeEntry at h
  rw [List.append_assoc] at h
  have c1 : Cur B (o + 4) (encodeString e.value ++ rest) := cur_skip h (by rw [hk])
  obtain ⟨f1, -, c3⟩ := cur_string c1 hv
  have c2 : Cur B (o + 4 + 2) (e.value ++ rest) := by
    unfold encodeString at c1
    rw [List.append_assoc] at c1
    exact cur_skip c1 rfl
  have := c3.2
  exact ⟨cur_readBytes h hk, f1, c2, c3, by omega⟩

theorem auxBody_ok (B : ByteBuffer) (o : Nat) (d : DeviceInfo) (m : CppString) (p : List Nat)
    (e : Entry) (rest : List Byte) (h : Cur B o (encodeEntry e ++ rest)) (hfit : e.Fits) :
    ∃ o2, auxBody B ⟨o, o, d, m, p⟩ = .ok ⟨o2, o2, applyAux d e, m, p⟩ ∧ Cur B o2 rest := by
  obtain ⟨f1, f2, c2, c3, hle⟩ := cur_entry h hfit
  refine ⟨o + 4 + 2 + e.value.length, ?_, c3⟩
  have k1 : ¬ B.length < o + 4 := by omega
  have k2 : ¬ B.length < o + 4 + 2 := by omega
  have k3 : ¬ B.length < o + 4 + 2 + e.value.length := by omega
  have f3 : readBytes B (o + 4 + 2) e.value.length = .ok e.value := cur_readBytes c2 rfl
  unfold auxBody applyAux
  simp only [bind, Except.bind, pure, Except.pure]
  simp only [f1, f2, f3, k1, k2, k3, if_false]
  by_cases hkey : e.key = ascii "AutV"
  · by_cases hval : e.value = ascii "1.0.0.0R"
    · simp only [hkey, hval, if_true, and_self]
    · simp only [hkey, hval, if_true, if_false, and_false]
  · simp only [hkey, if_false, false_and]

theorem aux_loop_ok (B : ByteBuffer) (m : CppString) (p : List Nat) (rest : List Byte) :
    ∀ (entries : List Entry) (o : Nat) (d : DeviceInfo),
      Cur B o (entries.flatMap encodeEntry ++ rest) → (∀ e, e ∈ entries → e.Fits) →
      ∃ o2, loopN (auxBody B) entries.length ⟨o, o, d, m, p⟩
          = .ok ⟨o2, o2, entries.foldl applyAux d, m, p⟩ ∧ Cur B o2 rest
  | [], o, d, h, _ => ⟨o, rfl, by simpa using h⟩
  | e :: entries, o, d, h, hfit => by
    rw [List.flatMap_cons, List.append_assoc] at h
    obtain ⟨o1, h1, c1⟩ := auxBody_ok B o d m p e _ h (hfit e (List.mem_cons_self _ _))
    obtain ⟨o2, h2, c2⟩ := aux_loop_ok B m p rest entries o1 (applyAux d e) c1
      (fun x hx => hfit x (List.mem_cons_of_mem _ hx))
    refine ⟨o2, ?_, c2⟩
    simp only [List.length_cons, loopN, h1, bind, Except.bind, List.foldl_cons]
    exact h2

theorem arrayCount_ok (B : ByteBuffer) (o : Nat) (d : DeviceInfo) (m : CppString) (p : List Nat)
    (n : Nat) (rest : List Byte) (h : Cur B o (writeUnalignBigEndian16 n ++ rest))
    (hn : n < 65536) :
    arrayCount B ⟨o, o, d, m, p⟩ = .ok (⟨o + 2, o + 2, d, m, p⟩, n) ∧ Cur B (o + 2) rest := by
  have c1 : Cur B (o + 2) rest := cur_skip h rfl
  have hle := c1.2
  have k1 : ¬ B.length < o + 2 := by omega
  refine ⟨?_, c1⟩
  unfold arrayCount
  simp only [bind, Except.bind, pure, Except.pure]
  simp only [cur_u16 h hn, k1, if_false]

theorem scanIfBody_ok (B : ByteBuffer) (o : Nat) (d : DeviceInfo) (m : CppString) (p : List Nat)
    (i : ScanInterface) (rest : List Byte) (h : Cur B o (encodeScanInterface i ++ rest))
    (hfit : i.ifaceName.length < 65536) :
    ∃ o2, scanIfBody B ⟨o, o, d, m, p⟩ = .ok ⟨o2, o2, d, m, p⟩ ∧ Cur B o2 rest := by
  unfold encodeScanInterface at h
  rw [List.append_assoc] at h
  have c1 : Cur B (o + 2) (encodeString i.ifaceName ++ rest) := cur_skip h rfl
  obtain ⟨f1, -, c3⟩ := cur_string c1 hfit
  have hle := c3.2
  refine ⟨o + 2 + 2 + i.ifaceName.length, ?_, c3⟩
  have k1 : ¬ B.length < o + 2 := by omega
  have k2 : ¬ B.length < o + 2 + 2 := by omega
  have k3 : ¬ B.length < o + 2 + 2 + i.ifaceName.length := by omega
  unfold scanIfBody
  simp only [bind, Except.bind, pure, Except.pure]
  simp only [f1, k1, k2, k3, if_false]

theorem scanIf_loop_ok (B : ByteBuffer) (d : DeviceInfo) (m : CppString) (p : List Nat)
    (rest : List Byte) :
    ∀ (ifs : List ScanInterface) (o : Nat),
      Cur B o (ifs.flatMap encodeScanInterface ++ rest) →
      (∀ i, i ∈ ifs → i.ifaceName.length < 65536) →
      ∃ o2, loopN (scanIfBody B) ifs.length ⟨o, o, d, m, p⟩ = .ok ⟨o2, o2, d, m, p⟩ ∧
        Cur B o2 rest
  | [], o, h, _ => ⟨o, rfl, by simpa using h⟩
  | i :: ifs, o, h, hfit => by
    rw [List.flatMap_cons, List.append_assoc] at h
    obtain ⟨o1, h1, c1⟩ := scanIfBody_ok B o d m p i _ h (hfit i (List.mem_cons_self _ _))
    obtain ⟨o2, h2, c2⟩ := scanIf_loop_ok B d m p rest ifs o1 c1
      (fun x hx => hfit x (List.mem_cons_of_mem _ hx))
    refine ⟨o2, ?_, c2⟩
    simp only [List.length_cons, loopN, h1, bind, Except.bind]
    exact h2

theorem comSettingsBody_ok (B : ByteBuffer) (o : Nat) (d : DeviceInfo) (m : CppString)
    (p : List Nat) (e : Entry) (rest : List Byte) (h : Cur B o (encodeEntry e ++ rest))
    (hfit : e.Fits) (hwidth : e.ComSettingWidth) :
    ∃ o2, comSettingsBody B ⟨o, o, d, m, p⟩
        = .ok ⟨o2, o2, (applyComSetting (d, m) e).1, (applyComSetting (d, m) e).2, p⟩ ∧
      Cur B o2 rest := by
  obtain ⟨f1, f2, c2, c3, hle⟩ := cur_entry h hfit
  obtain ⟨wEMAC, wEIPa, wENMa, wEDGa, wEDhc, wECDu⟩ := hwidth
  have k1 : ¬ B.length < o + 4 := by omega
  have k2 : ¬ B.length < o + 4 + 2 := by omega
  have k3 : ¬ B.length < o + 4 + 2 + e.value.length := by omega
  unfold comSettingsBody applyComSetting
  simp only [bind, Except.bind, pure, Except.pure]
  simp only [f1, f2, k1, k2, k3, if_false]
  by_cases h1 : e.key = ascii "EMAC"
  · have hw := wEMAC h1
    rw [hw] at c3
    refine ⟨o + 4 + 2 + 6, ?_, c3⟩
    simp only [h1, if_true, cur_readMac c2 hw, hw]
  by_cases h2 : e.key = ascii "EIPa"
  · have hw := wEIPa h2
    rw [hw] at c3
    refine ⟨o + 4 + 2 + 4, ?_, c3⟩
    simp only [h1, if_false]
    simp only [h2, if_true, cur_readUnalignBigEndian c2 hw, hw]
  by_cases h3 : e.key = ascii "ENMa"
  · have hw := wENMa h3
    rw [hw] at c3
    refine ⟨o + 4 + 2 + 4, ?_, c3⟩
    simp only [h1, h2, if_false]
    simp only [h3, if_true, cur_readUnalignBigEndian c2 hw, hw]
  by_cases h4 : e.key = ascii "EDGa"
  · have hw := wEDGa h4
    rw [hw] at c3
    refine ⟨o + 4 + 2 + 4, ?_, c3⟩
    simp only [h1, h2, h3, if_false]
    simp only [h4, if_true, cur_readUnalignBigEndian c2 hw, hw]
  by_cases h5 : e.key = ascii "EDhc"
  · have hw := wEDhc h5
    rw [hw] at c3
    refine ⟨o + 4 + 2 + 1, ?_, c3⟩
    simp only [h1, h2, h3, h4, if_false]
    simp only [h5, if_true, cur_readUnalignBigEndian c2 hw, hw]
  by_cases h6 : e.key = ascii "ECDu"
  · have hw := wECDu h6
    rw [hw] at c3
    refine ⟨o + 4 + 2 + 4, ?_, c3⟩
    simp only [h1, h2, h3, h4, h5, if_false]
    simp only [h6, if_true, cur_readUnalignBigEndian c2 hw, hw]
  · refine ⟨o + 4 + 2 + e.value.length, ?_, c3⟩
    simp only [h1, h2, h3, h4, h5, h6, if_false]

theorem comSettings_loop_ok (B : ByteBuffer) (p : List Nat) (rest : List Byte) :
    ∀ (entries : List Entry) (o : Nat) (d : DeviceInfo) (m : CppString),
      Cur B o (entries.flatMap encodeEntry ++ rest) →
      (∀ e, e ∈ entries → e.Fits ∧ e.ComSettingWidth) →
      ∃ o2, loopN (comSettingsBody B) entries.length ⟨o, o, d, m, p⟩
          = .ok ⟨o2, o2, (entries.foldl applyComSetting (d, m)).1,
              (entries.foldl applyComSetting (d, m)).2, p⟩ ∧ Cur B o2 rest
  | [], o, d, m, h, _ => ⟨o, rfl, by simpa using h⟩
  | e :: entries, o, d, m, h, hfit => by
    rw [List.flatMap_cons, List.append_assoc] at h
    obtain ⟨hf, hw⟩ := hfit e (List.mem_cons_self _ _)
    obtain ⟨o1, h1, c1⟩ := comSettingsBody_ok B o d m p e _ h hf hw
    obtain ⟨o2, h2, c2⟩ := comSettings_loop_ok B p rest entries o1 _ _ c1
      (fun x hx => hfit x (List.mem_cons_of_mem _ hx))
    refine ⟨o2, ?_, c2⟩
    simp only [List.length_cons, loopN, h1, bind, Except.bind, List.foldl_cons]
    exact h2

theorem endPointEntryBody_ok (B : ByteBuffer) (o : Nat) (d : DeviceInfo) (m : CppString)
    (p : List Nat) (e : Entry) (rest : List Byte) (h : Cur B o (encodeEntry e ++ rest))
    (hfit : e.Fits) (hwidth : e.EndPointWidth) :
    ∃ o2, endPointEntryBody B ⟨o, o, d, m, p⟩ = .ok ⟨o2, o2, d, m, p ++ entryPorts [e]⟩ ∧
      Cur B o2 rest := by
  obtain ⟨f1, f2, c2, c3, hle⟩ := cur_entry h hfit
  have k1 : ¬ B.length < o + 4 := by omega
  have k2 : ¬ B.length < o + 4 + 2 := by omega
  have k3 : ¬ B.length < o + 4 + 2 + e.value.length := by omega
  unfold endPointEntryBody entryPorts
  simp only [bind, Except.bind, pure, Except.pure]
  simp only [f1, f2, k1, k2, k3, if_false]
  by_cases h1 : e.key = ascii "DPNo"
  · have hw := hwidth h1
    rw [hw] at c3
    refine ⟨o + 4 + 2 + 2, ?_, c3⟩
    simp only [h1, if_true, cur_readUnalignBigEndian c2 hw, hw, List.filterMap_cons,
      List.filterMap_nil]
  · refine ⟨o + 4 + 2 + e.value.length, ?_, c3⟩
    simp only [h1, if_false, List.filterMap_cons, List.filterMap_nil, List.append_nil]

theorem entryPorts_cons (e : Entry) (entries : List Entry) :
    entryPorts (e :: entries) = entryPorts [e] ++ entryPorts entries := by
  unfold entryPorts
  rw [← List.filterMap_append]
  rfl

theorem endPointEntry_loop_ok (B : ByteBuffer) (d : DeviceInfo) (m : CppString)
    (rest : List Byte) :
    ∀ (entries : List Entry) (o : Nat) (p : List Nat),
      Cur B o (entries.flatMap encodeEntry ++ rest) →
      (∀ e, e ∈ entries → e.Fits ∧ e.EndPointWidth) →
      ∃ o2, loopN (endPointEntryBody B) entries.length ⟨o, o, d, m, p⟩
          = .ok ⟨o2, o2, d, m, p ++ entryPorts entries⟩ ∧ Cur B o2 rest
  | [], o, p, h, _ => ⟨o, by simp [loopN, entryPorts, pure, Except.pure], by simpa using h⟩
  | e :: entries, o, p, h, hfit => by
    rw [List.flatMap_cons, List.append_assoc] at h
    obtain ⟨hf, hw⟩ := hfit e (List.mem_cons_self _ _)
    obtain ⟨o1, h1, c1⟩ := endPointEntryBody_ok B o d m p e _ h hf hw
    obtain ⟨o2, h2, c2⟩ := endPointEntry_loop_ok B d m rest entries o1 _ c1
      (fun x hx => hfit x (List.mem_cons_of_mem _ hx))
    refine ⟨o2, ?_, c2⟩
    simp only [List.length_cons, loopN, h1, bind, Except.bind]
    rw [h2, entryPorts_cons e entries, List.append_assoc]

theorem endPointBody_ok (B : ByteBuffer) (o : Nat) (d : DeviceInfo) (m : CppString)
    (p : List Nat) (ep : EndPoint) (rest : List Byte)
    (h : Cur B o (encodeEndPoint ep ++ rest)) (hn : ep.entries.length < 65536)
    (hfit : ∀ e, e ∈ ep.entries → e.Fits ∧ e.EndPointWidth) :
    ∃ o2, endPointBody B ⟨o, o, d, m, p⟩ = .ok ⟨o2, o2, d, m, p ++ entryPorts ep.entries⟩ ∧
      Cur B o2 rest := by
  unfold encodeEndPoint at h
  rw [List.append_assoc, List.append_assoc] at h
  have c1 : Cur B (o + 1) _ := cur_skip h rfl
  have f1 := cur_u16 c1 hn
  have c2 : Cur B (o + 1 + 2) _ := cur_skip c1 rfl
  obtain ⟨o2, h2, c3⟩ := endPointEntry_loop_ok B d m rest ep.entries (o + 1 + 2) p c2 hfit
  have hle := c2.2
  have k1 : ¬ B.length < o + 1 := by omega
  have k2 : ¬ B.length < o + 1 + 2 := by omega
  refine ⟨o2, ?_, c3⟩
  unfold endPointBody
  simp only [bind, Except.bind, pure, Except.pure]
  simp only [f1, k1, k2, if_false]
  exact h2

theorem endPoint_loop_ok (B : ByteBuffer) (d : DeviceInfo) (m : CppString) (rest : List Byte) :
    ∀ (eps : List EndPoint) (o : Nat) (p : List Nat),
      Cur B o (eps.flatMap encodeEndPoint ++ rest) →
      (∀ ep, ep ∈ eps → ep.entries.length < 65536 ∧
        ∀ e, e ∈ ep.entries → e.Fits ∧ e.EndPointWidth) →
      ∃ o2, loopN (endPointBody B) eps.length ⟨o, o, d, m, p⟩
          = .ok ⟨o2, o2, d, m, p ++ eps.flatMap (fun ep => entryPorts ep.entries)⟩ ∧
        Cur B o2 rest
  | [], o, p, h, _ => ⟨o, by simp [loopN, pure, Except.pure], by simpa using h⟩
  | ep :: eps, o, p, h, hfit => by
    rw [List.flatMap_cons, List.append_assoc] at h
    obtain ⟨hn, hf⟩ := hfit ep (List.mem_cons_self _ _)
    obtain ⟨o1, h1, c1⟩ := endPointBody_ok B o d m p ep _ h hn hf
    obtain ⟨o2, h2, c2⟩ := endPoint_loop_ok B d m rest eps o1 _ c1
      (fun x hx => hfit x (List.mem_cons_of_mem _ hx))
    refine ⟨o2, ?_, c2⟩
    simp only [List.length_cons, loopN, h1, bind, Except.bind]
    rw [h2, List.flatMap_cons, List.append_assoc]

theorem entryPorts_ne_nil (eps : List EndPoint)
    (h : ∃ p, p ∈ eps ∧ ∃ e, e ∈ p.entries ∧ e.key = ascii "DPNo") :
    eps.flatMap (fun ep => entryPorts ep.entries) ≠ [] := by
  obtain ⟨p, hp, e, he, hk⟩ := h
  intro hnil
  have hmem : beValue e.value ∈ eps.flatMap (fun ep => entryPorts ep.entries) := by
    rw [List.mem_flatMap]
    refine ⟨p, hp, ?_⟩
    unfold entryPorts
    rw [List.mem_filterMap]
    exact ⟨e, he, by simp [hk]⟩
  rw [hnil] at hmem
  exact List.not_mem_nil _ hmem

/-- The decoder on the reference encoding of a well-formed report passes every
length check, meets no fault and returns the reference decoding. -/
theorem parseAutoIPBinary_referenceEncode (r : Report) (hwf : WellFormed r) :
    parseAutoIPBinary (referenceEncode r) = .ok (decodeReference r) := by
  obtain ⟨hH, hF, hcid, hdn, happ, hproj, hsn, htc, hfw, hord, hauxN, haux, hifN, hif, hcsN, hcs,
    hepN, hep, hport⟩ := hwf
  have c00 : Cur (referenceEncode r) 0 (r.frameHeader ++ _) := cur_zero (referenceEncode r)
  have c0 : Cur (referenceEncode r) 16 _ := cur_skip c00 (by rw [hH])
  obtain ⟨o0, e0, c1⟩ := parseHeader_ok (referenceEncode r) _ r.cidName r.cidVersion
    r.deviceName r.appName r.projName r.serialNumber r.typeCode r.firmwareVersion r.orderNumber
    _ r.flags r.aux.length c0 (length_writeUnalignBigEndian16 _) hF hcid hdn happ hproj hsn htc
    hfw hord hauxN
  have e0b : parseHeader (referenceEncode r)
      = .ok (⟨o0, o0, headerInfo r, [], []⟩, r.aux.length) := e0
  obtain ⟨o1, e1, c2⟩ := aux_loop_ok (referenceEncode r) [] [] _ r.aux o0 (headerInfo r) c1 haux
  obtain ⟨e2, c3⟩ := arrayCount_ok (referenceEncode r) o1 (r.aux.foldl applyAux (headerInfo r))
    [] [] _ _ c2 hifN
  obtain ⟨o3, e3, c4⟩ := scanIf_loop_ok (referenceEncode r)
    (r.aux.foldl applyAux (headerInfo r)) [] [] _ r.scanIfs (o1 + 2) c3 hif
  obtain ⟨e4, c5⟩ := arrayCount_ok (referenceEncode r) o3 (r.aux.foldl applyAux (headerInfo r))
    [] [] _ _ c4 hcsN
  obtain ⟨o5, e5, c6⟩ := comSettings_loop_ok (referenceEncode r) [] _ r.comSettings (o3 + 2)
    (r.aux.foldl applyAux (headerInfo r)) [] c5 hcs
  obtain ⟨e6, c7⟩ := arrayCount_ok (referenceEncode r) o5 (comSettingsInfo r).1
    (comSettingsInfo r).2 [] _ _ c6 hepN
  have c8 : Cur (referenceEncode r) (o5 + 2) (r.endPoints.flatMap encodeEndPoint ++ []) := by
    rw [List.append_nil]; exact c7
  obtain ⟨o7, e7, -⟩ := endPoint_loop_ok (referenceEncode r) (comSettingsInfo r).1
    (comSettingsInfo r).2 [] r.endPoints (o5 + 2) [] c8 hep
  have e5b : loopN (comSettingsBody (referenceEncode r)) r.comSettings.length
      ⟨o3 + 2, o3 + 2, r.aux.foldl applyAux (headerInfo r), [], []⟩
      = .ok ⟨o5, o5, (comSettingsInfo r).1, (comSettingsInfo r).2, []⟩ := e5
  have hne := entryPorts_ne_nil r.endPoints hport
  unfold parseAutoIPBinary parseBody parseArrays parseToComSettings
  simp only [e0b, e1, e2, e3, e4, e5b, e6, e7, bind, Except.bind, finish, List.nil_append]
  cases hports : r.endPoints.flatMap (fun ep => entryPorts ep.entries) with
  | nil => exact absurd hports hne
  | cons port ports =>
    simp only [pure, Except.pure, decodeReference, hports, List.head?_cons]

/-! ## Decoding undoes the reference encoding -/

theorem foldl_applyAux_keeps {α : Type} (f : DeviceInfo → α)
    (hf : ∀ d e, f (applyAux d e) = f d) :
    ∀ (entries : List Entry) (d : DeviceInfo), f (entries.foldl applyAux d) = f d
  | [], _ => rfl
  | e :: entries, d => by
    rw [List.foldl_cons, foldl_applyAux_keeps f hf entries, hf]

theorem foldl_applyComSetting_keeps {α : Type} (f : DeviceInfo → α) (P : Entry → Prop)
    (hf : ∀ st e, P e → f (applyComSetting st e).1 = f st.1) :
    ∀ (entries : List Entry) (st : DeviceInfo × CppString), (∀ e, e ∈ entries → P e) →
      f (entries.foldl applyComSetting st).1 = f st.1
  | [], _, _ => rfl
  | e :: entries, st, h => by
    rw [List.foldl_cons, foldl_applyComSetting_keeps f P hf entries _
      (fun x hx => h x (List.mem_cons_of_mem _ hx)), hf st e (h e (List.mem_cons_self _ _))]

theorem applyAux_ident (d : DeviceInfo) (e : Entry) :
    (applyAux d e).deviceIdent = d.deviceIdent ∧ (applyAux d e).serialNumber = d.serialNumber ∧
      (applyAux d e).orderNumber = d.orderNumber ∧ (applyAux d e).colaVersion = d.colaVersion := by
  unfold applyAux
  split <;> exact ⟨rfl, rfl, rfl, rfl⟩

theorem applyComSetting_ident (st : DeviceInfo × CppString) (e : Entry) :
    (applyComSetting st e).1.deviceIdent = st.1.deviceIdent ∧
      (applyComSetting st e).1.serialNumber = st.1.serialNumber ∧
      (applyComSetting st e).1.orderNumber = st.1.orderNumber ∧
      (applyComSetting st e).1.colaVersion = st.1.colaVersion := by
  unfold applyComSetting
  split_ifs <;> exact ⟨rfl, rfl, rfl, rfl⟩

/-- C16: for every well-formed report, `parseAutoIPBinary` on its
reference encoding (format version, identifier string, 14 fixed bytes, device
name, app name, project name, serial number, type code, firmware version,
order number, flag byte and the four arrays, every string with a 16-bit
big-endian length in front) returns deviceIdent equal to the identifier string,
serialNumber equal to the serial-number string and orderNumber equal to the
order-number string, with colaVersion COLA_2. -/
theorem decode_identity_fields (r : Report) (hwf : WellFormed r) :
    ∃ d, parseAutoIPBinary (referenceEncode r) = .ok d ∧ d.deviceIdent = r.cidName ∧
      d.serialNumber = r.serialNumber ∧ d.orderNumber = r.orderNumber ∧
      d.colaVersion = .COLA_2 := by
  refine ⟨decodeReference r, parseAutoIPBinary_referenceEncode r hwf, ?_, ?_, ?_, ?_⟩
  · show (comSettingsInfo r).1.deviceIdent = _
    unfold comSettingsInfo
    rw [foldl_applyComSetting_keeps DeviceInfo.deviceIdent (fun _ => True)
        (fun st e _ => (applyComSetting_ident st e).1) _ _ (fun _ _ => trivial),
      foldl_applyAux_keeps DeviceInfo.deviceIdent (fun d e => (applyAux_ident d e).1)]
    rfl
  · show (comSettingsInfo r).1.serialNumber = _
    unfold comSettingsInfo
    rw [foldl_applyComSetting_keeps DeviceInfo.serialNumber (fun _ => True)
        (fun st e _ => (applyComSetting_ident st e).2.1) _ _ (fun _ _ => trivial),
      foldl_applyAux_keeps DeviceInfo.serialNumber (fun d e => (applyAux_ident d e).2.1)]
    rfl
  · show (comSettingsInfo r).1.orderNumber = _
    unfold comSettingsInfo
    rw [foldl_applyComSetting_keeps DeviceInfo.orderNumber (fun _ => True)
        (fun st e _ => (applyComSetting_ident st e).2.2.1) _ _ (fun _ _ => trivial),
      foldl_applyAux_keeps DeviceInfo.orderNumber (fun d e => (applyAux_ident d e).2.2.1)]
    rfl
  · show (comSettingsInfo r).1.colaVersion = _
    unfold comSettingsInfo
    rw [foldl_applyComSetting_keeps DeviceInfo.colaVersion (fun _ => True)
        (fun st e _ => (applyComSetting_ident st e).2.2.2) _ _ (fun _ _ => trivial),
      foldl_applyAux_keeps DeviceInfo.colaVersion (fun d e => (applyAux_ident d e).2.2.2)]
    rfl

set_option maxRecDepth 65536 in
/-- C16 applies to `sampleDeviceReport`, which is well-formed and decodes to
`sampleDeviceInfo`. -/
theorem decode_identity_fields_witness :
    WellFormed sampleDeviceReport ∧
    parseAutoIPBinary (referenceEncode sampleDeviceReport) = .ok sampleDeviceInfo ∧
    ∃ d, parseAutoIPBinary (referenceEncode sampleDeviceReport) = .ok d ∧
      d.deviceIdent = ascii "Visionary-T" ∧ d.serialNumber = ascii "12345678" ∧
      d.orderNumber = ascii "1067745" ∧ d.colaVersion = .COLA_2 :=
  ⟨by decide, rfl, decode_identity_fields sampleDeviceReport (by decide)⟩

theorem addr2string_beValue (a b c d : Byte) :
    addr2string (beValue [a, b, c, d]) = dottedQuad a b c d := by
  have ha := a.isLt
  have hb := b.isLt
  have hc := c.isLt
  have hd := d.isLt
  have h1 : beValue [a, b, c, d] / 2 ^ 24 % 256 = a.val := by
    simp only [beValue, List.foldl_cons, List.foldl_nil]
    omega
  have h2 : beValue [a, b, c, d] / 2 ^ 16 % 256 = b.val := by
    simp only [beValue, List.foldl_cons, List.foldl_nil]
    omega
  have h3 : beValue [a, b, c, d] / 2 ^ 8 % 256 = c.val := by
    simp only [beValue, List.foldl_cons, List.foldl_nil]
    omega
  have h4 : beValue [a, b, c, d] % 256 = d.val := by
    simp only [beValue, List.foldl_cons, List.foldl_nil]
    omega
  unfold addr2string dottedQuad
  rw [h1, h2, h3, h4]

theorem applyComSetting_other (st : DeviceInfo × CppString) (e : Entry) :
    (e.key ≠ ascii "EIPa" → (applyComSetting st e).1.ipAddress = st.1.ipAddress) ∧
    (e.key ≠ ascii "ENMa" → (applyComSetting st e).1.networkMask = st.1.networkMask) ∧
    (e.key ≠ ascii "EDGa" → (applyComSetting st e).1.gateway = st.1.gateway) := by
  unfold applyComSetting
  refine ⟨fun h => ?_, fun h => ?_, fun h => ?_⟩ <;> split_ifs <;> rfl

theorem applyComSetting_address (st : DeviceInfo × CppString) (key : CppString)
    (a b c d : Byte) :
    (key = ascii "EIPa" →
      (applyComSetting st ⟨key, [a, b, c, d]⟩).1.ipAddress = dottedQuad a b c d) ∧
    (key = ascii "ENMa" →
      (applyComSetting st ⟨key, [a, b, c, d]⟩).1.networkMask = dottedQuad a b c d) ∧
    (key = ascii "EDGa" →
      (applyComSetting st ⟨key, [a, b, c, d]⟩).1.gateway = dottedQuad a b c d) := by
  refine ⟨fun h => ?_, fun h => ?_, fun h => ?_⟩
  · subst h
    simp only [applyComSetting, show ascii "EIPa" ≠ ascii "EMAC" by decide, if_false, if_true,
      addr2string_beValue]
  · subst h
    simp only [applyComSetting, show ascii "ENMa" ≠ ascii "EMAC" by decide,
      show ascii "ENMa" ≠ ascii "EIPa" by decide, if_false, if_true, addr2string_beValue]
  · subst h
    simp only [applyComSetting, show ascii "EDGa" ≠ ascii "EMAC" by decide,
      show ascii "EDGa" ≠ ascii "EIPa" by decide, show ascii "EDGa" ≠ ascii "ENMa" by decide,
      if_false, if_true, addr2string_beValue]

/-- C17: for every four bytes `a`, `b`, `c`, `d` carried as the value of
the last `EIPa`, `ENMa` or `EDGa` entry of the communication settings of a
well-formed report, the decoded ipAddress, networkMask or gateway is the
dotted-decimal string `a.b.c.d`, first wire byte first. -/
theorem decode_address_fields (r : Report) (hwf : WellFormed r) (before after : List Entry)
    (key : CppString) (a b c d : Byte)
    (hsplit : r.comSettings = before ++ ⟨key, [a, b, c, d]⟩ :: after)
    (hlast : ∀ e, e ∈ after → e.key ≠ key) :
    ∃ info, parseAutoIPBinary (referenceEncode r) = .ok info ∧
      (key = ascii "EIPa" → info.ipAddress = dottedQuad a b c d) ∧
      (key = ascii "ENMa" → info.networkMask = dottedQuad a b c d) ∧
      (key = ascii "EDGa" → info.gateway = dottedQuad a b c d) := by
  refine ⟨decodeReference r, parseAutoIPBinary_referenceEncode r hwf, fun h => ?_, fun h => ?_,
    fun h => ?_⟩
  · show (comSettingsInfo r).1.ipAddress = _
    unfold comSettingsInfo
    rw [hsplit, List.foldl_append, List.foldl_cons,
      foldl_applyComSetting_keeps DeviceInfo.ipAddress (fun e => e.key ≠ ascii "EIPa")
        (fun st e he => (applyComSetting_other st e).1 he) _ _ (fun e he => h ▸ hlast e he)]
    exact (applyComSetting_address _ key a b c d).1 h
  · show (comSettingsInfo r).1.networkMask = _
    unfold comSettingsInfo
    rw [hsplit, List.foldl_append, List.foldl_cons,
      foldl_applyComSetting_keeps DeviceInfo.networkMask (fun e => e.key ≠ ascii "ENMa")
        (fun st e he => (applyComSetting_other st e).2.1 he) _ _ (fun e he => h ▸ hlast e he)]
    exact (applyComSetting_address _ key a b c d).2.1 h
  · show (comSettingsInfo r).1.gateway = _
    unfold comSettingsInfo
    rw [hsplit, List.foldl_append, List.foldl_cons,
      foldl_applyComSetting_keeps DeviceInfo.gateway (fun e => e.key ≠ ascii "EDGa")
        (fun st e he => (applyComSetting_other st e).2.2 he) _ _ (fun e he => h ▸ hlast e he)]
    exact (applyComSetting_address _ key a b c d).2.2 h

set_option maxRecDepth 65536 in
/-- C17 applies to the `EIPa` entry of `sampleDeviceReport` with the bytes
C0 A8 01 0A; its `ENMa` entry carries FF FF FF 00. -/
theorem decode_address_fields_witness :
    WellFormed sampleDeviceReport ∧
    dottedQuad 0xC0 0xA8 0x01 0x0A = ascii "192.168.1.10" ∧
    dottedQuad 0xFF 0xFF 0xFF 0x00 = ascii "255.255.255.0" ∧
    (parseAutoIPBinary (referenceEncode sampleDeviceReport)).toOption.map
      (fun info => (info.ipAddress, info.networkMask))
      = some (ascii "192.168.1.10", ascii "255.255.255.0") ∧
    ∃ info, parseAutoIPBinary (referenceEncode sampleDeviceReport) = .ok info ∧
      (ascii "EIPa" = ascii "EIPa" → info.ipAddress = dottedQuad 0xC0 0xA8 0x01 0x0A) ∧
      (ascii "EIPa" = ascii "ENMa" → info.networkMask = dottedQuad 0xC0 0xA8 0x01 0x0A) ∧
      (ascii "EIPa" = ascii "EDGa" → info.gateway = dottedQuad 0xC0 0xA8 0x01 0x0A) :=
  ⟨by decide, by decide, by decide, rfl,
    decode_address_fields sampleDeviceReport (by decide)
      [⟨ascii "EMAC", [0x00, 0x06, 0x77, 0x01, 0x02, 0xab]⟩]
      [⟨ascii "ENMa", [0xFF, 0xFF, 0xFF, 0x00]⟩, ⟨ascii "EDGa", [0xC0, 0xA8, 0x01, 0x01]⟩,
        ⟨ascii "EDhc", [0]⟩, ⟨ascii "ECDu", [0, 0, 0, 5]⟩]
      (ascii "EIPa") 0xC0 0xA8 0x01 0x0A rfl (by decide)⟩

/-! ## Product type names -/

theorem kVisionaryS_ne_kVisionaryTMini : kVisionaryS ≠ kVisionaryTMini := by decide

/-- C25: `VisionaryType::fromString` throws `std::invalid_argument` if and only if
its argument is not one of the names that `getNames()` returns, which are
"Visionary-S" and "Visionary-T_Mini"; the comparison is exact and
case-sensitive: a name in lower case, in upper case, with a blank behind it or
cut short is rejected. -/
theorem fromString_throws_iff (typestring : CppString) :
    (VisionaryType.fromString typestring = none ↔ typestring ∉ VisionaryType.getNames) ∧
    VisionaryType.getNames = [ascii "Visionary-S", ascii "Visionary-T_Mini"] ∧
    VisionaryType.fromString (ascii "visionary-s") = none ∧
    VisionaryType.fromString (ascii "VISIONARY-S") = none ∧
    VisionaryType.fromString (ascii "Visionary-S ") = none ∧
    VisionaryType.fromString (ascii "Visionary-T") = none ∧
    VisionaryType.fromString (ascii "Visionary-T_mini") = none := by
  refine ⟨?_, rfl, by decide, by decide, by decide, by decide, by decide⟩
  unfold VisionaryType.fromString VisionaryType.getNames
  by_cases h1 : typestring = kVisionaryS
  · simp [h1, VisionaryType.new]
  · by_cases h2 : typestring = kVisionaryTMini
    · simp [h2, VisionaryType.new, kVisionaryS_ne_kVisionaryTMini.symm]
    · simp [h1, h2]

/-- C26: the string conversion is a bijection between the product types and
`getNames()`: for every constructed type `t`, `fromString(t.toString())` is `t`
and `t.toString()` is a name of `getNames()` and not the empty string; for
every name `s` of `getNames()`, `fromString(s)` is a type whose `toString()` is
`s`. -/
theorem fromString_toString (type : Nat) (t : VisionaryType)
    (h : VisionaryType.new type = some t) :
    VisionaryType.fromString t.toString = some t ∧
    t.toString ∈ VisionaryType.getNames ∧ t.toString ≠ [] ∧
    (∀ s, s ∈ VisionaryType.getNames →
      ∃ u, VisionaryType.fromString s = some u ∧ u.toString = s) ∧
    (∀ u1 u2 e1 e2, VisionaryType.new e1 = some u1 → VisionaryType.new e2 = some u2 →
      u1.toString = u2.toString → u1 = u2) := by
  have hnew : ∀ e u, VisionaryType.new e = some u →
      u = ⟨eVisionaryS⟩ ∨ u = ⟨eVisionaryTMini⟩ := by
    intro e u hu
    unfold VisionaryType.new at hu
    split at hu
    · rename_i hc
      simp only [Option.some.injEq] at hu
      rcases hc with hc | hc
      · left; rw [← hu, hc]
      · right; rw [← hu, hc]
    · exact absurd hu (by simp)
  refine ⟨?_, ?_, ?_, ?_, ?_⟩
  · rcases hnew type t h with ht | ht <;> subst ht <;> decide
  · rcases hnew type t h with ht | ht <;> subst ht <;> decide
  · rcases hnew type t h with ht | ht <;> subst ht <;> decide
  · intro s hs
    simp only [VisionaryType.getNames, List.mem_cons, List.mem_singleton, List.not_mem_nil,
      or_false] at hs
    rcases hs with hs | hs
    · exact ⟨⟨eVisionaryS⟩, by subst hs; decide, by subst hs; decide⟩
    · exact ⟨⟨eVisionaryTMini⟩, by subst hs; decide, by subst hs; decide⟩
  · intro u1 u2 e1 e2 h1 h2 heq
    rcases hnew e1 u1 h1 with a | a <;> rcases hnew e2 u2 h2 with b | b <;> subst a <;> subst b
    · rfl
    · exact absurd heq (by decide)
    · exact absurd heq (by decide)
    · rfl

/-- C26 applies to the type constructed from `eVisionaryTMini`. -/
theorem fromString_toString_witness :
    VisionaryType.new eVisionaryTMini = some ⟨eVisionaryTMini⟩ ∧
    VisionaryType.toString ⟨eVisionaryTMini⟩ = ascii "Visionary-T_Mini" ∧
    VisionaryType.fromString (VisionaryType.toString ⟨eVisionaryTMini⟩)
      = some ⟨eVisionaryTMini⟩ :=
  ⟨rfl, by decide, (fromString_toString eVisionaryTMini ⟨eVisionaryTMini⟩ rfl).1⟩

/-! ## The length check of XML replies -/

/-- A pass of the receive loop over a `0x90` reply is decided by the text it
hands to the XML decoder. -/
theorem scanStep_xml (readXml : CppString → Option PTree) (c : Nat) (st : ScanState)
    (buf : ByteBuffer) (hhead : buf.head? = some 0x90) :
    scanStep readXml c st buf
      = .ok (match (xmlDecodeInput c buf).bind (fun text => (readXml text).bind parseAutoIPXml)
          with
          | some dI => insertDevice st dI
          | none => st) := by
  have h95 : ¬ buf.head? = some kRplNetscan := by
    rw [hhead]; decide
  have h90 : buf.head? = some kRplScanColaB := hhead
  have hne : ¬ (some kRplScanColaB = some kRplNetscan) := by decide
  unfold scanStep xmlDecodeInput
  by_cases hlen : buf.length > 16
  · by_cases hid : beValue ((buf.drop 10).take 4) = c
    · by_cases hl : buf.length ≥ 16 + beValue ((buf.drop 2).take 2)
      · simp only [hlen, h95, h90, hne, hid, hl, if_true, if_false, ne_eq, not_true_eq_false,
          Option.some_bind, Option.none_bind]
        cases (readXml ((buf.drop 16).take (beValue ((buf.drop 2).take 2)))).bind
          parseAutoIPXml <;> rfl
      · simp only [hlen, h95, h90, hne, hid, hl, if_true, if_false, ne_eq, not_true_eq_false,
          Option.some_bind, Option.none_bind]
    · simp only [hlen, h95, h90, hne, hid, if_true, if_false, ne_eq, not_false_eq_true, Option.some_bind, Option.none_bind]
  · simp only [hlen, if_false, Option.some_bind, Option.none_bind]

/-- C30: for every `0x90` reply with the correlation id of the session whose length
is smaller than 16 plus the payload length declared at bytes [2:4], `scan`
hands nothing to the XML decoder and leaves the result list and the set of seen
MAC addresses unchanged, whatever `read_xml` would make of any text; when a
text is handed to the decoder, it is exactly the bytes [16, 16 + declared
length) of the datagram, as many as declared, and they lie inside it. -/
theorem scan_xml_length_check (readXml : CppString → Option PTree) (c : Nat) (st : ScanState)
    (buf : ByteBuffer) (hhead : buf.head? = some 0x90) (hid : telegramIdOf buf = c) :
    (buf.length < 16 + beValue ((buf.drop 2).take 2) →
      xmlDecodeInput c buf = none ∧ scanStep readXml c st buf = .ok st) ∧
    (∀ text, xmlDecodeInput c buf = some text →
      text = (buf.drop 16).take (beValue ((buf.drop 2).take 2)) ∧
      text.length = beValue ((buf.drop 2).take 2) ∧
      16 + beValue ((buf.drop 2).take 2) ≤ buf.length ∧
      buf = buf.take 16 ++ text ++ buf.drop (16 + beValue ((buf.drop 2).take 2)) ∧
      scanStep readXml c st buf
        = .ok (match (readXml text).bind parseAutoIPXml with
            | some dI => insertDevice st dI
            | none => st)) := by
  have h95 : ¬ buf.head? = some kRplNetscan := by
    rw [hhead]; decide
  have h90 : buf.head? = some kRplScanColaB := hhead
  have hne : ¬ (some kRplScanColaB = some kRplNetscan) := by decide
  have hid2 : beValue ((buf.drop 10).take 4) = c := hid
  constructor
  · intro hshort
    have hl : ¬ buf.length ≥ 16 + beValue ((buf.drop 2).take 2) := by omega
    have hnone : xmlDecodeInput c buf = none := by
      unfold xmlDecodeInput
      by_cases hlen : buf.length > 16
      · simp only [hlen, h95, h90, hne, hid2, hl, if_true, if_false, ne_eq, not_true_eq_false]
      · simp only [hlen, if_false]
    refine ⟨hnone, ?_⟩
    rw [scanStep_xml readXml c st buf hhead, hnone]
    rfl
  · intro text htext
    have hstep := scanStep_xml readXml c st buf hhead
    rw [htext] at hstep
    unfold xmlDecodeInput at htext
    by_cases hlen : buf.length > 16
    · by_cases hl : buf.length ≥ 16 + beValue ((buf.drop 2).take 2)
      · simp only [hlen, h95, h90, hne, hid2, hl, if_true, if_false, ne_eq, not_true_eq_false,
          Option.some.injEq] at htext
        have hle : 16 + beValue ((buf.drop 2).take 2) ≤ buf.length := hl
        refine ⟨htext.symm, ?_, hle, ?_, hstep⟩
        · rw [← htext, List.length_take, List.length_drop]
          omega
        · rw [← htext, List.append_assoc, ← List.drop_drop, List.take_append_drop,
            List.take_append_drop]
      · simp only [hlen, h95, h90, hne, hid2, hl, if_true, if_false, ne_eq, not_true_eq_false] at htext
        exact absurd htext (by simp)
    · simp only [hlen, if_false] at htext
      exact absurd htext (by simp)

/-- C30 applies to the reply that carries `badPortDocument`: whole, its 96 payload
bytes reach the decoder; cut to 50 bytes, nothing does. -/
theorem scan_xml_length_check_witness :
    (xmlReply 1 badPortDocument).length = 112 ∧
    xmlDecodeInput 1 (xmlReply 1 badPortDocument) = some badPortDocument ∧
    (((xmlReply 1 badPortDocument).take 50).length
        < 16 + beValue ((((xmlReply 1 badPortDocument).take 50).drop 2).take 2) →
      xmlDecodeInput 1 ((xmlReply 1 badPortDocument).take 50) = none ∧
      scanStep readXmlBadPort 1 ⟨[], []⟩ ((xmlReply 1 badPortDocument).take 50)
        = .ok ⟨[], []⟩) :=
  ⟨by decide, by decide,
    (scan_xml_length_check readXmlBadPort 1 ⟨[], []⟩ ((xmlReply 1 badPortDocument).take 50)
      (by decide) (by decide)).1⟩

/-! ## Failing XML decodes -/

theorem xmlItem_none_of_missing (d : DeviceInfo) (second : PTree)
    (h : second.get [ascii "<xmlattr>", ascii "key"] = none ∨
      second.get [ascii "<xmlattr>", ascii "value"] = none) : xmlItem d second = none := by
  unfold xmlItem
  rcases h with h | h
  · simp only [h, bind, Option.bind]
  · cases hk : second.get [ascii "<xmlattr>", ascii "key"] with
    | none => simp only [bind, Option.bind]
    | some k => simp only [h, bind, Option.bind]

/-- A child without `key` or `value` makes the loop over the children throw. -/
theorem xmlItems_none_of_itemsOf_none : ∀ (children : List (CppString × PTree))
    (d : DeviceInfo), itemsOf children = none → xmlItems d children = none
  | [], d, h => by simp [itemsOf] at h
  | (first, second) :: rest, d, h => by
    simp only [itemsOf] at h
    simp only [xmlItems]
    by_cases hf : first = ascii "<xmlattr>"
    · simp only [hf, ne_eq, not_true_eq_false, if_false] at h ⊢
      exact xmlItems_none_of_itemsOf_none rest d h
    · simp only [ne_eq, hf, not_false_eq_true, if_true] at h ⊢
      cases hx : xmlItem d second with
      | none => rfl
      | some d1 =>
        show xmlItems d1 rest = none
        cases hr : itemsOf rest with
        | none => exact xmlItems_none_of_itemsOf_none rest d1 hr
        | some items1 =>
          cases hk : second.get [ascii "<xmlattr>", ascii "key"] with
          | none => rw [xmlItem_none_of_missing d second (Or.inl hk)] at hx; cases hx
          | some k =>
            cases hv : second.get [ascii "<xmlattr>", ascii "value"] with
            | none => rw [xmlItem_none_of_missing d second (Or.inr hv)] at hx; cases hx
            | some v => simp [hk, hv, hr] at h

/-- A value of `HostPortNo` or `IPConfigDuration` that `std::stoi` does not read
makes the loop over the children throw. -/
theorem xmlItems_none_of_unreadable : ∀ (children : List (CppString × PTree))
    (d : DeviceInfo) (items : List (CppString × CppString)), itemsOf children = some items →
    ¬ NumbersReadable items → xmlItems d children = none
  | [], d, items, h, hn => by
    simp only [itemsOf, Option.some.injEq] at h
    subst h
    exact absurd (fun kv hkv => absurd hkv (List.not_mem_nil kv)) hn
  | (first, second) :: rest, d, items, h, hn => by
    simp only [itemsOf] at h
    simp only [xmlItems]
    by_cases hf : first = ascii "<xmlattr>"
    · simp only [hf, ne_eq, not_true_eq_false, if_false] at h ⊢
      exact xmlItems_none_of_unreadable rest d items h hn
    · simp only [ne_eq, hf, not_false_eq_true, if_true] at h ⊢
      cases hk : second.get [ascii "<xmlattr>", ascii "key"] with
      | none => simp [hk] at h
      | some k =>
        cases hv : second.get [ascii "<xmlattr>", ascii "value"] with
        | none => simp [hk, hv] at h
        | some v =>
          cases hr : itemsOf rest with
          | none => simp [hk, hv, hr] at h
          | some items1 =>
            simp only [hk, hv, hr, Option.some.injEq] at h
            subst h
            rw [xmlItem_overlay d second k v hk hv]
            by_cases hbad : (k = ascii "HostPortNo" ∨ k = ascii "IPConfigDuration")
                ∧ stoi v = none
            · simp only [hbad, and_self, if_true]
            · simp only [hbad, if_false]
              refine xmlItems_none_of_unreadable rest _ items1 hr (fun hn1 => hn ?_)
              intro kv hkv hkey
              rcases List.mem_cons.mp hkv with heq | hmem
              · subst heq
                cases hs : stoi v with
                | none => exact absurd ⟨hkey, hs⟩ hbad
                | some n => rfl
              · exact hn1 kv hmem hkey

/-- Each of the listed failures makes the decode of the payload throw. -/
theorem decode_none_of_fails (readXml : CppString → Option PTree) (payload : CppString)
    (h : XmlDecodeFails readXml payload) : (readXml payload).bind parseAutoIPXml = none := by
  unfold XmlDecodeFails at h
  cases hr : readXml payload with
  | none => rfl
  | some tree =>
    rw [hr] at h
    show parseAutoIPXml tree = none
    unfold parseAutoIPXml
    cases hm : tree.get_child [ascii "NetScanResult", ascii "<xmlattr>", ascii "MACAddr"] with
    | none => rfl
    | some macNode =>
      rcases h with h | h
      · rw [hm] at h; cases h
      · cases hroot : tree.get_child [ascii "NetScanResult"] with
        | none => rfl
        | some root =>
          simp only [hroot] at h
          simp only [bind, Option.bind]
          cases hi : itemsOf root.children with
          | none => exact xmlItems_none_of_itemsOf_none _ _ hi
          | some items =>
            simp only [hi] at h
            exact xmlItems_none_of_unreadable _ _ items hi h

theorem xmlDecodeInput_some (c : Nat) (buf : ByteBuffer) (text : CppString)
    (h : xmlDecodeInput c buf = some text) : text = xmlPayloadOf buf := by
  unfold xmlDecodeInput at h
  unfold xmlPayloadOf
  have hne : ¬ (some kRplScanColaB = some kRplNetscan) := by decide
  by_cases hlen : buf.length > 16
  · by_cases h95 : buf.head? = some kRplNetscan
    · simp only [hlen, h95, if_true] at h
      exact absurd h (by simp)
    · by_cases h90 : buf.head? = some kRplScanColaB
      · by_cases hid : beValue ((buf.drop 10).take 4) = c
        · by_cases hl : buf.length ≥ 16 + beValue ((buf.drop 2).take 2)
          · simp only [hlen, h95, h90, hne, hid, hl, if_true, if_false, ne_eq, not_true_eq_false,
              Option.some.injEq] at h
            exact h.symm
          · simp only [hlen, h95, h90, hne, hid, hl, if_true, if_false, ne_eq,
              not_true_eq_false] at h
            exact absurd h (by simp)
        · simp only [hlen, h95, h90, hne, hid, if_true, if_false, ne_eq, not_false_eq_true] at h
          exact absurd h (by simp)
      · simp only [hlen, h95, h90, hne, if_true, if_false] at h
        exact absurd h (by simp)
  · simp only [hlen, if_false] at h
    exact absurd h (by simp)

/-- The reply that carries `badPortDocument` fails to decode: its `HostPortNo` is
not a number. -/
theorem badPortDocument_fails :
    XmlDecodeFails readXmlBadPort (xmlPayloadOf (xmlReply 1 badPortDocument)) := by
  unfold XmlDecodeFails
  rw [show xmlPayloadOf (xmlReply 1 badPortDocument) = badPortDocument by decide,
    show readXmlBadPort badPortDocument = some badPortTree from rfl]
  right
  show ¬ NumbersReadable [(ascii "HostPortNo", ascii "abc")]
  decide

/-- C22: for every `0x90` reply whose XML decode fails (unparsable document, missing
`MACAddr` attribute, a child without `key` or `value` attribute, or a
`HostPortNo` or `IPConfigDuration` that is not a number), with the correlation
id of the session or not, `scan` leaves both the result list and the set of
seen MAC addresses exactly as they were before the reply and continues with the
next datagram. -/
theorem scan_discards_failed_xml (readXml : CppString → Option PTree) (c : Nat)
    (st : ScanState) (buf : ByteBuffer) (rest : List ByteBuffer)
    (hhead : buf.head? = some 0x90) (hfail : XmlDecodeFails readXml (xmlPayloadOf buf)) :
    scanStep readXml c st buf = .ok st ∧
    scanLoop readXml c st (buf :: rest) = scanLoop readXml c st rest := by
  have hstep : scanStep readXml c st buf = .ok st := by
    rw [scanStep_xml readXml c st buf hhead]
    cases hx : xmlDecodeInput c buf with
    | none => rfl
    | some text =>
      have htext : text = xmlPayloadOf buf := xmlDecodeInput_some c buf text hx
      rw [Option.some_bind, htext, decode_none_of_fails readXml _ hfail]
  refine ⟨hstep, ?_⟩
  rw [scanLoop, hstep]

/-- C22 applies to the reply that carries `badPortDocument`, whose `HostPortNo` is
`abc`, in a session with the telegram id 1 that has already listed
`sampleInfo`. -/
theorem scan_discards_failed_xml_witness :
    xmlPayloadOf (xmlReply 1 badPortDocument) = badPortDocument ∧
    readXmlBadPort badPortDocument = some badPortTree ∧
    XmlDecodeFails readXmlBadPort (xmlPayloadOf (xmlReply 1 badPortDocument)) ∧
    scanStep readXmlBadPort 1 ⟨[sampleInfo.macAddress], [sampleInfo]⟩
        (xmlReply 1 badPortDocument) = .ok ⟨[sampleInfo.macAddress], [sampleInfo]⟩ :=
  ⟨by decide, rfl, badPortDocument_fails,
    (scan_discards_failed_xml readXmlBadPort 1 ⟨[sampleInfo.macAddress], [sampleInfo]⟩
      (xmlReply 1 badPortDocument) [] (by decide) badPortDocument_fails).1⟩

/-! ## The DHCP flag from request to report -/

theorem itemTree_key (key value : CppString) :
    (itemTree key value).get [ascii "<xmlattr>", ascii "key"] = some key := by
  simp [itemTree, PTree.get, PTree.get_child, PTree.find, PTree.children, PTree.data]

theorem itemTree_value (key value : CppString) :
    (itemTree key value).get [ascii "<xmlattr>", ascii "value"] = some value := by
  have hne : ascii "key" ≠ ascii "value" := by decide
  simp [itemTree, PTree.get, PTree.get_child, PTree.find, PTree.children, PTree.data,
    List.find?, hne]

theorem itemsOf_items : ∀ items : List (CppString × CppString),
    itemsOf (items.map (fun (kv : CppString × CppString) => (ascii "Item", itemTree kv.1 kv.2)))
      = some items
  | [] => rfl
  | kv :: items => by
    have hne : ascii "Item" ≠ ascii "<xmlattr>" := by decide
    simp only [List.map_cons, itemsOf, ne_eq, hne, not_false_eq_true, if_true, itemTree_key,
      itemTree_value, itemsOf_items items]

/-- The decoder on the tree of a report with readable numbers returns the
reference `DeviceInfo` of its pairs. -/
theorem parseAutoIPXml_netScanResultTree (macAddr : CppString)
    (items : List (CppString × CppString)) (hnum : NumbersReadable items) :
    parseAutoIPXml (netScanResultTree macAddr items) = some (xmlReference macAddr items) := by
  refine parseAutoIPXml_eq_reference _ (netScanResultRoot macAddr items) macAddr items ?_ ?_ ?_
    hnum
  · simp [netScanResultTree, netScanResultRoot, PTree.get, PTree.get_child, PTree.find,
      PTree.children, PTree.data, List.find?]
  · simp [netScanResultTree, PTree.get_child, PTree.find, PTree.children, List.find?]
  · have hx : ¬ (ascii "<xmlattr>" ≠ ascii "<xmlattr>") := by simp
    simp only [netScanResultRoot, PTree.children, itemsOf, hx, if_false]
    exact itemsOf_items items

theorem lastValue_append (key value : CppString) :
    ∀ (before after : List (CppString × CppString)),
      (∀ kv, kv ∈ after → kv.1 ≠ key) →
      lastValue (before ++ (key, value) :: after) key = some value
  | [], after, h => by
    have hafter : ∀ l : List (CppString × CppString), (∀ kv, kv ∈ l → kv.1 ≠ key) →
        lastValue l key = none := by
      intro l
      induction l with
      | nil => intro _; rfl
      | cons x l ih =>
        intro hl
        obtain ⟨k, v⟩ := x
        have hk : k ≠ key := hl (k, v) (List.mem_cons_self _ _)
        simp only [lastValue, ih (fun kv hkv => hl kv (List.mem_cons_of_mem _ hkv)), hk,
          if_false]
    simp only [List.nil_append, lastValue, hafter after h, if_true]
  | (k, v) :: before, after, h => by
    have ih := lastValue_append key value before after h
    show (match lastValue (before ++ (key, value) :: after) key with
      | some x => some x
      | none => if k = key then some v else none) = some value
    rw [ih]

/-- C21: for every boolean `d`, the payload that `assign` builds for `COLA_1` and
`dhcpEnable = d` ends in the element `DHCPClientEnabled` with the value "TRUE"
for true and "FALSE" for false, and that value, presented to `parseAutoIPXml` as
the value of the last `DHCPClientEnabled` item of a report with readable
numbers, yields `dhcpEnabled = d`. -/
theorem dhcp_flag_round_trip (d : Bool) (destinationMac ipAddr ipMask ipGateway : CppString)
    (macAddr : CppString) (before after : List (CppString × CppString))
    (hnum : NumbersReadable (before ++ after))
    (hlast : ∀ kv, kv ∈ after → kv.1 ≠ ascii "DHCPClientEnabled") :
    assignPayload destinationMac .COLA_1 ipAddr ipMask ipGateway d
      = ascii "<?xml version=\"1.0\" encoding=\"UTF-8\"?><IPconfig MACAddr=\"" ++ destinationMac
        ++ ascii "\"><Item key=\"IPAddress\" value=\"" ++ ipAddr
        ++ ascii "\" /><Item key=\"IPMask\" value=\"" ++ ipMask
        ++ ascii "\" /><Item key=\"IPGateway\" value=\"" ++ ipGateway
        ++ ascii "\" /><Item key=\"DHCPClientEnabled\" value=\"" ++ dhcpText d
        ++ ascii "\" /></IPconfig>" ∧
    dhcpText d = (if d then ascii "TRUE" else ascii "FALSE") ∧
    ∃ info,
      parseAutoIPXml (netScanResultTree macAddr
          (before ++ (ascii "DHCPClientEnabled", dhcpText d) :: after)) = some info ∧
      info.dhcpEnabled = some d := by
  refine ⟨rfl, rfl, _, parseAutoIPXml_netScanResultTree macAddr _ ?_, ?_⟩
  · intro kv hkv hkey
    rcases List.mem_append.mp hkv with hb | ha
    · exact hnum kv (List.mem_append_left _ hb) hkey
    · rcases List.mem_cons.mp ha with heq | ha2
      · subst heq
        rcases hkey with hk | hk
        · exact absurd hk (show ascii "DHCPClientEnabled" ≠ ascii "HostPortNo" by decide)
        · exact absurd hk (show ascii "DHCPClientEnabled" ≠ ascii "IPConfigDuration" by decide)
      · exact hnum kv (List.mem_append_right _ ha2) hkey
  · show ((lastValue _ (ascii "DHCPClientEnabled")).map _) = some d
    rw [lastValue_append _ _ before after hlast]
    cases d <;> decide

/-- C21 applies to a report with an address in front of the flag and a comment
behind it. -/
theorem dhcp_flag_round_trip_witness :
    NumbersReadable ([(ascii "IPAddress", ascii "192.168.1.10")] ++ [(ascii "Comment", ascii "x")]) ∧
    ∃ info,
      parseAutoIPXml (netScanResultTree sampleMac
          ([(ascii "IPAddress", ascii "192.168.1.10")]
            ++ (ascii "DHCPClientEnabled", dhcpText true) :: [(ascii "Comment", ascii "x")]))
        = some info ∧
      info.dhcpEnabled = some true :=
  ⟨by decide,
    (dhcp_flag_round_trip true sampleMac (ascii "192.168.1.10") (ascii "255.255.255.0")
      (ascii "0.0.0.0") sampleMac [(ascii "IPAddress", ascii "192.168.1.10")]
      [(ascii "Comment", ascii "x")] (by decide) (by decide)).2.2⟩

/-! ## The inert link -/

theorem write_of_no_socket (link : NetLink) (h : link.socket = false) (sendResult : Int)
    (buffer : ByteBuffer) : link.write sendResult buffer = (0, []) := by
  simp [NetLink.write, h]

theorem read_of_no_socket (link : NetLink) (h : link.socket = false)
    (onSocket onRxsock : Option ByteBuffer) (buffer : ByteBuffer) :
    link.read onSocket onRxsock buffer = (-1, buffer) := by
  simp [NetLink.read, h]

theorem received_of_no_socket (link : NetLink) (h : link.socket = false) :
    ∀ pending : List (Option ByteBuffer × Option ByteBuffer), link.received pending = []
  | [] => rfl
  | p :: pending => by
    have ih := received_of_no_socket link h pending
    have hp : (let r := link.read p.1 p.2 (List.replicate 1500 0)
        if r.1 > 16 then some r.2 else none) = none := by
      rw [read_of_no_socket link h]
      exact if_neg (by decide)
    unfold NetLink.received at ih ⊢
    rw [List.filterMap_cons, hp]
    exact ih

theorem new_of_invalid (le openRx openSock : Bool) (localIp : CppString) (pfx : Byte)
    (remoteIp : CppString) (hpfx : pfx.val > 32) :
    (NetLink.new le openRx openSock localIp pfx remoteIp).socket = false ∧
    (NetLink.new le openRx openSock localIp pfx remoteIp).rxsock = false := by
  simp [NetLink.new, hpfx]

/-- For every prefix value greater than 32 the constructed link is inert: no
socket is opened, whatever the operating system would have granted;
`NetLink::write` calls no `sendto` and returns 0; `NetLink::read` returns -1 and
leaves the buffer unchanged; `scan` on this link sends nothing and returns the
empty list; and `assign` on this link, once `convertMacToStruct` has returned,
sends nothing and returns false. -/
theorem invalid_prefix_link_inert (le openRx openSock : Bool) (localIp : CppString)
    (pfx : Byte) (remoteIp : CppString) (link : NetLink)
    (hlink : link = NetLink.new le openRx openSock localIp pfx remoteIp)
    (hpfx : pfx.val > 32) :
    link.socket = false ∧ link.rxsock = false ∧
    (∀ sendResult buffer, link.write sendResult buffer = (0, [])) ∧
    (∀ onSocket onRxsock buffer, link.read onSocket onRxsock buffer = (-1, buffer)) ∧
    (∀ readXml teleIdCounter sendResult pending,
      (scanOnLink readXml le link teleIdCounter sendResult pending).1 = (0, []) ∧
      (scanOnLink readXml le link teleIdCounter sendResult pending).2.deviceList = .ok []) ∧
    (∀ teleIdCounter sendResult pending destinationMac colaVer ipAddr ipMask ipGateway
        dhcpEnable reconfigurationTimeMs mac,
      convertMacToStruct destinationMac = .ok mac →
      ∃ run,
        assignOnLink link teleIdCounter sendResult pending destinationMac colaVer ipAddr ipMask
          ipGateway dhcpEnable reconfigurationTimeMs = .ok (run, []) ∧
        run.returned = false) := by
  obtain ⟨hs, hr⟩ := new_of_invalid le openRx openSock localIp pfx remoteIp hpfx
  rw [← hlink] at hs hr
  refine ⟨hs, hr, write_of_no_socket link hs, read_of_no_socket link hs, ?_, ?_⟩
  · intro readXml t sendResult pending
    refine ⟨write_of_no_socket link hs _ _, ?_⟩
    simp only [scanOnLink, scan, received_of_no_socket link hs, scanLoop]
    rfl
  · intro teleIdCounter sendResult pending destinationMac colaVer ipAddr ipMask ipGateway
      dhcpEnable ms mac hmac
    refine ⟨{ returned := false, events := [.write (assignPacket mac (teleIdCounter % 2 ^ 32)
      (assignPayload destinationMac colaVer ipAddr ipMask ipGateway dhcpEnable))] }, ?_, rfl⟩
    simp only [assignOnLink, received_of_no_socket link hs,
      assign_ok teleIdCounter [] destinationMac colaVer ipAddr ipMask ipGateway dhcpEnable ms
        mac hmac,
      assignLoop, List.flatMap_cons, List.flatMap_nil, write_of_no_socket link hs,
      List.append_nil]

/-- The link of `VisionaryAutoIP("192.168.1.100", 33)` on a host that would
grant both sockets, with a device answering. -/
theorem invalid_prefix_link_inert_witness :
    (33 : Byte).val > 32 ∧
    (autoIpLink true true true (ascii "192.168.1.100") 33).socket = false ∧
    (scanOnLink readXmlSample true (autoIpLink true true true (ascii "192.168.1.100") 33) 1 24
        [(some sampleReport, some sampleReport)]).2.deviceList = .ok [] :=
  ⟨by decide,
    (invalid_prefix_link_inert true true true (ascii "192.168.1.100") 33 BROADCAST_IP
      (autoIpLink true true true (ascii "192.168.1.100") 33) rfl (by decide)).1,
    ((invalid_prefix_link_inert true true true (ascii "192.168.1.100") 33 BROADCAST_IP
      (autoIpLink true true true (ascii "192.168.1.100") 33) rfl (by decide)).2.2.2.2.1
        readXmlSample 1 24 [(some sampleReport, some sampleReport)]).2⟩

set_option maxRecDepth 65536 in
/-- C23: the claim is that for a prefix above 32 the link is inert and that
consequently `scan` returns the empty list and `assign` returns false.  On the
link of `VisionaryAutoIP("192.168.1.100", 33)` no socket is open, `write` sends
nothing and returns 0, `read` returns -1 and leaves the buffer, and `scan` returns
the empty list; but `assign` with the target MAC text `zz:11:22:33:44:55` does not
return false: the call of `convertMacToStruct` ends in the exception of
`std::stoi`, which nothing catches. -/
theorem inert_link_assign_throws :
    (33 : Byte).val > 32 ∧
      (autoIpLink true true true (ascii "192.168.1.100") 33).socket = false ∧
      (autoIpLink true true true (ascii "192.168.1.100") 33).rxsock = false ∧
      (autoIpLink true true true (ascii "192.168.1.100") 33).write 24 [0x11, 0x00] = (0, []) ∧
      (autoIpLink true true true (ascii "192.168.1.100") 33).read (some sampleReport)
          (some sampleReport) [0, 0, 0] = (-1, [0, 0, 0]) ∧
      (scanOnLink readXmlSample true (autoIpLink true true true (ascii "192.168.1.100") 33) 1 24
          [(some sampleReport, some sampleReport)]).2.deviceList = .ok [] ∧
      assignOnLink (autoIpLink true true true (ascii "192.168.1.100") 33) 1 24
          [(some confirmationReply, none)] malformedMac .COLA_2 (ascii "192.168.1.10")
          (ascii "255.255.255.0") (ascii "0.0.0.0") false 5000 = .error .stoiException :=
  ⟨by decide, by decide, by decide, by decide, by decide, rfl, rfl⟩

set_option maxRecDepth 65536 in
/-- C24: the claim is that a local address text that is not a dotted quad leaves
the link unusable.  For `VisionaryAutoIP("not-an-ip", 24)` on a host that grants
the sockets, `string2addr` returns 0 and the constructor goes on as for the
address 0.0.0.0: both sockets are open, the local endpoint handed to `bind` is
0.0.0.0, `write` makes two calls of `sendto` and returns what the last one
returns, `read` delivers a datagram with its length, and `scan` lists the
device that answers. -/
theorem invalid_address_link_usable :
    string2addr (ascii "not-an-ip") = 0 ∧
    autoIpLink true true true (ascii "not-an-ip") 24
      = { localSinAddr := 0, remoteSinAddr := 0xFF000000, m_netmask := 0x00FFFFFF,
          m_broadcast := true, socket := true, rxsock := true } ∧
    (autoIpLink true true true (ascii "not-an-ip") 24).write 24
        [16, 0, 0, 8, 255, 255, 255, 255, 255, 255, 0, 0, 0, 1, 1, 0, 0, 0, 0, 0, 255, 255, 255, 0]
      = (24,
        [⟨0xFFFFFFFF, [16, 0, 0, 8, 255, 255, 255, 255, 255, 255, 0, 0, 0, 1, 1, 0, 0, 0, 0, 0,
            255, 255, 255, 0]⟩,
          ⟨0xFF000000, [16, 0, 0, 8, 255, 255, 255, 255, 255, 255, 0, 0, 0, 1, 1, 0, 0, 0, 0, 0,
            255, 255, 255, 0]⟩]) ∧
    (autoIpLink true true true (ascii "not-an-ip") 24).read (some sampleReport) none
        (List.replicate 1500 0) = (80, sampleReport) ∧
    scanOnLink readXmlSample true (autoIpLink true true true (ascii "not-an-ip") 24) 1 24
        [(some sampleReport, none)]
      = ((24,
          [⟨0xFFFFFFFF, [16, 0, 0, 8, 255, 255, 255, 255, 255, 255, 0, 0, 0, 1, 1, 0, 0, 0, 0, 0,
              255, 255, 255, 0]⟩,
            ⟨0xFF000000, [16, 0, 0, 8, 255, 255, 255, 255, 255, 255, 0, 0, 0, 1, 1, 0, 0, 0, 0, 0,
              255, 255, 255, 0]⟩]),
        { written := [16, 0, 0, 8, 255, 255, 255, 255, 255, 255, 0, 0, 0, 1, 1, 0, 0, 0, 0, 0,
            255, 255, 255, 0]
          curtelegramID := 1
          deviceList := .ok [sampleInfo] }) :=
  ⟨by decide, by decide, by decide, by decide, rfl⟩

/-! ## The width of communication-settings entries -/

/-- C27: the claim is that every communication-settings entry occupies 4 + 2 +
declared-length bytes, so that the read cursor never runs ahead of the
accumulated minimum size.  Entry 0 of `emacZeroLengthReport` has the key `EMAC`
at offset 55 and declares the length 0, so the endpoints count should be read
at offset 61 (where the bytes 00 06 stand); the decoder advances by 6 for the
key `EMAC` whatever length is declared and reads the count at offset 67: after
that read the cursor is at 69 while the minimum size is 63. -/
theorem comSettings_cursor_ahead :
    (parseToComSettings emacZeroLengthReport).map (fun r => (r.1.offset, r.1.minSize, r.2))
      = .ok (55, 55, 1) ∧
    comSettingsEntry emacZeroLengthReport 0 = some (ascii "EMAC", 55 + 4 + 2) ∧
    readUnalignBigEndian emacZeroLengthReport (55 + 4) 2 = .ok 0 ∧
    readUnalignBigEndian emacZeroLengthReport (55 + 4 + 2 + 0) 2 = .ok 6 ∧
    readUnalignBigEndian emacZeroLengthReport 67 2 = .ok 1 ∧
    (parseToEndPoints emacZeroLengthReport).map (fun r => (r.1.offset, r.1.minSize, r.2))
      = .ok (67 + 2, 61 + 2, 1) :=
  ⟨rfl, rfl, rfl, rfl, rfl, rfl⟩

/-! ## Entries with other keys -/

theorem applyComSetting_unrecognised (st : DeviceInfo × CppString) (e : Entry)
    (h : e.key ∉ recognisedKeys) : applyComSetting st e = st := by
  simp only [recognisedKeys, List.mem_cons, List.mem_singleton, List.not_mem_nil, or_false,
    not_or] at h
  obtain ⟨h1, h2, h3, h4, h5, h6⟩ := h
  simp only [applyComSetting, h1, h2, h3, h4, h5, h6, if_false]

theorem comSettingWidth_unrecognised (e : Entry) (h : e.key ∉ recognisedKeys) :
    e.ComSettingWidth := by
  simp only [recognisedKeys, List.mem_cons, List.mem_singleton, List.not_mem_nil, or_false,
    not_or] at h
  obtain ⟨h1, h2, h3, h4, h5, h6⟩ := h
  exact ⟨fun k => absurd k h1, fun k => absurd k h2, fun k => absurd k h3,
    fun k => absurd k h4, fun k => absurd k h5, fun k => absurd k h6⟩

/-- C28: for every well-formed report `r` and every entry `e` whose 4-byte key is
none of `EMAC`, `EIPa`, `ENMa`, `EDGa`, `EDhc`, `ECDu` (any value whose length fits
the 16-bit length field), inserting `e` at any position of the
communication-settings array, the count going up by one and still fitting its
16 bits, yields a report that decodes to the same `DeviceInfo` as `r`. -/
theorem unrecognised_entry_ignored (r : Report) (hwf : WellFormed r)
    (before after : List Entry) (e : Entry) (hsplit : r.comSettings = before ++ after)
    (hcount : r.comSettings.length + 1 < 65536) (hfit : e.Fits)
    (hkey : e.key ∉ recognisedKeys) :
    ∃ d, parseAutoIPBinary (referenceEncode r) = .ok d ∧
      parseAutoIPBinary (referenceEncode { r with comSettings := before ++ e :: after })
        = .ok d ∧
      (referenceEncode { r with comSettings := before ++ e :: after }).length
        = (referenceEncode r).length + (4 + 2 + e.value.length) := by
  have hwf2 : WellFormed { r with comSettings := before ++ e :: after } := by
    obtain ⟨hH, hF, hcid, hdn, happ, hproj, hsn, htc, hfw, hord, hauxN, haux, hifN, hif, hcsN,
      hcs, hepN, hep, hport⟩ := hwf
    refine ⟨hH, hF, hcid, hdn, happ, hproj, hsn, htc, hfw, hord, hauxN, haux, hifN, hif, ?_, ?_,
      hepN, hep, hport⟩
    · show (before ++ e :: after).length < 65536
      rw [hsplit, List.length_append] at hcount
      rw [List.length_append, List.length_cons]
      omega
    · intro x hx
      have hx2 : x ∈ before ++ e :: after := hx
      rcases List.mem_append.mp hx2 with hb | ha
      · exact hcs x (hsplit ▸ List.mem_append_left _ hb)
      · rcases List.mem_cons.mp ha with heq | ha2
        · subst heq
          exact ⟨hfit, comSettingWidth_unrecognised x hkey⟩
        · exact hcs x (hsplit ▸ List.mem_append_right _ ha2)
  have hdec : decodeReference { r with comSettings := before ++ e :: after }
      = decodeReference r := by
    have hinfo : comSettingsInfo { r with comSettings := before ++ e :: after }
        = comSettingsInfo r := by
      show (before ++ e :: after).foldl applyComSetting _ = r.comSettings.foldl applyComSetting _
      rw [hsplit, List.foldl_append, List.foldl_cons, applyComSetting_unrecognised _ e hkey,
        List.foldl_append]
      rfl
    unfold decodeReference
    rw [hinfo]
  refine ⟨decodeReference r, parseAutoIPBinary_referenceEncode r hwf, ?_, ?_⟩
  · rw [parseAutoIPBinary_referenceEncode _ hwf2, hdec]
  · have hlen : ∀ l : List Entry, ((before ++ l).flatMap encodeEntry).length
        = (before.flatMap encodeEntry).length + (l.flatMap encodeEntry).length := by
      intro l
      rw [List.flatMap_append, List.length_append]
    simp only [referenceEncode, hsplit, List.length_append, hlen, List.flatMap_cons,
      length_encodeEntry, length_writeUnalignBigEndian16, hfit.1]
    omega

set_option maxRecDepth 65536 in
/-- C28 applies to `sampleDeviceReport` with an entry `XXXX` of three bytes put
behind its second entry: both reports decode to `sampleDeviceInfo`. -/
theorem unrecognised_entry_ignored_witness :
    WellFormed sampleDeviceReport ∧
    ascii "XXXX" ∉ recognisedKeys ∧
    parseAutoIPBinary (referenceEncode sampleDeviceReport) = .ok sampleDeviceInfo ∧
    ∃ d, parseAutoIPBinary (referenceEncode sampleDeviceReport) = .ok d ∧
      parseAutoIPBinary (referenceEncode { sampleDeviceReport with
          comSettings := [⟨ascii "EMAC", [0x00, 0x06, 0x77, 0x01, 0x02, 0xab]⟩,
              ⟨ascii "EIPa", [0xC0, 0xA8, 0x01, 0x0A]⟩]
            ++ ⟨ascii "XXXX", [1, 2, 3]⟩ :: [⟨ascii "ENMa", [0xFF, 0xFF, 0xFF, 0x00]⟩,
              ⟨ascii "EDGa", [0xC0, 0xA8, 0x01, 0x01]⟩, ⟨ascii "EDhc", [0]⟩,
              ⟨ascii "ECDu", [0, 0, 0, 5]⟩] }) = .ok d ∧
      (referenceEncode { sampleDeviceReport with
          comSettings := [⟨ascii "EMAC", [0x00, 0x06, 0x77, 0x01, 0x02, 0xab]⟩,
              ⟨ascii "EIPa", [0xC0, 0xA8, 0x01, 0x0A]⟩]
            ++ ⟨ascii "XXXX", [1, 2, 3]⟩ :: [⟨ascii "ENMa", [0xFF, 0xFF, 0xFF, 0x00]⟩,
              ⟨ascii "EDGa", [0xC0, 0xA8, 0x01, 0x01]⟩, ⟨ascii "EDhc", [0]⟩,
              ⟨ascii "ECDu", [0, 0, 0, 5]⟩] }).length
        = (referenceEncode sampleDeviceReport).length
          + (4 + 2 + (Entry.mk (ascii "XXXX") [1, 2, 3]).value.length) :=
  ⟨by decide, by decide, rfl,
    unrecognised_entry_ignored sampleDeviceReport (by decide)
      [⟨ascii "EMAC", [0x00, 0x06, 0x77, 0x01, 0x02, 0xab]⟩,
        ⟨ascii "EIPa", [0xC0, 0xA8, 0x01, 0x0A]⟩]
      [⟨ascii "ENMa", [0xFF, 0xFF, 0xFF, 0x00]⟩, ⟨ascii "EDGa", [0xC0, 0xA8, 0x01, 0x01]⟩,
        ⟨ascii "EDhc", [0]⟩, ⟨ascii "ECDu", [0, 0, 0, 5]⟩]
      ⟨ascii "XXXX", [1, 2, 3]⟩ rfl (by decide) (by decide) (by decide)⟩

/-! ## The reconfiguration time -/

set_option maxRecDepth 65536 in
/-- C29, as stated, fails for a value of 4294968 seconds or more: the `ECDu` entry
of `longDurationReport` carries 00 41 89 38, which is 4294968, and the decoded
`reconfigurationTimeMs` is 704, not 4294968000, which a 32-bit field cannot
hold. -/
theorem reconfigurationTime_wraps :
    WellFormed longDurationReport ∧
    beValue [0x00, 0x41, 0x89, 0x38] = 4294968 ∧
    (parseAutoIPBinary (referenceEncode longDurationReport)).toOption.map
      (fun d => d.reconfigurationTimeMs) = some (some 704) ∧
    (704 : Nat) ≠ 4294968 * 1000 :=
  ⟨by decide, by decide, rfl, by decide⟩

theorem applyComSetting_other_time (st : DeviceInfo × CppString) (e : Entry)
    (h : e.key ≠ ascii "ECDu") :
    (applyComSetting st e).1.reconfigurationTimeMs = st.1.reconfigurationTimeMs := by
  unfold applyComSetting
  split_ifs <;> rfl

theorem applyComSetting_time (st : DeviceInfo × CppString) (value : List Byte) :
    (applyComSetting st ⟨ascii "ECDu", value⟩).1.reconfigurationTimeMs
      = some (beValue value * 1000 % 2 ^ 32) := by
  simp only [applyComSetting, show ascii "ECDu" ≠ ascii "EMAC" by decide,
    show ascii "ECDu" ≠ ascii "EIPa" by decide, show ascii "ECDu" ≠ ascii "ENMa" by decide,
    show ascii "ECDu" ≠ ascii "EDGa" by decide, show ascii "ECDu" ≠ ascii "EDhc" by decide,
    if_false, if_true]

/-- C29 (amended): for every 32-bit big-endian seconds value `s` carried by the last
`ECDu` entry of a well-formed binary report, the decoded `reconfigurationTimeMs`
is `s` times 1000 modulo 2^32; it is `s` times 1000 whenever `s` is at most
4294967. -/
theorem reconfigurationTime_decoded (r : Report) (hwf : WellFormed r)
    (before after : List Entry) (a b c d : Byte)
    (hsplit : r.comSettings = before ++ ⟨ascii "ECDu", [a, b, c, d]⟩ :: after)
    (hlast : ∀ e, e ∈ after → e.key ≠ ascii "ECDu") :
    ∃ info, parseAutoIPBinary (referenceEncode r) = .ok info ∧
      info.reconfigurationTimeMs = some (beValue [a, b, c, d] * 1000 % 2 ^ 32) ∧
      (beValue [a, b, c, d] ≤ 4294967 →
        info.reconfigurationTimeMs = some (beValue [a, b, c, d] * 1000)) := by
  have hms : (decodeReference r).reconfigurationTimeMs
      = some (beValue [a, b, c, d] * 1000 % 2 ^ 32) := by
    show (comSettingsInfo r).1.reconfigurationTimeMs = _
    unfold comSettingsInfo
    rw [hsplit, List.foldl_append, List.foldl_cons,
      foldl_applyComSetting_keeps DeviceInfo.reconfigurationTimeMs
        (fun e => e.key ≠ ascii "ECDu") (fun st e he => applyComSetting_other_time st e he) _ _
        hlast]
    exact applyComSetting_time _ _
  refine ⟨decodeReference r, parseAutoIPBinary_referenceEncode r hwf, hms, fun hle => ?_⟩
  rw [hms, Nat.mod_eq_of_lt (by omega)]

set_option maxRecDepth 65536 in
/-- The amended C29 applies to `sampleDeviceReport`, whose `ECDu` entry carries 5
seconds: 5000 ms. -/
theorem reconfigurationTime_decoded_witness :
    WellFormed sampleDeviceReport ∧ beValue [0, 0, 0, 5] = 5 ∧
    ∃ info, parseAutoIPBinary (referenceEncode sampleDeviceReport) = .ok info ∧
      info.reconfigurationTimeMs = some (beValue [0, 0, 0, 5] * 1000 % 2 ^ 32) ∧
      (beValue [0, 0, 0, 5] ≤ 4294967 →
        info.reconfigurationTimeMs = some (beValue [0, 0, 0, 5] * 1000)) :=
  ⟨by decide, by decide,
    reconfigurationTime_decoded sampleDeviceReport (by decide)
      [⟨ascii "EMAC", [0x00, 0x06, 0x77, 0x01, 0x02, 0xab]⟩,
        ⟨ascii "EIPa", [0xC0, 0xA8, 0x01, 0x0A]⟩, ⟨ascii "ENMa", [0xFF, 0xFF, 0xFF, 0x00]⟩,
        ⟨ascii "EDGa", [0xC0, 0xA8, 0x01, 0x01]⟩, ⟨ascii "EDhc", [0]⟩]
      [] 0 0 0 5 rfl (by decide)⟩

/-! ## What `inet_pton` accepts -/

theorem digit_of_isDigit (ch : Byte) (h : isDigit ch = true) :
    ch.val - 48 < 10 ∧ ch = (Fin.ofNat (48 + (ch.val - 48)) : Byte) := by
  simp only [isDigit, Bool.and_eq_true, decide_eq_true_eq] at h
  refine ⟨by omega, ?_⟩
  apply Fin.ext
  simp only [Fin.ofNat, Fin.val_mk]
  omega

theorem decOctet_digit (k : Nat) (hk : k < 10) : decOctet k = [(Fin.ofNat (48 + k) : Byte)] := by
  unfold decOctet
  rw [if_pos hk]

theorem decOctet_snoc (v k : Nat) (hv : v ≠ 0) (hk : k < 10) (hle : v * 10 + k ≤ 255) :
    decOctet (v * 10 + k) = decOctet v ++ [(Fin.ofNat (48 + k) : Byte)] := by
  unfold decOctet
  by_cases h10 : v < 10
  · have e1 : (v * 10 + k) / 10 = v := by omega
    have e2 : (v * 10 + k) % 10 = k := by omega
    rw [if_neg (by omega), if_pos (by omega), if_pos h10, e1, e2]
    rfl
  · have e1 : (v * 10 + k) / 100 = v / 10 := by omega
    have e2 : (v * 10 + k) / 10 % 10 = v % 10 := by omega
    have e3 : (v * 10 + k) % 10 = k := by omega
    rw [if_neg (by omega), if_neg (by omega), if_neg h10, if_pos (by omega), e1, e2, e3]
    rfl

theorem consumed_snoc (octets : List Nat) (v : Nat) :
    consumed (octets ++ [v]) none = consumed octets (some v) ++ [(46 : Byte)] := by
  simp [consumed]

/-- What the digit loop accepts is the canonical text of four octets. -/
theorem inetPtonLoop_some : ∀ (s : List Byte) (octets : List Nat) (cur : Option Nat)
    (res : List Nat), (∀ v, cur = some v → v < 256) → (∀ x, x ∈ octets → x < 256) →
    inetPtonLoop s octets cur = some res →
    ∃ o v, res = o ++ [v] ∧ o.length = 3 ∧ v < 256 ∧ (∀ x, x ∈ o → x < 256) ∧
      consumed octets cur ++ s = consumed o (some v)
  | [], octets, some v, res, hc, ho, h => by
    rw [inetPtonLoop] at h
    by_cases h3 : octets.length = 3
    · rw [if_pos h3] at h
      cases h
      exact ⟨octets, v, rfl, h3, hc v rfl, ho, by simp⟩
    · rw [if_neg h3] at h
      cases h
  | [], octets, none, res, _, _, h => by
    rw [inetPtonLoop] at h
    cases h
  | ch :: rest, octets, some v, res, hc, ho, h => by
    rw [inetPtonLoop] at h
    by_cases hd : isDigit ch = true
    · obtain ⟨hk, hch⟩ := digit_of_isDigit ch hd
      rw [if_pos hd] at h
      by_cases hv : v = 0
      · rw [if_pos hv] at h
        cases h
      · rw [if_neg hv] at h
        by_cases hbig : v * 10 + (ch.val - 48) > 255
        · rw [if_pos hbig] at h
          cases h
        · rw [if_neg hbig] at h
          obtain ⟨o, w, h1, h2, h3, h4, h5⟩ := inetPtonLoop_some rest octets _ res
            (fun x hx => by cases hx; omega) ho h
          refine ⟨o, w, h1, h2, h3, h4, ?_⟩
          rw [← h5]
          simp only [consumed, List.append_assoc]
          rw [decOctet_snoc v (ch.val - 48) hv hk (by omega), ← hch]
          simp
    · rw [if_neg hd] at h
      by_cases hdot : ch.val = 46
      · rw [if_pos hdot] at h
        have hch : ch = (46 : Byte) := Fin.ext hdot
        by_cases h3 : octets.length ≥ 3
        · rw [if_pos h3] at h
          cases h
        · rw [if_neg h3] at h
          obtain ⟨o, w, h1, h2, h3, h4, h5⟩ := inetPtonLoop_some rest (octets ++ [v]) none res
            (fun x hx => by cases hx)
            (fun x hx => by
              rcases List.mem_append.mp hx with hx | hx
              · exact ho x hx
              · rw [List.mem_singleton.mp hx]; exact hc v rfl) h
          refine ⟨o, w, h1, h2, h3, h4, ?_⟩
          rw [← h5, consumed_snoc, hch]
          simp
      · rw [if_neg hdot] at h
        cases h
  | ch :: rest, octets, none, res, hc, ho, h => by
    rw [inetPtonLoop] at h
    by_cases hd : isDigit ch = true
    · obtain ⟨hk, hch⟩ := digit_of_isDigit ch hd
      rw [if_pos hd] at h
      by_cases h4 : octets.length ≥ 4
      · rw [if_pos h4] at h
        cases h
      · rw [if_neg h4] at h
        obtain ⟨o, w, h1, h2, h3, h4, h5⟩ := inetPtonLoop_some rest octets _ res
          (fun x hx => by cases hx; omega) ho h
        refine ⟨o, w, h1, h2, h3, h4, ?_⟩
        rw [← h5]
        simp only [consumed, List.append_assoc]
        rw [decOctet_digit _ hk, ← hch]
        simp
    · rw [if_neg hd] at h
      by_cases hdot : ch.val = 46
      · rw [if_pos hdot] at h
        cases h
      · rw [if_neg hdot] at h
        cases h

theorem dottedQuad_nonzero (a b c d : Byte) : ∀ x, x ∈ dottedQuad a b c d → x.val ≠ 0 := by
  intro x hx
  simp only [dottedQuad, ascii_dot, List.mem_append, List.mem_singleton] at hx
  rcases hx with ((((((hx | hx) | hx) | hx) | hx) | hx) | hx)
  · exact decOctet_nonzero _ a.isLt x hx
  · rw [hx]; decide
  · exact decOctet_nonzero _ b.isLt x hx
  · rw [hx]; decide
  · exact decOctet_nonzero _ c.isLt x hx
  · rw [hx]; decide
  · exact decOctet_nonzero _ d.isLt x hx

/-- `string2addr` returns 0 unless the text before the first NUL is a valid
dotted quad. -/
theorem string2addr_invalid (ip : CppString) (h : ¬ ValidDottedQuad (cString ip)) :
    string2addr ip = 0 := by
  unfold string2addr
  cases hl : inetPtonLoop (ip.takeWhile (fun c => c.val ≠ 0)) [] none with
  | none => rfl
  | some res =>
    exfalso
    apply h
    obtain ⟨o, v, _, h2, h3, h4, h5⟩ := inetPtonLoop_some _ [] none res
      (fun x hx => by cases hx) (fun x hx => by cases hx) hl
    match o, h2, h4 with
    | [a, b, c], _, h4 =>
      have ha : a < 256 := h4 a (by simp)
      have hb : b < 256 := h4 b (by simp)
      have hc : c < 256 := h4 c (by simp)
      refine ⟨⟨a, ha⟩, ⟨b, hb⟩, ⟨c, hc⟩, ⟨v, h3⟩, ?_⟩
      simp only [consumed, List.map_nil, List.flatten_nil, List.nil_append] at h5
      unfold cString
      rw [h5]
      simp [dottedQuad, ascii_dot]

theorem string2addr_cString_dottedQuad (ip : CppString) (a b c d : Byte)
    (h : cString ip = dottedQuad a b c d) :
    string2addr ip = a.val * 2 ^ 24 + b.val * 2 ^ 16 + c.val * 2 ^ 8 + d.val := by
  have h1 := string2addr_dottedQuad a b c d
  have h2 : (dottedQuad a b c d).takeWhile (fun c => decide (c.val ≠ 0)) = dottedQuad a b c d :=
    takeWhile_all _ _ (fun x hx => by simpa using dottedQuad_nonzero a b c d x hx)
  unfold string2addr at h1 ⊢
  unfold cString at h
  rw [h2] at h1
  rw [h]
  exact h1

/-! ## Address texts and the request payload -/

theorem inetPtonLoop_dottedQuad (a b c d : Byte) :
    inetPtonLoop (dottedQuad a b c d) [] none = some [a.val, b.val, c.val, d.val] := by
  simp only [dottedQuad, ascii_dot, List.append_assoc, List.singleton_append, List.cons_append,
    List.nil_append]
  rw [inetPtonLoop_decOctet _ a.isLt _ _ (by simp), inetPtonLoop_dot _ _ _ (by simp)]
  simp only [List.nil_append]
  rw [inetPtonLoop_decOctet _ b.isLt _ _ (by simp), inetPtonLoop_dot _ _ _ (by simp)]
  simp only [List.cons_append, List.nil_append]
  rw [inetPtonLoop_decOctet _ c.isLt _ _ (by simp), inetPtonLoop_dot _ _ _ (by simp)]
  simp only [List.cons_append, List.nil_append]
  have hd := inetPtonLoop_decOctet d.val d.isLt [] [a.val, b.val, c.val] (by simp)
  rw [List.append_nil] at hd
  rw [hd]
  simp [inetPtonLoop]

/-- The digit loop of `inet_pton` accepts every valid dotted quad. -/
theorem validDottedQuad_accepted (s : CppString) (h : ValidDottedQuad s) :
    (inetPtonLoop s [] none).isSome = true := by
  obtain ⟨a, b, c, d, rfl⟩ := h
  rw [inetPtonLoop_dottedQuad]
  rfl

theorem validDottedQuad_nonzero (s : CppString) (h : ValidDottedQuad s) :
    ∀ x, x ∈ s → x.val ≠ 0 := by
  obtain ⟨a, b, c, d, rfl⟩ := h
  exact dottedQuad_nonzero a b c d

theorem addr2string_eq_dottedQuad (a : Nat) :
    addr2string a = dottedQuad (Fin.ofNat (a / 2 ^ 24 % 256)) (Fin.ofNat (a / 2 ^ 16 % 256))
      (Fin.ofNat (a / 2 ^ 8 % 256)) (Fin.ofNat (a % 256)) := by
  have h : ∀ n : Nat, ((Fin.ofNat (n % 256) : Byte)).val = n % 256 := by
    intro n
    simp only [Fin.ofNat, Fin.val_mk]
    omega
  unfold addr2string dottedQuad
  rw [h, h, h, h]

theorem string2addr_addr2string_eq (a : Nat) (ha : a < 2 ^ 32) :
    string2addr (addr2string a) = a := by
  have h : ∀ n : Nat, ((Fin.ofNat (n % 256) : Byte)).val = n % 256 := by
    intro n
    simp only [Fin.ofNat, Fin.val_mk]
    omega
  rw [addr2string_eq_dottedQuad, string2addr_dottedQuad, h, h, h, h]
  omega

theorem writeUnalignBigEndian32_zero : writeUnalignBigEndian32 0 = [0, 0, 0, 0] := rfl

/-- C32, as stated, fails for a text with a NUL character: `inet_pton` reads
`ip.c_str()`, so for the eleven characters `1.2.3.4`, NUL, `x`, which are not a
dotted quad, `string2addr` returns 0x01020304 and not 0. -/
theorem string2addr_stops_at_nul :
    ¬ (¬ ValidDottedQuad nulAddress → string2addr nulAddress = 0) := by
  intro h
  have h0 : string2addr nulAddress = 0 :=
    h (fun hv => validDottedQuad_nonzero nulAddress hv 0 (by decide) rfl)
  have h1 : string2addr nulAddress = 0x01020304 := by decide
  rw [h1] at h0
  exact absurd h0 (by decide)

/-- C32 (amended): for every 32-bit host-order value `a`, `addr2string a` is the
dotted-decimal text of the four bytes of `a`, most significant first, and
`string2addr (addr2string a) = a`; and `string2addr` returns 0 for every string
whose characters before the first NUL are not a valid dotted quad. -/
theorem string2addr_addr2string (a : Nat) (ha : a < 2 ^ 32) (ip : CppString)
    (hip : ¬ ValidDottedQuad (cString ip)) :
    addr2string a = dottedQuad (Fin.ofNat (a / 2 ^ 24 % 256)) (Fin.ofNat (a / 2 ^ 16 % 256))
        (Fin.ofNat (a / 2 ^ 8 % 256)) (Fin.ofNat (a % 256)) ∧
      string2addr (addr2string a) = a ∧
      string2addr ip = 0 :=
  ⟨addr2string_eq_dottedQuad a, string2addr_addr2string_eq a ha, string2addr_invalid ip hip⟩

/-- C32 (amended) applies to the address 192.168.1.100 and to the text
`192.168.1`. -/
theorem string2addr_addr2string_witness :
    (0xC0A80164 < 2 ^ 32 ∧ ¬ ValidDottedQuad (cString (ascii "192.168.1"))) ∧
    (addr2string 0xC0A80164 = dottedQuad (Fin.ofNat (0xC0A80164 / 2 ^ 24 % 256))
        (Fin.ofNat (0xC0A80164 / 2 ^ 16 % 256)) (Fin.ofNat (0xC0A80164 / 2 ^ 8 % 256))
        (Fin.ofNat (0xC0A80164 % 256)) ∧
      string2addr (addr2string 0xC0A80164) = 0xC0A80164 ∧
      string2addr (ascii "192.168.1") = 0) ∧
    addr2string 0xC0A80164 = ascii "192.168.1.100" :=
  ⟨⟨by decide, fun h => absurd (validDottedQuad_accepted _ h) (by decide)⟩,
    string2addr_addr2string 0xC0A80164 (by decide) (ascii "192.168.1")
      (fun h => absurd (validDottedQuad_accepted _ h) (by decide)),
    by decide⟩

/-- C34: `convertMacToStruct` writes `macAddress.macAddress[i]` for every
colon-separated group without comparing `i` with 6: for the text of seven groups
`00:11:22:33:44:55:66` the seventh write goes to index 6, past the six bytes of
the array. -/
theorem convertMacToStruct_writes_past_end :
    convertMacToStruct (ascii "00:11:22:33:44:55:66") = .error (.writePastEnd 6) ∧
      (getlineTokens (ascii "00:11:22:33:44:55:66") []).length = 7 :=
  ⟨rfl, rfl⟩

/-- C35: `NetLink::remoteAddr()` returns the local address: on the link with the
local address 192.168.1.100/24 and the default remote 255.255.255.255 it returns
192.168.1.100, the value of `localAddr()`, while the link sends to the directed
broadcast address 192.168.1.255. -/
theorem remoteAddr_returns_local :
    sampleLink.remoteAddr true = 0xC0A80164 ∧
      sampleLink.localAddr true = 0xC0A80164 ∧
      ntohl true sampleLink.remoteSinAddr = 0xC0A801FF ∧
      (sampleLink.write 1 [0x10]).2
        = [⟨INADDR_BROADCAST, [0x10]⟩, ⟨htonl true 0xC0A801FF, [0x10]⟩] ∧
      ∀ (le : Bool) (link : NetLink), link.remoteAddr le = link.localAddr le :=
  ⟨by decide, by decide, by decide, by decide, fun _ _ => rfl⟩

/-- C38, as stated, fails for an address text with a NUL character: for the
address argument `1.2.3.4`, NUL, `x`, which is not a dotted quad, the first four
bytes of the binary payload are 01 02 03 04 and not 00 00 00 00. -/
theorem assign_address_stops_at_nul :
    ¬ ValidDottedQuad nulAddress ∧
      (assignPayload sampleMac .COLA_2 nulAddress (ascii "255.255.255.0") (ascii "0.0.0.0")
          false).take 4 = [1, 2, 3, 4] ∧
      (assignPayload sampleMac .COLA_2 nulAddress (ascii "255.255.255.0") (ascii "0.0.0.0")
          false).take 4 ≠ [0, 0, 0, 0] :=
  ⟨fun hv => validDottedQuad_nonzero nulAddress hv 0 (by decide) rfl, by decide, by decide⟩

/-- The payload for every version other than `COLA_1`, whatever value the enum
object holds. -/
theorem assignPayload_binary (destinationMac : CppString) (colaVer : ColaVersion)
    (ip mask gw : CppString) (dhcpEnable : Bool) (h : colaVer ≠ .COLA_1) :
    assignPayload destinationMac colaVer ip mask gw dhcpEnable
      = writeUnalignBigEndian32 (string2addr ip) ++ writeUnalignBigEndian32 (string2addr mask)
        ++ writeUnalignBigEndian32 (string2addr gw) ++ [if dhcpEnable then 1 else 0] :=
  if_neg h

/-- C38 (amended): when the target MAC text converts, `assign` sends its request
whatever the address arguments are, and the payload is never empty: for every
`colaVer` other than `COLA_1`, also a value that is no enumerator such as 0 or 3,
it is the 13-byte binary payload, and for every ip, mask or gateway string whose
characters before the first NUL are not a valid dotted quad the corresponding
four payload bytes are 00 00 00 00. -/
theorem assign_never_rejects_addresses (t : Nat) (received : List ByteBuffer)
    (destinationMac : CppString) (colaVer : ColaVersion) (ip mask gw : CppString)
    (dhcpEnable : Bool) (ms : Nat) (mac : MacAddress)
    (hmac : convertMacToStruct destinationMac = .ok mac) :
    ∃ payload,
      assign t received destinationMac colaVer ip mask gw dhcpEnable ms
        = .ok { returned := (assignLoop ms received).1,
                events := .write (assignPacket mac (t % 2 ^ 32) payload)
                  :: (assignLoop ms received).2 } ∧
      payload = assignPayload destinationMac colaVer ip mask gw dhcpEnable ∧
      payload ≠ [] ∧
      (colaVer ≠ .COLA_1 →
        payload.length = 13 ∧
        (¬ ValidDottedQuad (cString ip) → payload.take 4 = [0, 0, 0, 0]) ∧
        (¬ ValidDottedQuad (cString mask) → (payload.drop 4).take 4 = [0, 0, 0, 0]) ∧
        (¬ ValidDottedQuad (cString gw) → (payload.drop 8).take 4 = [0, 0, 0, 0])) := by
  refine ⟨_, assign_ok t received destinationMac colaVer ip mask gw dhcpEnable ms mac hmac, rfl,
    ?_, ?_⟩
  · by_cases hc : colaVer = .COLA_1
    · subst hc
      intro h
      have hl : 0 < (ascii
          "<?xml version=\"1.0\" encoding=\"UTF-8\"?><IPconfig MACAddr=\"").length := by
        decide
      have := congrArg List.length h
      simp only [assignPayload, if_true, List.length_append, List.length_nil] at this
      omega
    · intro h
      have := congrArg List.length h
      rw [assignPayload_binary _ _ _ _ _ _ hc] at this
      simp [writeUnalignBigEndian32] at this
  · intro hc
    rw [assignPayload_binary _ _ _ _ _ _ hc]
    refine ⟨by simp [writeUnalignBigEndian32], ?_, ?_, ?_⟩
    · intro h
      rw [string2addr_invalid ip h]
      rfl
    · intro h
      rw [string2addr_invalid mask h, writeUnalignBigEndian32_zero]
      simp [writeUnalignBigEndian32]
    · intro h
      rw [string2addr_invalid gw h, writeUnalignBigEndian32_zero]
      simp [writeUnalignBigEndian32]

/-- C38 (amended) applies to a request with the address text `not an address` and
a `colaVer` that holds the value 0, which is no enumerator. -/
theorem assign_never_rejects_addresses_witness :
    convertMacToStruct sampleMac = .ok sampleMacBytes ∧
    (∃ payload,
      assign 1 [] sampleMac ⟨0⟩ (ascii "not an address") (ascii "255.255.255.0")
          (ascii "0.0.0.0") true 5000
        = .ok { returned := (assignLoop 5000 []).1,
                events := .write (assignPacket sampleMacBytes (1 % 2 ^ 32) payload)
                  :: (assignLoop 5000 []).2 } ∧
      payload = assignPayload sampleMac ⟨0⟩ (ascii "not an address") (ascii "255.255.255.0")
          (ascii "0.0.0.0") true ∧
      payload ≠ [] ∧
      ((⟨0⟩ : ColaVersion) ≠ .COLA_1 →
        payload.length = 13 ∧
        (¬ ValidDottedQuad (cString (ascii "not an address")) → payload.take 4 = [0, 0, 0, 0]) ∧
        (¬ ValidDottedQuad (cString (ascii "255.255.255.0"))
          → (payload.drop 4).take 4 = [0, 0, 0, 0]) ∧
        (¬ ValidDottedQuad (cString (ascii "0.0.0.0"))
          → (payload.drop 8).take 4 = [0, 0, 0, 0]))) ∧
    (⟨0⟩ : ColaVersion) ≠ .COLA_1 ∧
    ¬ ValidDottedQuad (cString (ascii "not an address")) ∧
    assignPayload sampleMac ⟨0⟩ (ascii "not an address") (ascii "255.255.255.0")
        (ascii "0.0.0.0") true = [0, 0, 0, 0, 255, 255, 255, 0, 0, 0, 0, 0, 1] ∧
    assignPayload sampleMac ⟨3⟩ (ascii "not an address") (ascii "255.255.255.0")
        (ascii "0.0.0.0") true = [0, 0, 0, 0, 255, 255, 255, 0, 0, 0, 0, 0, 1] :=
  ⟨sampleMac_converts,
    assign_never_rejects_addresses 1 [] sampleMac ⟨0⟩ (ascii "not an address")
      (ascii "255.255.255.0") (ascii "0.0.0.0") true 5000 sampleMacBytes sampleMac_converts,
    by decide, fun h => absurd (validDottedQuad_accepted _ h) (by decide), by decide, by decide⟩

/-! ## Byte order and bitwise operations -/

theorem or_mod_two_pow (a b n : Nat) : (a ||| b) % 2 ^ n = a % 2 ^ n ||| b % 2 ^ n := by
  apply Nat.eq_of_testBit_eq
  intro i
  simp only [Nat.testBit_mod_two_pow, Nat.testBit_or]
  cases decide (i < n) <;> simp

theorem or_div_two_pow (a b n : Nat) : (a ||| b) / 2 ^ n = a / 2 ^ n ||| b / 2 ^ n := by
  apply Nat.eq_of_testBit_eq
  intro i
  simp only [← Nat.shiftRight_eq_div_pow, Nat.testBit_shiftRight, Nat.testBit_or]

theorem two_pow_mul_or (a b n : Nat) : 2 ^ n * (a ||| b) = 2 ^ n * a ||| 2 ^ n * b := by
  apply Nat.eq_of_testBit_eq
  intro i
  simp only [Nat.testBit_mul_pow_two, Nat.testBit_or]
  cases decide (i ≥ n) <;> simp

/-- Bitwise or acts on the low `n` bits and on the bits above them separately. -/
theorem or_split (p q a b n : Nat) (ha : a < 2 ^ n) (hb : b < 2 ^ n) :
    (2 ^ n * p + a) ||| (2 ^ n * q + b) = 2 ^ n * (p ||| q) + (a ||| b) := by
  rw [Nat.mul_add_lt_is_or ha, Nat.mul_add_lt_is_or hb,
    Nat.mul_add_lt_is_or (Nat.or_lt_two_pow ha hb), two_pow_mul_or]
  apply Nat.eq_of_testBit_eq
  intro i
  simp only [Nat.testBit_or]
  cases (2 ^ n * p).testBit i <;> cases a.testBit i <;> cases (2 ^ n * q).testBit i <;>
    cases b.testBit i <;> rfl

theorem bswap32_nested (x : Nat) :
    bswap32 x = 2 ^ 8 * (2 ^ 8 * (2 ^ 8 * (x % 2 ^ 8) + x / 2 ^ 8 % 2 ^ 8) + x / 2 ^ 16 % 2 ^ 8)
      + x / 2 ^ 24 % 2 ^ 8 := by
  unfold bswap32
  omega

theorem bswap32_or (a b : Nat) : bswap32 (a ||| b) = bswap32 a ||| bswap32 b := by
  have hlt : ∀ y : Nat, y % 2 ^ 8 < 2 ^ 8 := fun y => Nat.mod_lt _ (by decide)
  rw [bswap32_nested a, bswap32_nested b, or_split _ _ _ _ 8 (hlt _) (hlt _),
    or_split _ _ _ _ 8 (hlt _) (hlt _), or_split _ _ _ _ 8 (hlt _) (hlt _), bswap32_nested,
    or_mod_two_pow, or_div_two_pow, or_div_two_pow, or_div_two_pow, or_mod_two_pow,
    or_mod_two_pow, or_mod_two_pow]

theorem bswap32_lt (x : Nat) : bswap32 x < 2 ^ 32 := by
  unfold bswap32
  omega

theorem bswap32_bytes (a b c d : Nat) (ha : a < 256) (hb : b < 256) (hc : c < 256)
    (hd : d < 256) :
    bswap32 (a * 2 ^ 24 + b * 2 ^ 16 + c * 2 ^ 8 + d) = d * 2 ^ 24 + c * 2 ^ 16 + b * 2 ^ 8 + a := by
  unfold bswap32
  omega

theorem bswap32_complement (m : Nat) (h : m < 2 ^ 32) :
    0xFFFFFFFF - bswap32 m = bswap32 (0xFFFFFFFF - m) := by
  have hm : m = m / 2 ^ 24 % 256 * 2 ^ 24 + m / 2 ^ 16 % 256 * 2 ^ 16 + m / 2 ^ 8 % 256 * 2 ^ 8
      + m % 256 := by omega
  have hc : 0xFFFFFFFF - m = (255 - m / 2 ^ 24 % 256) * 2 ^ 24 + (255 - m / 2 ^ 16 % 256) * 2 ^ 16
      + (255 - m / 2 ^ 8 % 256) * 2 ^ 8 + (255 - m % 256) := by omega
  have h1 : bswap32 m = m % 256 * 2 ^ 24 + m / 2 ^ 8 % 256 * 2 ^ 16 + m / 2 ^ 16 % 256 * 2 ^ 8
      + m / 2 ^ 24 % 256 := rfl
  rw [hc, bswap32_bytes _ _ _ _ (by omega) (by omega) (by omega) (by omega), h1]
  omega

theorem htonl_lt (le : Bool) (x : Nat) (h : x < 2 ^ 32) : htonl le x < 2 ^ 32 := by
  cases le
  · exact h
  · exact bswap32_lt x

theorem htonl_or (le : Bool) (a b : Nat) : htonl le (a ||| b) = htonl le a ||| htonl le b := by
  cases le
  · rfl
  · exact bswap32_or a b

theorem htonl_complement (le : Bool) (m : Nat) (h : m < 2 ^ 32) :
    0xFFFFFFFF - htonl le m = htonl le (0xFFFFFFFF - m) := by
  cases le
  · rfl
  · exact bswap32_complement m h

theorem htonl_inj (le : Bool) (a b : Nat) (ha : a < 2 ^ 32) (hb : b < 2 ^ 32) :
    htonl le a = htonl le b ↔ a = b := by
  constructor
  · intro h
    have := congrArg (ntohl le) h
    rwa [ntohl_htonl le a ha, ntohl_htonl le b hb] at this
  · intro h
    rw [h]

theorem htonl_broadcast (le : Bool) : htonl le 0xFFFFFFFF = 0xFFFFFFFF := by
  cases le <;> rfl

theorem string2addr_lt (ip : CppString) : string2addr ip < 2 ^ 32 := by
  unfold string2addr
  cases hl : inetPtonLoop (ip.takeWhile (fun c => c.val ≠ 0)) [] none with
  | none => simp
  | some res =>
    obtain ⟨o, v, h1, h2, h3, h4, _⟩ := inetPtonLoop_some _ [] none res
      (fun x hx => by cases hx) (fun x hx => by cases hx) hl
    match o, h2, h4, h1 with
    | [a, b, c], _, h4, h1 =>
      have ha : a < 256 := h4 a (by simp)
      have hb : b < 256 := h4 b (by simp)
      have hc : c < 256 := h4 c (by simp)
      rw [h1]
      simp only [List.cons_append, List.nil_append, List.foldl_cons, List.foldl_nil]
      omega

theorem or_and_of_disjoint (x c m : Nat) (h0 : c &&& m = 0) : (x ||| c) &&& m = x &&& m := by
  apply Nat.eq_of_testBit_eq
  intro i
  have hi : (c &&& m).testBit i = false := by rw [h0]; exact Nat.zero_testBit i
  rw [Nat.testBit_and] at hi
  simp only [Nat.testBit_and, Nat.testBit_or]
  cases h1 : x.testBit i <;> cases h2 : m.testBit i <;> cases h3 : c.testBit i <;>
    simp_all

/-- The host bits set in an address do not change its network part. -/
theorem or_hostBits_and_mask (x p : Nat) (hp : p ≤ 32) :
    (x ||| (0xFFFFFFFF - (2 ^ 32 - 2 ^ (32 - p)))) &&& (2 ^ 32 - 2 ^ (32 - p))
      = x &&& (2 ^ 32 - 2 ^ (32 - p)) := by
  have h0 : (0xFFFFFFFF - (2 ^ 32 - 2 ^ (32 - p))) &&& (2 ^ 32 - 2 ^ (32 - p)) = 0 := by
    interval_cases p <;> decide
  exact or_and_of_disjoint x _ _ h0

/-- The fields that the constructor computes for a valid prefix length. -/
theorem new_fields (le openRx openSock : Bool) (localIp remoteIp : CppString) (p : Byte)
    (hp : p.val ≤ 32) :
    (NetLink.new le openRx openSock localIp p remoteIp).m_broadcast
        = decide (htonl le (string2addr remoteIp) = INADDR_BROADCAST ∨
            htonl le (string2addr remoteIp)
              = htonl le (string2addr localIp)
                ||| (0xFFFFFFFF - htonl le (2 ^ 32 - 2 ^ (32 - p.val)))) ∧
      (NetLink.new le openRx openSock localIp p remoteIp).remoteSinAddr
        = (if htonl le (string2addr remoteIp) = INADDR_BROADCAST ∨
            htonl le (string2addr remoteIp)
              = htonl le (string2addr localIp)
                ||| (0xFFFFFFFF - htonl le (2 ^ 32 - 2 ^ (32 - p.val)))
           then htonl le (string2addr localIp)
                ||| (0xFFFFFFFF - htonl le (2 ^ 32 - 2 ^ (32 - p.val)))
           else htonl le (string2addr remoteIp)) := by
  have hnot : ¬ p.val > 32 := by omega
  unfold NetLink.new
  simp only [hnot, if_false]
  rw [netmask_shift p.val hp]
  split <;> exact ⟨rfl, rfl⟩

/-! ## The broadcast decision of the constructor -/

theorem subnetBroadcast_host (le : Bool) (l p : Nat) :
    htonl le l ||| (0xFFFFFFFF - htonl le (2 ^ 32 - 2 ^ (32 - p)))
      = htonl le (l ||| (0xFFFFFFFF - (2 ^ 32 - 2 ^ (32 - p)))) := by
  have hpos : 0 < 2 ^ (32 - p) := Nat.pos_pow_of_pos _ (by decide)
  rw [htonl_complement le _ (by omega), htonl_or]

theorem subnetBroadcast_lt (l p : Nat) (hl : l < 2 ^ 32) :
    l ||| (0xFFFFFFFF - (2 ^ 32 - 2 ^ (32 - p))) < 2 ^ 32 :=
  Nat.or_lt_two_pow hl (by omega)

/-- C31: for every local address text (host-order value `L`), every prefix length
`p` in 0..32 (netmask `M`, the `p` leading one bits) and every remote address text
(host-order value `R`), the constructor marks the link as broadcast exactly when
`R` is 255.255.255.255 or `R = L | ~M`; the remote address it then sends to is
`L | ~M`, whose masked value equals `L & M`; otherwise the remote address stays
`R`. -/
theorem new_broadcast_iff (le openRx openSock : Bool) (localIp remoteIp : CppString) (p : Byte)
    (hp : p.val ≤ 32) :
    ((NetLink.new le openRx openSock localIp p remoteIp).m_broadcast = true ↔
        string2addr remoteIp = 0xFFFFFFFF ∨
        string2addr remoteIp
          = string2addr localIp ||| (0xFFFFFFFF - (2 ^ 32 - 2 ^ (32 - p.val)))) ∧
      ((NetLink.new le openRx openSock localIp p remoteIp).m_broadcast = true →
        ntohl le (NetLink.new le openRx openSock localIp p remoteIp).remoteSinAddr
            = string2addr localIp ||| (0xFFFFFFFF - (2 ^ 32 - 2 ^ (32 - p.val))) ∧
          (string2addr localIp ||| (0xFFFFFFFF - (2 ^ 32 - 2 ^ (32 - p.val))))
              &&& (2 ^ 32 - 2 ^ (32 - p.val))
            = string2addr localIp &&& (2 ^ 32 - 2 ^ (32 - p.val))) ∧
      ((NetLink.new le openRx openSock localIp p remoteIp).m_broadcast = false →
        ntohl le (NetLink.new le openRx openSock localIp p remoteIp).remoteSinAddr
          = string2addr remoteIp) := by
  obtain ⟨hb, hr⟩ := new_fields le openRx openSock localIp remoteIp p hp
  have hL := string2addr_lt localIp
  have hR := string2addr_lt remoteIp
  have hS := subnetBroadcast_lt (string2addr localIp) p.val hL
  have hiff : (htonl le (string2addr remoteIp) = INADDR_BROADCAST ∨
      htonl le (string2addr remoteIp)
        = htonl le (string2addr localIp)
          ||| (0xFFFFFFFF - htonl le (2 ^ 32 - 2 ^ (32 - p.val)))) ↔
      (string2addr remoteIp = 0xFFFFFFFF ∨
        string2addr remoteIp
          = string2addr localIp ||| (0xFFFFFFFF - (2 ^ 32 - 2 ^ (32 - p.val)))) := by
    rw [subnetBroadcast_host le _ _, htonl_inj le _ _ hR hS]
    have h1 : htonl le (string2addr remoteIp) = INADDR_BROADCAST
        ↔ string2addr remoteIp = 0xFFFFFFFF := by
      have := htonl_inj le (string2addr remoteIp) 0xFFFFFFFF hR (by decide)
      rw [htonl_broadcast] at this
      exact this
    rw [h1]
  refine ⟨?_, ?_, ?_⟩
  · rw [hb, decide_eq_true_iff]
    exact hiff
  · intro h
    rw [hb, decide_eq_true_iff] at h
    refine ⟨?_, or_hostBits_and_mask _ _ hp⟩
    rw [hr, if_pos h, subnetBroadcast_host le _ _, ntohl_htonl le _ hS]
  · intro h
    rw [hb, decide_eq_false_iff_not] at h
    rw [hr, if_neg h, ntohl_htonl le _ hR]

/-- C31 applies to the local address 192.168.1.100/24 with the remote addresses
255.255.255.255, 192.168.1.255 (both broadcast, sent to 192.168.1.255) and
192.168.1.7 (kept). -/
theorem new_broadcast_iff_witness :
    ((24 : Byte).val ≤ 32 ∧
      ((NetLink.new true true true (ascii "192.168.1.100") 24 BROADCAST_IP).m_broadcast = true ↔
          string2addr BROADCAST_IP = 0xFFFFFFFF ∨
          string2addr BROADCAST_IP
            = string2addr (ascii "192.168.1.100")
              ||| (0xFFFFFFFF - (2 ^ 32 - 2 ^ (32 - (24 : Byte).val)))) ∧
      ((NetLink.new true true true (ascii "192.168.1.100") 24 BROADCAST_IP).m_broadcast = true →
        ntohl true (NetLink.new true true true (ascii "192.168.1.100") 24
              BROADCAST_IP).remoteSinAddr
            = string2addr (ascii "192.168.1.100")
              ||| (0xFFFFFFFF - (2 ^ 32 - 2 ^ (32 - (24 : Byte).val))) ∧
          (string2addr (ascii "192.168.1.100")
                ||| (0xFFFFFFFF - (2 ^ 32 - 2 ^ (32 - (24 : Byte).val))))
              &&& (2 ^ 32 - 2 ^ (32 - (24 : Byte).val))
            = string2addr (ascii "192.168.1.100") &&& (2 ^ 32 - 2 ^ (32 - (24 : Byte).val))) ∧
      ((NetLink.new true true true (ascii "192.168.1.100") 24 BROADCAST_IP).m_broadcast = false →
        ntohl true (NetLink.new true true true (ascii "192.168.1.100") 24
              BROADCAST_IP).remoteSinAddr
          = string2addr BROADCAST_IP)) ∧
    ((NetLink.new true true true (ascii "192.168.1.100") 24 BROADCAST_IP).m_broadcast = true ∧
      ntohl true (NetLink.new true true true (ascii "192.168.1.100") 24
          BROADCAST_IP).remoteSinAddr = 0xC0A801FF) ∧
    ((NetLink.new true true true (ascii "192.168.1.100") 24
          (ascii "192.168.1.255")).m_broadcast = true ∧
      ntohl true (NetLink.new true true true (ascii "192.168.1.100") 24
          (ascii "192.168.1.255")).remoteSinAddr = 0xC0A801FF) ∧
    ((NetLink.new true true true (ascii "192.168.1.100") 24
          (ascii "192.168.1.7")).m_broadcast = false ∧
      ntohl true (NetLink.new true true true (ascii "192.168.1.100") 24
          (ascii "192.168.1.7")).remoteSinAddr = 0xC0A80107) :=
  ⟨⟨by decide, new_broadcast_iff true true true (ascii "192.168.1.100") BROADCAST_IP 24
      (by decide)⟩, by decide, by decide, by decide⟩

/-! ## MAC texts -/

set_option maxRecDepth 100000 in
theorem stoi16_hexByte : ∀ b : Byte, stoi16 (hexByte b) = some (b.val : Int) := by
  decide

theorem hexDigit_lowerHex : ∀ n : Fin 16,
    isLowerHex (hexDigit n.val) = true ∧ (hexDigit n.val).val ≠ 58 := by
  decide

theorem hexByte_lowerHex (b : Byte) : ∀ c, c ∈ hexByte b → isLowerHex c = true := by
  intro c hc
  simp only [hexByte, List.mem_cons, List.mem_singleton, List.not_mem_nil, or_false] at hc
  have h1 := hexDigit_lowerHex ⟨b.val / 16, by omega⟩
  have h2 := hexDigit_lowerHex ⟨b.val % 16, by omega⟩
  rcases hc with hc | hc
  · rw [hc]; exact h1.1
  · rw [hc]; exact h2.1

theorem getlineTokens_hexByte (b : Byte) (rest : List Byte) :
    getlineTokens (hexByte b ++ rest) [] = getlineTokens rest (hexByte b) := by
  have h1 := (hexDigit_lowerHex ⟨b.val / 16, by omega⟩).2
  have h2 := (hexDigit_lowerHex ⟨b.val % 16, by omega⟩).2
  simp only [hexByte, List.cons_append, List.nil_append, getlineTokens]
  rw [if_neg h1, if_neg h2]
  rfl

theorem getlineTokens_colon (cur : CppString) (rest : List Byte) :
    getlineTokens ((58 : Byte) :: rest) cur = cur :: getlineTokens rest [] := by
  rw [getlineTokens]
  exact if_pos (show ((58 : Byte).val = 58) from rfl)

theorem getlineTokens_convertMacToString (m : MacAddress) :
    getlineTokens (convertMacToString m) []
      = [hexByte m.b0, hexByte m.b1, hexByte m.b2, hexByte m.b3, hexByte m.b4, hexByte m.b5] := by
  have hc : ascii ":" = [(58 : Byte)] := rfl
  simp only [convertMacToString, hc, List.append_assoc, List.singleton_append, List.cons_append,
    List.nil_append]
  rw [getlineTokens_hexByte, getlineTokens_colon, getlineTokens_hexByte, getlineTokens_colon,
    getlineTokens_hexByte, getlineTokens_colon, getlineTokens_hexByte, getlineTokens_colon,
    getlineTokens_hexByte, getlineTokens_colon]
  have := getlineTokens_hexByte m.b5 []
  rw [List.append_nil] at this
  rw [this]
  have hne : hexByte m.b5 ≠ [] := by simp [hexByte]
  simp only [getlineTokens, hne, if_false]

theorem byte_of_val (b : Byte) : (Fin.ofNat (((b.val : Int) % 256).toNat) : Byte) = b := by
  apply Fin.ext
  have hb := b.isLt
  simp only [Fin.ofNat, Fin.val_mk]
  omega

/-- `convertMacToStruct` reads back what `convertMacToString` printed. -/
theorem convertMacToStruct_convertMacToString (m : MacAddress) :
    convertMacToStruct (convertMacToString m) = .ok m := by
  unfold convertMacToStruct
  rw [getlineTokens_convertMacToString]
  simp only [convertMacLoop, stoi16_hexByte, byte_of_val, MacAddress.set]
  simp

theorem convertMacToString_groups (m : MacAddress) :
    convertMacToString m = List.intercalate (ascii ":") (m.toList.map hexByte) := by
  simp [convertMacToString, MacAddress.toList, List.intercalate, List.intersperse]

theorem readMac_bytes (buffer : ByteBuffer) (offset : Nat) (m : MacAddress)
    (h : readMac buffer offset = .ok m) : (buffer.drop offset).take 6 = m.toList := by
  unfold readMac readBytes at h
  simp only [show ¬ (6 = 0) by decide, if_false] at h
  by_cases hle : offset + 6 ≤ buffer.length
  · simp only [hle, if_true, bind, Except.bind] at h
    split at h
    · rename_i hbs
      simp only [pure, Except.pure, Except.ok.injEq] at h
      rw [hbs, ← h]
      rfl
    · cases h
  · simp only [hle, if_false, bind, Except.bind] at h
    cases h

theorem assignPacket_mac (mac : MacAddress) (c : Nat) (payload : ByteBuffer) :
    ((assignPacket mac c payload).drop 4).take 6 = mac.toList := by
  simp [assignPacket, writeUnalignBigEndian16, writeUnalignBigEndian32, MacAddress.toList]

/-- C33: for every six-byte MAC `m`, `convertMacToString m` is a string of 17
characters, the six groups `hexByte` of the bytes joined by `:`, each group two
lowercase hexadecimal digits that `std::stoi(., 16)` reads back as the byte;
`convertMacToStruct (convertMacToString m) = m`; hence the frame that `assign`
builds for the text `convertMacToString m`, which is what the decoder stores for an
`EMAC` entry with the bytes `m`, carries these six bytes at [4:10]. -/
theorem mac_text_round_trip (m : MacAddress) :
    (convertMacToString m).length = 17 ∧
      convertMacToString m = List.intercalate (ascii ":") (m.toList.map hexByte) ∧
      (∀ b : Byte, (hexByte b).length = 2 ∧ (∀ c, c ∈ hexByte b → isLowerHex c = true) ∧
        stoi16 (hexByte b) = some (b.val : Int)) ∧
      convertMacToStruct (convertMacToString m) = .ok m ∧
      (∀ (t : Nat) (received : List ByteBuffer) (colaVer : ColaVersion)
          (ip mask gw : CppString) (dhcpEnable : Bool) (ms : Nat),
        ∃ packet events,
          assign t received (convertMacToString m) colaVer ip mask gw dhcpEnable ms
            = .ok { returned := (assignLoop ms received).1, events := .write packet :: events } ∧
          (packet.drop 4).take 6 = m.toList) ∧
      (∀ (buffer : ByteBuffer) (offset : Nat), readMac buffer offset = .ok m →
        (buffer.drop offset).take 6 = m.toList) := by
  refine ⟨?_, convertMacToString_groups m, ?_, convertMacToStruct_convertMacToString m, ?_, ?_⟩
  · simp [convertMacToString, hexByte, ascii]
  · intro b
    exact ⟨rfl, hexByte_lowerHex b, stoi16_hexByte b⟩
  · intro t received colaVer ip mask gw dhcpEnable ms
    exact ⟨_, _, assign_ok t received _ colaVer ip mask gw dhcpEnable ms m
      (convertMacToStruct_convertMacToString m), assignPacket_mac _ _ _⟩
  · intro buffer offset h
    exact readMac_bytes buffer offset m h

set_option maxRecDepth 65536 in
/-- C33 applies to the MAC 00:06:77:01:02:ab of `sampleReport`: the decoder reads
the six bytes at offset 61 and returns their text, and the frame built for that
text carries the same six bytes. -/
theorem mac_text_round_trip_witness :
    ((convertMacToString sampleMacBytes).length = 17 ∧
      convertMacToString sampleMacBytes
        = List.intercalate (ascii ":") (sampleMacBytes.toList.map hexByte) ∧
      (∀ b : Byte, (hexByte b).length = 2 ∧ (∀ c, c ∈ hexByte b → isLowerHex c = true) ∧
        stoi16 (hexByte b) = some (b.val : Int)) ∧
      convertMacToStruct (convertMacToString sampleMacBytes) = .ok sampleMacBytes ∧
      (∀ (t : Nat) (received : List ByteBuffer) (colaVer : ColaVersion)
          (ip mask gw : CppString) (dhcpEnable : Bool) (ms : Nat),
        ∃ packet events,
          assign t received (convertMacToString sampleMacBytes) colaVer ip mask gw dhcpEnable ms
            = .ok { returned := (assignLoop ms received).1, events := .write packet :: events } ∧
          (packet.drop 4).take 6 = sampleMacBytes.toList) ∧
      (∀ (buffer : ByteBuffer) (offset : Nat), readMac buffer offset = .ok sampleMacBytes →
        (buffer.drop offset).take 6 = sampleMacBytes.toList)) ∧
    readMac sampleReport 61 = .ok sampleMacBytes ∧
    parseAutoIPBinary sampleReport = .ok sampleInfo ∧
    sampleInfo.macAddress = convertMacToString sampleMacBytes ∧
    convertMacToString sampleMacBytes = ascii "00:06:77:01:02:ab" ∧
    (sampleReport.drop 61).take 6 = [0x00, 0x06, 0x77, 0x01, 0x02, 0xab] :=
  ⟨mac_text_round_trip sampleMacBytes, rfl, rfl, by decide, by decide, by decide⟩

/-! ## The decoder reads nothing before offset 16 -/

theorem readBytes_agree (b1 b2 : ByteBuffer) (hlen : b1.length = b2.length)
    (hdrop : b1.drop 16 = b2.drop 16) (k len : Nat) :
    readBytes b1 (16 + k) len = readBytes b2 (16 + k) len := by
  have h : b1.drop (16 + k) = b2.drop (16 + k) := by
    have := congrArg (List.drop k) hdrop
    rw [List.drop_drop, List.drop_drop] at this
    exact this
  unfold readBytes
  rw [hlen, h]

theorem parseHeader_agree (b1 b2 : ByteBuffer) (hlen : b1.length = b2.length)
    (hdrop : b1.drop 16 = b2.drop 16) : parseHeader b1 = parseHeader b2 := by
  unfold parseHeader readUnalignBigEndian
  simp only [Nat.add_assoc, readBytes_agree b1 b2 hlen hdrop, hlen]

theorem auxBody_agree (b1 b2 : ByteBuffer) (hlen : b1.length = b2.length)
    (hdrop : b1.drop 16 = b2.drop 16) (s : ParseState) (h16 : 16 ≤ s.offset) :
    auxBody b1 s = auxBody b2 s := by
  obtain ⟨k, hk⟩ : ∃ k, s.offset = 16 + k := ⟨s.offset - 16, by omega⟩
  unfold auxBody readUnalignBigEndian
  simp only [hk, Nat.add_assoc, readBytes_agree b1 b2 hlen hdrop, hlen]

theorem scanIfBody_agree (b1 b2 : ByteBuffer) (hlen : b1.length = b2.length)
    (hdrop : b1.drop 16 = b2.drop 16) (s : ParseState) (h16 : 16 ≤ s.offset) :
    scanIfBody b1 s = scanIfBody b2 s := by
  obtain ⟨k, hk⟩ : ∃ k, s.offset = 16 + k := ⟨s.offset - 16, by omega⟩
  unfold scanIfBody readUnalignBigEndian
  simp only [hk, Nat.add_assoc, readBytes_agree b1 b2 hlen hdrop, hlen]

theorem comSettingsBody_agree (b1 b2 : ByteBuffer) (hlen : b1.length = b2.length)
    (hdrop : b1.drop 16 = b2.drop 16) (s : ParseState) (h16 : 16 ≤ s.offset) :
    comSettingsBody b1 s = comSettingsBody b2 s := by
  obtain ⟨k, hk⟩ : ∃ k, s.offset = 16 + k := ⟨s.offset - 16, by omega⟩
  unfold comSettingsBody readUnalignBigEndian readMac
  simp only [hk, Nat.add_assoc, readBytes_agree b1 b2 hlen hdrop, hlen]

theorem endPointEntryBody_agree (b1 b2 : ByteBuffer) (hlen : b1.length = b2.length)
    (hdrop : b1.drop 16 = b2.drop 16) (s : ParseState) (h16 : 16 ≤ s.offset) :
    endPointEntryBody b1 s = endPointEntryBody b2 s := by
  obtain ⟨k, hk⟩ : ∃ k, s.offset = 16 + k := ⟨s.offset - 16, by omega⟩
  unfold endPointEntryBody readUnalignBigEndian
  simp only [hk, Nat.add_assoc, readBytes_agree b1 b2 hlen hdrop, hlen]

theorem endPointHead_agree (b1 b2 : ByteBuffer) (hlen : b1.length = b2.length)
    (hdrop : b1.drop 16 = b2.drop 16) (s : ParseState) (h16 : 16 ≤ s.offset) :
    endPointHead b1 s = endPointHead b2 s := by
  obtain ⟨k, hk⟩ : ∃ k, s.offset = 16 + k := ⟨s.offset - 16, by omega⟩
  unfold endPointHead readUnalignBigEndian
  simp only [hk, Nat.add_assoc, readBytes_agree b1 b2 hlen hdrop, hlen]

theorem arrayCount_agree (b1 b2 : ByteBuffer) (hlen : b1.length = b2.length)
    (hdrop : b1.drop 16 = b2.drop 16) (s : ParseState) (h16 : 16 ≤ s.offset) :
    arrayCount b1 s = arrayCount b2 s := by
  obtain ⟨k, hk⟩ : ∃ k, s.offset = 16 + k := ⟨s.offset - 16, by omega⟩
  unfold arrayCount readUnalignBigEndian
  simp only [hk, readBytes_agree b1 b2 hlen hdrop, hlen]

/-! The read position never falls below 16. -/

theorem parseHeader_offset (b : ByteBuffer) :
    Sat (parseHeader b) (fun r => 16 ≤ r.1.offset) (fun _ => True) := by
  unfold parseHeader
  simp only [sat_bind, sat_ite, sat_pure, sat_throw, sat_readBytes, sat_readUnalignBigEndian]
  simp
  omega

theorem auxBody_offset (b : ByteBuffer) (s : ParseState) :
    Sat (auxBody b s) (fun s1 => s.offset ≤ s1.offset) (fun _ => True) := by
  unfold auxBody
  simp only [sat_bind, sat_ite, sat_pure, sat_throw, sat_readBytes, sat_readUnalignBigEndian]
  simp
  omega

theorem scanIfBody_offset (b : ByteBuffer) (s : ParseState) :
    Sat (scanIfBody b s) (fun s1 => s.offset ≤ s1.offset) (fun _ => True) := by
  unfold scanIfBody
  simp only [sat_bind, sat_ite, sat_pure, sat_throw, sat_readBytes, sat_readUnalignBigEndian]
  simp
  omega

theorem comSettingsBody_offset (b : ByteBuffer) (s : ParseState) :
    Sat (comSettingsBody b s) (fun s1 => s.offset ≤ s1.offset) (fun _ => True) := by
  unfold comSettingsBody
  simp only [sat_bind, sat_ite, sat_pure, sat_throw, sat_readBytes, sat_readUnalignBigEndian,
    sat_readMac]
  simp
  repeat (first | omega | intro _ | constructor)

theorem endPointEntryBody_offset (b : ByteBuffer) (s : ParseState) :
    Sat (endPointEntryBody b s) (fun s1 => s.offset ≤ s1.offset) (fun _ => True) := by
  unfold endPointEntryBody
  simp only [sat_bind, sat_ite, sat_pure, sat_throw, sat_readBytes, sat_readUnalignBigEndian]
  simp
  omega

theorem endPointHead_offset (b : ByteBuffer) (s : ParseState) :
    Sat (endPointHead b s) (fun r => s.offset ≤ r.1.offset) (fun _ => True) := by
  unfold endPointHead
  simp only [sat_bind, sat_ite, sat_pure, sat_throw, sat_readBytes, sat_readUnalignBigEndian]
  simp
  omega

theorem arrayCount_offset (b : ByteBuffer) (s : ParseState) :
    Sat (arrayCount b s) (fun r => s.offset ≤ r.1.offset) (fun _ => True) := by
  unfold arrayCount
  simp only [sat_bind, sat_ite, sat_pure, sat_throw, sat_readBytes, sat_readUnalignBigEndian]
  simp

/-- Two computations that agree, followed by continuations that agree on every
result the first part can deliver, agree. -/
theorem bind_agree {α β : Type} (x1 x2 : Except Stop α) (f1 f2 : α → Except Stop β)
    (P : α → Prop) (hx : x1 = x2) (hP : Sat x2 P (fun _ => True))
    (hf : ∀ a, P a → f1 a = f2 a) : (x1 >>= f1) = (x2 >>= f2) := by
  subst hx
  cases x1 with
  | error e => rfl
  | ok a => exact hf a hP

theorem loopN_agree {σ : Type} (f g : σ → Except Stop σ) (P : σ → Prop)
    (hfg : ∀ s, P s → f s = g s) (hP : ∀ s, P s → Sat (g s) P (fun _ => True)) :
    ∀ (n : Nat) (s : σ), P s → loopN f n s = loopN g n s
  | 0, _, _ => rfl
  | n + 1, s, hs => by
    rw [loopN, loopN]
    exact bind_agree _ _ _ _ P (hfg s hs) (hP s hs) (fun a ha => loopN_agree f g P hfg hP n a ha)

theorem offset_inv {f : ParseState → Except Stop ParseState}
    (h : ∀ s, Sat (f s) (fun s1 => s.offset ≤ s1.offset) (fun _ => True)) :
    ∀ s, 16 ≤ s.offset → Sat (f s) (fun s1 : ParseState => 16 ≤ s1.offset) (fun _ => True) :=
  fun s hs => (h s).mono (fun _ ha => Nat.le_trans hs ha) (fun _ h => h)

theorem endPointBody_offset (b : ByteBuffer) (s : ParseState) (hs : 16 ≤ s.offset) :
    Sat (endPointBody b s) (fun s1 : ParseState => 16 ≤ s1.offset) (fun _ => True) := by
  rw [endPointBody_eq]
  refine Sat.bind ((endPointHead_offset b s).mono (fun _ ha => Nat.le_trans hs ha)
    (fun _ h => h)) (fun r hr => ?_)
  exact sat_loopN _ (fun s1 : ParseState => 16 ≤ s1.offset) _
    (offset_inv (endPointEntryBody_offset b)) _ _ hr

theorem endPointBody_agree (b1 b2 : ByteBuffer) (hlen : b1.length = b2.length)
    (hdrop : b1.drop 16 = b2.drop 16) (s : ParseState) (h16 : 16 ≤ s.offset) :
    endPointBody b1 s = endPointBody b2 s := by
  rw [endPointBody_eq, endPointBody_eq]
  refine bind_agree _ _ _ _ (fun r : ParseState × Nat => 16 ≤ r.1.offset) (endPointHead_agree b1 b2 hlen hdrop s h16)
    ((endPointHead_offset b2 s).mono (fun _ ha => Nat.le_trans h16 ha) (fun _ h => h))
    (fun r hr => ?_)
  exact loopN_agree _ _ (fun s1 : ParseState => 16 ≤ s1.offset) (endPointEntryBody_agree b1 b2 hlen hdrop)
    (offset_inv (endPointEntryBody_offset b2)) _ _ hr

theorem arrayCount_offset16 (b : ByteBuffer) (s : ParseState) (hs : 16 ≤ s.offset) :
    Sat (arrayCount b s) (fun r : ParseState × Nat => 16 ≤ r.1.offset) (fun _ => True) :=
  (arrayCount_offset b s).mono (fun _ ha => Nat.le_trans hs ha) (fun _ h => h)

theorem parseArrays_agree (b1 b2 : ByteBuffer) (hlen : b1.length = b2.length)
    (hdrop : b1.drop 16 = b2.drop 16) : parseArrays b1 = parseArrays b2 := by
  unfold parseArrays parseToComSettings
  simp only [bind_assoc]
  refine bind_agree _ _ _ _ (fun r : ParseState × Nat => 16 ≤ r.1.offset) (parseHeader_agree b1 b2 hlen hdrop)
    (parseHeader_offset b2) (fun r0 h0 => ?_)
  refine bind_agree _ _ _ _ (fun s : ParseState => 16 ≤ s.offset)
    (loopN_agree _ _ (fun s1 : ParseState => 16 ≤ s1.offset) (auxBody_agree b1 b2 hlen hdrop)
      (offset_inv (auxBody_offset b2)) _ _ h0)
    (sat_loopN _ (fun s1 : ParseState => 16 ≤ s1.offset) _ (offset_inv (auxBody_offset b2)) _ _ h0)
    (fun s1 h1 => ?_)
  refine bind_agree _ _ _ _ (fun r : ParseState × Nat => 16 ≤ r.1.offset) (arrayCount_agree b1 b2 hlen hdrop s1 h1)
    (arrayCount_offset16 b2 s1 h1) (fun r2 h2 => ?_)
  refine bind_agree _ _ _ _ (fun s : ParseState => 16 ≤ s.offset)
    (loopN_agree _ _ (fun s1 : ParseState => 16 ≤ s1.offset) (scanIfBody_agree b1 b2 hlen hdrop)
      (offset_inv (scanIfBody_offset b2)) _ _ h2)
    (sat_loopN _ (fun s1 : ParseState => 16 ≤ s1.offset) _ (offset_inv (scanIfBody_offset b2)) _ _ h2)
    (fun s3 h3 => ?_)
  refine bind_agree _ _ _ _ (fun r : ParseState × Nat => 16 ≤ r.1.offset) (arrayCount_agree b1 b2 hlen hdrop s3 h3)
    (arrayCount_offset16 b2 s3 h3) (fun r4 h4 => ?_)
  refine bind_agree _ _ _ _ (fun s : ParseState => 16 ≤ s.offset)
    (loopN_agree _ _ (fun s1 : ParseState => 16 ≤ s1.offset) (comSettingsBody_agree b1 b2 hlen hdrop)
      (offset_inv (comSettingsBody_offset b2)) _ _ h4)
    (sat_loopN _ (fun s1 : ParseState => 16 ≤ s1.offset) _ (offset_inv (comSettingsBody_offset b2)) _ _ h4)
    (fun s5 h5 => ?_)
  refine bind_agree _ _ _ _ (fun r : ParseState × Nat => 16 ≤ r.1.offset) (arrayCount_agree b1 b2 hlen hdrop s5 h5)
    (arrayCount_offset16 b2 s5 h5) (fun r6 h6 => ?_)
  exact loopN_agree _ _ (fun s1 : ParseState => 16 ≤ s1.offset) (endPointBody_agree b1 b2 hlen hdrop)
    (endPointBody_offset b2) _ _ h6

/-- C36: `parseAutoIPBinary` does not depend on the 16-byte frame header: for any
two buffers of equal length that agree on every byte from index 16 onwards it
gives the same outcome, the same `DeviceInfo` or the same read outside the
buffer. -/
theorem parseAutoIPBinary_ignores_frame_header (b1 b2 : ByteBuffer)
    (hlen : b1.length = b2.length) (hdrop : b1.drop 16 = b2.drop 16) :
    parseAutoIPBinary b1 = parseAutoIPBinary b2 := by
  unfold parseAutoIPBinary parseBody
  rw [parseArrays_agree b1 b2 hlen hdrop]

/-! ## The passes of the decoder loops -/

/-! Every pass raises `minSize` by at least 3, and a pass that completes has
passed its length checks. -/

theorem parseHeader_minSize (b : ByteBuffer) :
    Sat (parseHeader b) (fun r => 3 ≤ r.1.minSize ∧ r.1.minSize ≤ b.length) (fun _ => True) := by
  unfold parseHeader
  simp only [sat_bind, sat_ite, sat_pure, sat_throw, sat_readBytes, sat_readUnalignBigEndian]
  simp

theorem auxBody_minSize (b : ByteBuffer) (s : ParseState) :
    Sat (auxBody b s) (fun s1 => s.minSize + 3 ≤ s1.minSize ∧ s1.minSize ≤ b.length)
      (fun _ => True) := by
  unfold auxBody
  simp only [sat_bind, sat_ite, sat_pure, sat_throw, sat_readBytes, sat_readUnalignBigEndian]
  simp
  omega

theorem scanIfBody_minSize (b : ByteBuffer) (s : ParseState) :
    Sat (scanIfBody b s) (fun s1 => s.minSize + 3 ≤ s1.minSize ∧ s1.minSize ≤ b.length)
      (fun _ => True) := by
  unfold scanIfBody
  simp only [sat_bind, sat_ite, sat_pure, sat_throw, sat_readBytes, sat_readUnalignBigEndian]
  simp
  omega

theorem comSettingsBody_minSize (b : ByteBuffer) (s : ParseState) :
    Sat (comSettingsBody b s) (fun s1 => s.minSize + 3 ≤ s1.minSize ∧ s1.minSize ≤ b.length)
      (fun _ => True) := by
  unfold comSettingsBody
  simp only [sat_bind, sat_ite, sat_pure, sat_throw, sat_readBytes, sat_readUnalignBigEndian,
    sat_readMac]
  simp
  repeat (first | omega | intro _ | constructor)

theorem endPointEntryBody_minSize (b : ByteBuffer) (s : ParseState) :
    Sat (endPointEntryBody b s)
      (fun s1 => s.minSize + 3 ≤ s1.minSize ∧ s1.minSize ≤ b.length) (fun _ => True) := by
  unfold endPointEntryBody
  simp only [sat_bind, sat_ite, sat_pure, sat_throw, sat_readBytes, sat_readUnalignBigEndian]
  simp
  omega

theorem endPointHead_minSize (b : ByteBuffer) (s : ParseState) :
    Sat (endPointHead b s)
      (fun r => r.1.minSize = s.minSize + 3 ∧ r.1.minSize ≤ b.length) (fun _ => True) := by
  unfold endPointHead
  simp only [sat_bind, sat_ite, sat_pure, sat_throw, sat_readBytes, sat_readUnalignBigEndian]
  simp
  omega

theorem arrayCount_minSize (b : ByteBuffer) (s : ParseState) :
    Sat (arrayCount b s)
      (fun r => s.minSize ≤ r.1.minSize ∧ r.1.minSize ≤ b.length) (fun _ => True) := by
  unfold arrayCount
  simp only [sat_bind, sat_ite, sat_pure, sat_throw, sat_readBytes, sat_readUnalignBigEndian]
  simp
  omega

/-- The passes that a loop begins, counted against a measure that every pass
raises by at least 3 and that a completed pass keeps within `L`. -/
theorem loopPasses_bound {σ : Type} (body : σ → Except Stop σ) (inner : σ → Nat) (μ : σ → Nat)
    (L : Nat)
    (hok : ∀ s s1, μ s ≤ L → body s = .ok s1 → 3 * (1 + inner s) + μ s ≤ μ s1 ∧ μ s1 ≤ L)
    (herr : ∀ s e, μ s ≤ L → body s = .error e → 3 * (1 + inner s) + μ s ≤ L + 3) :
    ∀ (n : Nat) (s : σ), μ s ≤ L →
      3 * loopPasses body inner n s + μ s ≤ L + 3 ∧
      (∀ s2, loopN body n s = .ok s2 →
        3 * loopPasses body inner n s + μ s ≤ μ s2 ∧ μ s2 ≤ L)
  | 0, s, hs => by
    refine ⟨by simp only [loopPasses]; omega, fun s2 h => ?_⟩
    have : s = s2 := by simpa [loopN, pure, Except.pure] using h
    subst this
    simp only [loopPasses]
    omega
  | n + 1, s, hs => by
    cases hb : body s with
    | error e =>
      have h1 := herr s e hs hb
      refine ⟨by simp only [loopPasses, hb]; omega, fun s2 h => ?_⟩
      simp [loopN, hb, bind, Except.bind] at h
    | ok s1 =>
      obtain ⟨h1, h2⟩ := hok s s1 hs hb
      obtain ⟨h3, h4⟩ := loopPasses_bound body inner μ L hok herr n s1 h2
      refine ⟨by simp only [loopPasses, hb]; omega, fun s2 h => ?_⟩
      have h5 : loopN body n s1 = .ok s2 := by simpa [loopN, hb, bind, Except.bind] using h
      obtain ⟨h6, h7⟩ := h4 s2 h5
      refine ⟨by simp only [loopPasses, hb]; omega, h7⟩

theorem simple_loop_bound (b : ByteBuffer) (body : ParseState → Except Stop ParseState)
    (hbody : ∀ s, Sat (body s)
      (fun s1 => s.minSize + 3 ≤ s1.minSize ∧ s1.minSize ≤ b.length) (fun _ => True))
    (n : Nat) (s : ParseState) (hs : s.minSize ≤ b.length) :
    3 * loopPasses body (fun _ => 0) n s + s.minSize ≤ b.length + 3 ∧
      (∀ s2, loopN body n s = .ok s2 →
        3 * loopPasses body (fun _ => 0) n s + s.minSize ≤ s2.minSize ∧
          s2.minSize ≤ b.length) := by
  refine loopPasses_bound body (fun _ => 0) (fun s => s.minSize) b.length ?_ ?_ n s hs
  · intro s s1 _ h
    have := (hbody s).of_ok h
    dsimp only at this ⊢
    omega
  · intro s e h _
    dsimp only at h ⊢
    omega

theorem endPoint_loop_bound (b : ByteBuffer) (n : Nat) (s : ParseState)
    (hs : s.minSize ≤ b.length) :
    3 * loopPasses (endPointBody b) (endPointInnerPasses b) n s + s.minSize ≤ b.length + 3 ∧
      (∀ s2, loopN (endPointBody b) n s = .ok s2 →
        3 * loopPasses (endPointBody b) (endPointInnerPasses b) n s + s.minSize ≤ s2.minSize ∧
          s2.minSize ≤ b.length) := by
  refine loopPasses_bound (endPointBody b) (endPointInnerPasses b) (fun s => s.minSize) b.length
    ?_ ?_ n s hs
  · intro s s1 _ h
    rw [endPointBody_eq] at h
    unfold endPointInnerPasses
    cases hh : endPointHead b s with
    | error e => simp [hh, bind, Except.bind] at h
    | ok r =>
      obtain ⟨s0, k⟩ := r
      have h1 := (endPointHead_minSize b s).of_ok hh
      have h2 := simple_loop_bound b (endPointEntryBody b) (endPointEntryBody_minSize b) k s0 h1.2
      have h3 : loopN (endPointEntryBody b) k s0 = .ok s1 := by
        simpa [hh, bind, Except.bind] using h
      have h4 := h2.2 s1 h3
      dsimp only at h1 h4 ⊢
      omega
  · intro s e hs h
    rw [endPointBody_eq] at h
    unfold endPointInnerPasses
    cases hh : endPointHead b s with
    | error e =>
      dsimp only at hs ⊢
      omega
    | ok r =>
      obtain ⟨s0, k⟩ := r
      have h1 := (endPointHead_minSize b s).of_ok hh
      have h2 := simple_loop_bound b (endPointEntryBody b) (endPointEntryBody_minSize b) k s0 h1.2
      dsimp only at h1 h2 hs ⊢
      omega

theorem endPointBody_minSize (b : ByteBuffer) (s : ParseState) :
    Sat (endPointBody b s) (fun s1 => s.minSize + 3 ≤ s1.minSize ∧ s1.minSize ≤ b.length)
      (fun _ => True) := by
  rw [sat_iff]
  refine ⟨fun s1 h => ?_, fun _ _ => trivial⟩
  rw [endPointBody_eq] at h
  cases hh : endPointHead b s with
  | error e => simp [hh, bind, Except.bind] at h
  | ok r =>
    obtain ⟨s0, k⟩ := r
    have h1 := (endPointHead_minSize b s).of_ok hh
    have h2 := simple_loop_bound b (endPointEntryBody b) (endPointEntryBody_minSize b) k s0 h1.2
    have h3 : loopN (endPointEntryBody b) k s0 = .ok s1 := by
      simpa [hh, bind, Except.bind] using h
    have h4 := h2.2 s1 h3
    dsimp only at h1 h4 ⊢
    omega

theorem bind_ok_inv {α β : Type} (x : Except Stop α) (f : α → Except Stop β) (r : β)
    (h : (x >>= f) = .ok r) : ∃ a, x = .ok a ∧ f a = .ok r := by
  cases x with
  | error e => cases h
  | ok a => exact ⟨a, rfl, h⟩

theorem parsePasses_bound (b : ByteBuffer) : 3 * parsePasses b ≤ b.length := by
  unfold parsePasses
  split
  · omega
  · rename_i s0 n0 h0
    have hH := (parseHeader_minSize b).of_ok h0
    dsimp only at hH
    have hA := simple_loop_bound b (auxBody b) (auxBody_minSize b) n0 s0 hH.2
    split
    · omega
    · rename_i s2 n2 h2
      obtain ⟨s1, h1, hc1⟩ := bind_ok_inv _ _ _ h2
      have hA2 := hA.2 s1 h1
      have hC1 := (arrayCount_minSize b s1).of_ok hc1
      dsimp only at hC1
      have hS := simple_loop_bound b (scanIfBody b) (scanIfBody_minSize b) n2 s2 hC1.2
      split
      · simp only [Nat.add_zero]
        omega
      · rename_i s4 n4 h4
        obtain ⟨s3, h3, hc3⟩ := bind_ok_inv _ _ _ h4
        have hS2 := hS.2 s3 h3
        have hC3 := (arrayCount_minSize b s3).of_ok hc3
        dsimp only at hC3
        have hM := simple_loop_bound b (comSettingsBody b) (comSettingsBody_minSize b) n4 s4 hC3.2
        split
        · simp only [Nat.add_zero, ← Nat.add_assoc]
          omega
        · rename_i s6 n6 h6
          obtain ⟨s5, h5, hc5⟩ := bind_ok_inv _ _ _ h6
          have hM2 := hM.2 s5 h5
          have hC5 := (arrayCount_minSize b s5).of_ok hc5
          dsimp only at hC5
          have hE := endPoint_loop_bound b n6 s6 hC5.2
          simp only [← Nat.add_assoc]
          omega

/-- C37: `parseAutoIPBinary` is a total function of the buffer, and the number of
loop passes it begins is bounded by the buffer length, whatever the declared
counts: every pass of each of its five loops that completes has raised `minSize`
by at least 3 and left it at most `buffer.size()` (a pass that finds it larger
returns), so three times the number of passes begun is at most the buffer
length. -/
theorem parseAutoIPBinary_passes_bounded (buffer : ByteBuffer) :
    (∃ r, parseAutoIPBinary buffer = r) ∧
      3 * parsePasses buffer ≤ buffer.length ∧
      (∀ s, Sat (auxBody buffer s)
        (fun s1 => s.minSize + 3 ≤ s1.minSize ∧ s1.minSize ≤ buffer.length) (fun _ => True)) ∧
      (∀ s, Sat (scanIfBody buffer s)
        (fun s1 => s.minSize + 3 ≤ s1.minSize ∧ s1.minSize ≤ buffer.length) (fun _ => True)) ∧
      (∀ s, Sat (comSettingsBody buffer s)
        (fun s1 => s.minSize + 3 ≤ s1.minSize ∧ s1.minSize ≤ buffer.length) (fun _ => True)) ∧
      (∀ s, Sat (endPointBody buffer s)
        (fun s1 => s.minSize + 3 ≤ s1.minSize ∧ s1.minSize ≤ buffer.length) (fun _ => True)) ∧
      (∀ s, Sat (endPointEntryBody buffer s)
        (fun s1 => s.minSize + 3 ≤ s1.minSize ∧ s1.minSize ≤ buffer.length) (fun _ => True)) :=
  ⟨⟨_, rfl⟩, parsePasses_bound buffer, auxBody_minSize buffer, scanIfBody_minSize buffer,
    comSettingsBody_minSize buffer, endPointBody_minSize buffer, endPointEntryBody_minSize buffer⟩

/-- A buffer of 57 bytes that declares 65535 auxiliary entries is decoded in two
passes. -/
theorem parsePasses_hugeCountReport :
    hugeCountReport.length = 57 ∧ parsePasses hugeCountReport = 2 ∧
      (parseHeader hugeCountReport).toOption.map (fun r => r.2) = some 65535 := by
  decide

set_option maxRecDepth 65536 in
/-- C36 applies to `sampleReport` and the same report behind another frame
header. -/
theorem parseAutoIPBinary_ignores_frame_header_witness :
    (otherHeaderReport.length = sampleReport.length ∧
      otherHeaderReport.drop 16 = sampleReport.drop 16) ∧
    parseAutoIPBinary otherHeaderReport = parseAutoIPBinary sampleReport ∧
    otherHeaderReport.take 16 ≠ sampleReport.take 16 ∧
    parseAutoIPBinary sampleReport = .ok sampleInfo :=
  ⟨⟨by decide, by decide⟩,
    parseAutoIPBinary_ignores_frame_header otherHeaderReport sampleReport (by decide) (by decide),
    by decide, rfl⟩

end visionary
